import Mathlib

/-!
HelenOS softfloat: multiplication (`softfloat/generic/mul.c`)

A shallow embedding of `mulFloat32`, `mulFloat64` and `mul64integers`.

* Machine words are natural numbers; every C operation that can wrap is
  followed by an explicit `% 2 ^ w`.
* The signed working exponent `__s32 exp` is an `Int`; it stays within
  `[-1023, 3071]`, far from the limits of 32 bits.
* `float32` / `float64` are the unions of `sftypes.h`, carried by their
  `binary` view; the `parts` view is read through `sign`, `exp`, `mantisa`.
* The local `result` is written field by field in the source.  Every return
  path writes all three fields (or the whole `binary`), so each return is
  embedded as one packing of the three fields written on that path.
-/

namespace SoftFloat

/-! ## Types and constants of the companion header `sftypes.h` -/

/-- Modelled from the spec: the union `float32` of `sftypes.h` (not among the
sources), carried by its packed view `binary`. -/
structure float32 where
  binary : Nat
deriving DecidableEq, Repr

/-- Modelled from the spec: the union `float64` of `sftypes.h` (not among the
sources), carried by its packed view `binary`. -/
structure float64 where
  binary : Nat
deriving DecidableEq, Repr

/-- Modelled from the spec: `parts.sign` of `float32`, 1 bit, the top bit of
the word (`sftypes.h` is not among the sources). -/
def float32.sign (f : float32) : Nat := f.binary / 2 ^ 31 % 2

/-- Modelled from the spec: `parts.exp` of `float32`, 8 bits, stored biased
(`sftypes.h` is not among the sources). -/
def float32.exp (f : float32) : Nat := f.binary / 2 ^ 23 % 2 ^ 8

/-- Modelled from the spec: `parts.mantisa` of `float32`, the low 23 bits
(`sftypes.h` is not among the sources). -/
def float32.mantisa (f : float32) : Nat := f.binary % 2 ^ 23

/-- Modelled from the spec: `parts.sign` of `float64`, 1 bit, the top bit of
the word (`sftypes.h` is not among the sources). -/
def float64.sign (f : float64) : Nat := f.binary / 2 ^ 63 % 2

/-- Modelled from the spec: `parts.exp` of `float64`, 11 bits, stored biased
(`sftypes.h` is not among the sources). -/
def float64.exp (f : float64) : Nat := f.binary / 2 ^ 52 % 2 ^ 11

/-- Modelled from the spec: `parts.mantisa` of `float64`, the low 52 bits
(`sftypes.h` is not among the sources). -/
def float64.mantisa (f : float64) : Nat := f.binary % 2 ^ 52

/-- Modelled from the spec: the packed word of a `float32` whose three bit
fields were assigned `sign`, `exp`, `mantisa`; an assignment to a bit field
keeps the low bits of the value (`sftypes.h` is not among the sources). -/
def float32.ofParts (sign exp mantisa : Nat) : float32 :=
  ⟨sign % 2 * 2 ^ 31 + exp % 2 ^ 8 * 2 ^ 23 + mantisa % 2 ^ 23⟩

/-- Modelled from the spec: the packed word of a `float64` whose three bit
fields were assigned `sign`, `exp`, `mantisa` (`sftypes.h` is not among the
sources). -/
def float64.ofParts (sign exp mantisa : Nat) : float64 :=
  ⟨sign % 2 * 2 ^ 63 + exp % 2 ^ 11 * 2 ^ 52 + mantisa % 2 ^ 52⟩

/-- The assignment `result.parts.sign = s` on an existing word. -/
def float32.setSign (f : float32) (s : Nat) : float32 :=
  float32.ofParts s f.exp f.mantisa

/-- The assignment `result.parts.sign = s` on an existing word. -/
def float64.setSign (f : float64) (s : Nat) : float64 :=
  float64.ofParts s f.exp f.mantisa

/-- The value a signed `exp` leaves in a bit field of `w` bits. -/
def expField (w : Nat) (exp : Int) : Nat := (exp % 2 ^ w).toNat

/-- Modelled from the spec: `FLOAT32_MANTISA_SIZE`, the mantissa width `M`
(`sftypes.h` is not among the sources). -/
def FLOAT32_MANTISA_SIZE : Nat := 23

/-- Modelled from the spec: `FLOAT32_BIAS` (`sftypes.h` is not among the
sources). -/
def FLOAT32_BIAS : Nat := 127

/-- Modelled from the spec: `FLOAT32_MAX_EXPONENT`, the reserved code `EMAX`
(`sftypes.h` is not among the sources). -/
def FLOAT32_MAX_EXPONENT : Nat := 255

/-- Modelled from the spec: `FLOAT32_HIDDEN_BIT_MASK`, `1 << M`
(`sftypes.h` is not among the sources). -/
def FLOAT32_HIDDEN_BIT_MASK : Nat := 2 ^ 23

/-- Modelled from the spec: `FLOAT32_INF`, the Infinity encoding, exponent
`EMAX` and mantissa 0 (`sftypes.h` is not among the sources); its sign bit is
overwritten right after the one place that uses it. -/
def FLOAT32_INF : float32 := ⟨0x7F800000⟩

/-- Modelled from the spec: `FLOAT64_MANTISA_SIZE`, the mantissa width `M`
(`sftypes.h` is not among the sources). -/
def FLOAT64_MANTISA_SIZE : Nat := 52

/-- Modelled from the spec: `FLOAT64_BIAS` (`sftypes.h` is not among the
sources). -/
def FLOAT64_BIAS : Nat := 1023

/-- Modelled from the spec: `FLOAT64_MAX_EXPONENT`, the reserved code `EMAX`
(`sftypes.h` is not among the sources). -/
def FLOAT64_MAX_EXPONENT : Nat := 2047

/-- Modelled from the spec: `FLOAT64_HIDDEN_BIT_MASK`, `1 << M`
(`sftypes.h` is not among the sources). -/
def FLOAT64_HIDDEN_BIT_MASK : Nat := 2 ^ 52

/-- Modelled from the spec: `FLOAT64_INF`, the Infinity encoding, exponent
`EMAX` and mantissa 0 (`sftypes.h` is not among the sources); its sign bit is
overwritten right after the one place that uses it. -/
def FLOAT64_INF : float64 := ⟨0x7FF0000000000000⟩

/-- Modelled from the spec: what the companion header and classification
module (`sftypes.h`, `comparison.c`, not among the sources) fix and the spec
leaves open: the canonical quiet-NaN patterns `FLOAT32_NAN`, `FLOAT64_NAN`,
and the convention on the mantissa field that tells a signaling NaN from a
quiet one.  Everything below takes them as a parameter. -/
structure Companion where
  FLOAT32_NAN : float32
  FLOAT64_NAN : float64
  signaling32 : Nat → Bool
  signaling64 : Nat → Bool

/-! ## Classification predicates of the companion module `comparison.c` -/

/-- Modelled from the spec: `isFloat32NaN`, exponent `EMAX` and mantissa
non-zero (`comparison.c` is not among the sources). -/
def isFloat32NaN (f : float32) : Bool :=
  f.exp == FLOAT32_MAX_EXPONENT && f.mantisa != 0

/-- Modelled from the spec: `isFloat32SigNaN`, a NaN that the companion
convention on the mantissa marks as signaling (`comparison.c` is not among the
sources). -/
def isFloat32SigNaN (c : Companion) (f : float32) : Bool :=
  isFloat32NaN f && c.signaling32 f.mantisa

/-- Modelled from the spec: `isFloat32Infinity`, exponent `EMAX` and mantissa 0
(`comparison.c` is not among the sources). -/
def isFloat32Infinity (f : float32) : Bool :=
  f.exp == FLOAT32_MAX_EXPONENT && f.mantisa == 0

/-- Modelled from the spec: `isFloat32Zero`, exponent 0 and mantissa 0
(`comparison.c` is not among the sources). -/
def isFloat32Zero (f : float32) : Bool :=
  f.exp == 0 && f.mantisa == 0

/-- Modelled from the spec: `isFloat64NaN`, exponent `EMAX` and mantissa
non-zero (`comparison.c` is not among the sources). -/
def isFloat64NaN (f : float64) : Bool :=
  f.exp == FLOAT64_MAX_EXPONENT && f.mantisa != 0

/-- Modelled from the spec: `isFloat64SigNaN`, a NaN that the companion
convention on the mantissa marks as signaling (`comparison.c` is not among the
sources). -/
def isFloat64SigNaN (c : Companion) (f : float64) : Bool :=
  isFloat64NaN f && c.signaling64 f.mantisa

/-- Modelled from the spec: `isFloat64Infinity`, exponent `EMAX` and mantissa 0
(`comparison.c` is not among the sources). -/
def isFloat64Infinity (f : float64) : Bool :=
  f.exp == FLOAT64_MAX_EXPONENT && f.mantisa == 0

/-- Modelled from the spec: `isFloat64Zero`, exponent 0 and mantissa 0
(`comparison.c` is not among the sources). -/
def isFloat64Zero (f : float64) : Bool :=
  f.exp == 0 && f.mantisa == 0

/-- Modelled from the spec: the classification Normal of the data model,
`0 < exponent < EMAX` (`comparison.c` is not among the sources). -/
def float32.isNormal (f : float32) : Bool :=
  decide (0 < f.exp) && decide (f.exp < FLOAT32_MAX_EXPONENT)

/-- Modelled from the spec: the classification Subnormal of the data model,
exponent 0 and mantissa non-zero (`comparison.c` is not among the sources). -/
def float32.isSubnormal (f : float32) : Bool :=
  f.exp == 0 && f.mantisa != 0

/-- Modelled from the spec: the classification Normal of the data model,
`0 < exponent < EMAX` (`comparison.c` is not among the sources). -/
def float64.isNormal (f : float64) : Bool :=
  decide (0 < f.exp) && decide (f.exp < FLOAT64_MAX_EXPONENT)

/-- Modelled from the spec: the classification Subnormal of the data model,
exponent 0 and mantissa non-zero (`comparison.c` is not among the sources). -/
def float64.isSubnormal (f : float64) : Bool :=
  f.exp == 0 && f.mantisa != 0

/-! ## `mul64integers` (mul.c, lines 324-348) -/

/-- The function `mul64integers(a, b, &lo, &hi)`, returning `(lo, hi)`.
`alow`, `blow` are `__u32`, everything else `__u64`.  In line 341 the C
grammar reads `x + middle1>>32` as `(x + middle1) >> 32`; line 342,
`middle1 << 32;`, is an expression statement without effect. -/
def mul64integers (a b : Nat) : Nat × Nat :=
  let alow := (a &&& 0xFFFFFFFF) % 2 ^ 32
  let blow := (b &&& 0xFFFFFFFF) % 2 ^ 32
  let a := (a <<< 32) % 2 ^ 64
  let b := (b <<< 32) % 2 ^ 64
  let low := (alow * blow) % 2 ^ 64
  let middle1 := (a * blow) % 2 ^ 64
  let middle2 := (alow * b) % 2 ^ 64
  let high := (a * b) % 2 ^ 64
  let middle1 := (middle1 + middle2) % 2 ^ 64
  let high := (high + (((((if middle1 < middle2 then 1 else 0) <<< 32) % 2 ^ 64
      + middle1) % 2 ^ 64) >>> 32)) % 2 ^ 64
  let low := (low + middle1) % 2 ^ 64
  let high := (high + (if low < middle1 then 1 else 0)) % 2 ^ 64
  (low, high)

/-! ## `mulFloat32` (mul.c, lines 36-167) -/

/-- Lines 103-120: the two working mantissas, the compensation of `exp` for
operands with exponent field 0, and the raw product in the 64-bit `mant1`. -/
def mulFloat32.product (a b : float32) (exp : Int) : Int × Nat :=
  let mant1 := a.mantisa
  let (mant1, exp) :=
    if a.exp > 0 then (mant1 ||| FLOAT32_HIDDEN_BIT_MASK, exp) else (mant1, exp + 1)
  let mant2 := b.mantisa
  let (mant2, exp) :=
    if b.exp > 0 then (mant2 ||| FLOAT32_HIDDEN_BIT_MASK, exp) else (mant2, exp + 1)
  let mant1 := (mant1 <<< 1) % 2 ^ 64
  let mant1 := (mant1 * mant2) % 2 ^ 64
  (exp, mant1)

/-- Lines 123-127: the normalisation loop
`while ((exp < FLOAT32_MAX_EXPONENT) && (mant1 >= (1 << (FLOAT32_MANTISA_SIZE + 2))))`. -/
def mulFloat32.normalize (exp : Int) (mant1 : Nat) : Int × Nat :=
  if exp < FLOAT32_MAX_EXPONENT ∧ mant1 ≥ 1 <<< (FLOAT32_MANTISA_SIZE + 2) then
    mulFloat32.normalize (exp + 1) (mant1 >>> 1)
  else (exp, mant1)
termination_by mant1
decreasing_by
  rename_i h
  have h2 : 1 <<< (FLOAT32_MANTISA_SIZE + 2) = 33554432 := by decide
  rw [h2] at h
  rw [Nat.shiftRight_eq_div_pow]
  omega

/-- Lines 131-136: the rounding space is shifted off, then the carry-absorb
step. -/
def mulFloat32.round (exp : Int) (mant1 : Nat) : Int × Nat :=
  let mant1 := mant1 >>> 1
  if exp < FLOAT32_MAX_EXPONENT ∧ mant1 ≥ 1 <<< (FLOAT32_MANTISA_SIZE + 1) then
    (exp + 1, mant1 >>> 1)
  else (exp, mant1)

/-- Lines 151-154: the denormal loop `while ((mant1 > 0) && (exp < 0))`. -/
def mulFloat32.denormalize (exp : Int) (mant1 : Nat) : Int × Nat :=
  if mant1 > 0 ∧ exp < 0 then
    mulFloat32.denormalize (exp + 1) (mant1 >>> 1)
  else (exp, mant1)
termination_by mant1
decreasing_by
  rename_i h
  rw [Nat.shiftRight_eq_div_pow]
  omega

/-- Lines 138-165: final overflow test, rebias, denormal branch and pack. -/
def mulFloat32.finish (sign : Nat) (exp : Int) (mant1 : Nat) : float32 :=
  if exp ≥ FLOAT32_MAX_EXPONENT then
    float32.ofParts sign FLOAT32_MAX_EXPONENT 0
  else
    let exp := exp - FLOAT32_MANTISA_SIZE
    if exp ≤ FLOAT32_MANTISA_SIZE then
      let (exp, mant1) := mulFloat32.denormalize exp (mant1 >>> 1)
      if mant1 = 0 then float32.ofParts sign 0 0
      else float32.ofParts sign (expField 8 exp) (mant1 &&& ((1 <<< FLOAT32_MANTISA_SIZE) - 1))
    else float32.ofParts sign (expField 8 exp) (mant1 &&& ((1 <<< FLOAT32_MANTISA_SIZE) - 1))

/-- The function `mulFloat32(a, b)`. -/
def mulFloat32 (c : Companion) (a b : float32) : float32 :=
  let sign := a.sign ^^^ b.sign
  if isFloat32NaN a || isFloat32NaN b then
    if isFloat32SigNaN c a then float32.ofParts sign a.exp a.mantisa
    else if isFloat32SigNaN c b then float32.ofParts sign b.exp b.mantisa
    else c.FLOAT32_NAN
  else if isFloat32Infinity a then
    if isFloat32Zero b then c.FLOAT32_NAN
    else float32.ofParts sign a.exp a.mantisa
  else if isFloat32Infinity b then
    if isFloat32Zero a then c.FLOAT32_NAN
    else float32.ofParts sign b.exp b.mantisa
  else
    let exp : Int := ((a.exp + b.exp : Nat) : Int) - FLOAT32_BIAS
    if exp ≥ FLOAT32_MAX_EXPONENT then FLOAT32_INF.setSign (a.sign ^^^ b.sign)
    else if exp < 0 then float32.ofParts sign 0 0
    else
      let (exp, mant1) := mulFloat32.product a b exp
      let (exp, mant1) := mulFloat32.normalize exp mant1
      let (exp, mant1) := mulFloat32.round exp mant1
      mulFloat32.finish sign exp mant1

/-! ## `mulFloat64` (mul.c, lines 172-316) -/

/-- Lines 239-256: the two working mantissas, the compensation of `exp` for
operands with exponent field 0, and the call
`mul64integers(mant1, mant2, &mant1, &mant2)`; the result is
`(exp, mant1, mant2)` with `mant1` the low and `mant2` the high word. -/
def mulFloat64.product (a b : float64) (exp : Int) : Int × Nat × Nat :=
  let mant1 := a.mantisa
  let (mant1, exp) :=
    if a.exp > 0 then (mant1 ||| FLOAT64_HIDDEN_BIT_MASK, exp) else (mant1, exp + 1)
  let mant2 := b.mantisa
  let (mant2, exp) :=
    if b.exp > 0 then (mant2 ||| FLOAT64_HIDDEN_BIT_MASK, exp) else (mant2, exp + 1)
  let mant1 := (mant1 <<< 1) % 2 ^ 64
  let (lo, hi) := mul64integers mant1 mant2
  (exp, lo, hi)

/-- Lines 266-271: the merge loop
`while ((exp < FLOAT64_MAX_EXPONENT) && (mant2 > 0))`; its second statement is
`mant1 &= ((mant2 & 0x1) << 63)`. -/
def mulFloat64.merge (exp : Int) (mant1 mant2 : Nat) : Int × Nat × Nat :=
  if exp < FLOAT64_MAX_EXPONENT ∧ mant2 > 0 then
    mulFloat64.merge (exp + 1) ((mant1 >>> 1) &&& (((mant2 &&& 0x1) <<< 63) % 2 ^ 64))
      (mant2 >>> 1)
  else (exp, mant1, mant2)
termination_by mant2
decreasing_by
  rename_i h
  rw [Nat.shiftRight_eq_div_pow]
  omega

/-- Lines 273-276: the normalisation loop
`while ((exp < FLOAT64_MAX_EXPONENT) && (mant1 >= ((__u64)1 << (FLOAT64_MANTISA_SIZE + 2))))`. -/
def mulFloat64.normalize (exp : Int) (mant1 : Nat) : Int × Nat :=
  if exp < FLOAT64_MAX_EXPONENT ∧ mant1 ≥ 1 <<< (FLOAT64_MANTISA_SIZE + 2) then
    mulFloat64.normalize (exp + 1) (mant1 >>> 1)
  else (exp, mant1)
termination_by mant1
decreasing_by
  rename_i h
  have h2 : 1 <<< (FLOAT64_MANTISA_SIZE + 2) = 18014398509481984 := by decide
  rw [h2] at h
  rw [Nat.shiftRight_eq_div_pow]
  omega

/-- Lines 280-285: the rounding space is shifted off, then the carry-absorb
step. -/
def mulFloat64.round (exp : Int) (mant1 : Nat) : Int × Nat :=
  let mant1 := mant1 >>> 1
  if exp < FLOAT64_MAX_EXPONENT ∧ mant1 ≥ 1 <<< (FLOAT64_MANTISA_SIZE + 1) then
    (exp + 1, mant1 >>> 1)
  else (exp, mant1)

/-- Lines 300-303: the denormal loop `while ((mant1 > 0) && (exp < 0))`. -/
def mulFloat64.denormalize (exp : Int) (mant1 : Nat) : Int × Nat :=
  if mant1 > 0 ∧ exp < 0 then
    mulFloat64.denormalize (exp + 1) (mant1 >>> 1)
  else (exp, mant1)
termination_by mant1
decreasing_by
  rename_i h
  rw [Nat.shiftRight_eq_div_pow]
  omega

/-- Lines 287-314: final overflow test, rebias, denormal branch and pack. -/
def mulFloat64.finish (sign : Nat) (exp : Int) (mant1 : Nat) : float64 :=
  if exp ≥ FLOAT64_MAX_EXPONENT then
    float64.ofParts sign FLOAT64_MAX_EXPONENT 0
  else
    let exp := exp - FLOAT64_MANTISA_SIZE
    if exp ≤ FLOAT64_MANTISA_SIZE then
      let (exp, mant1) := mulFloat64.denormalize exp (mant1 >>> 1)
      if mant1 = 0 then float64.ofParts sign 0 0
      else float64.ofParts sign (expField 11 exp) (mant1 &&& ((1 <<< FLOAT64_MANTISA_SIZE) - 1))
    else float64.ofParts sign (expField 11 exp) (mant1 &&& ((1 <<< FLOAT64_MANTISA_SIZE) - 1))

/-- The function `mulFloat64(a, b)`. -/
def mulFloat64 (c : Companion) (a b : float64) : float64 :=
  let sign := a.sign ^^^ b.sign
  if isFloat64NaN a || isFloat64NaN b then
    if isFloat64SigNaN c a then float64.ofParts sign a.exp a.mantisa
    else if isFloat64SigNaN c b then float64.ofParts sign b.exp b.mantisa
    else c.FLOAT64_NAN
  else if isFloat64Infinity a then
    if isFloat64Zero b then c.FLOAT64_NAN
    else float64.ofParts sign a.exp a.mantisa
  else if isFloat64Infinity b then
    if isFloat64Zero a then c.FLOAT64_NAN
    else float64.ofParts sign b.exp b.mantisa
  else
    let exp : Int := ((a.exp + b.exp : Nat) : Int) - FLOAT64_BIAS
    if exp ≥ FLOAT64_MAX_EXPONENT then FLOAT64_INF.setSign (a.sign ^^^ b.sign)
    else if exp < 0 then float64.ofParts sign 0 0
    else
      let (exp, mant1, mant2) := mulFloat64.product a b exp
      let (exp, mant1, _) := mulFloat64.merge exp mant1 mant2
      let (exp, mant1) := mulFloat64.normalize exp mant1
      let (exp, mant1) := mulFloat64.round exp mant1
      mulFloat64.finish sign exp mant1

/-- One choice of the companion data: the quiet-NaN patterns `0x7FC00001` and
`0x7FF8000000000001`, and the convention that a NaN is signaling when the top
bit of its mantissa field is clear.  Used only to evaluate the functions on
concrete inputs. -/
def Companion.ieee : Companion where
  FLOAT32_NAN := ⟨0x7FC00001⟩
  FLOAT64_NAN := ⟨0x7FF8000000000001⟩
  signaling32 := fun m => m < 0x400000
  signaling64 := fun m => m < 0x8000000000000

/-! ## The `while` loops as a condition and a body, run with a bound on the turns -/

/-- A loop `while (cond) body` run for at most `fuel` turns from the state `s`:
`some` of the state in which the condition fails, `none` when `fuel` turns did
not reach such a state. -/
def whileLoop {σ : Type} (cond : σ → Bool) (body : σ → σ) : Nat → σ → Option σ
  | 0, _ => none
  | fuel + 1, s => if cond s then whileLoop cond body fuel (body s) else some s

/-- Line 123: the condition of the normalisation loop on `(exp, mant1)`. -/
def mulFloat32.normalizeCond (s : Int × Nat) : Bool :=
  decide (s.1 < FLOAT32_MAX_EXPONENT ∧ s.2 ≥ 1 <<< (FLOAT32_MANTISA_SIZE + 2))

/-- Lines 125-126: `++exp; mant1 >>= 1;`. -/
def mulFloat32.normalizeBody (s : Int × Nat) : Int × Nat := (s.1 + 1, s.2 >>> 1)

/-- Line 151: the condition of the denormal loop on `(exp, mant1)`. -/
def mulFloat32.denormalizeCond (s : Int × Nat) : Bool := decide (s.2 > 0 ∧ s.1 < 0)

/-- Lines 152-153: `mant1 >>= 1; ++exp;`. -/
def mulFloat32.denormalizeBody (s : Int × Nat) : Int × Nat := (s.1 + 1, s.2 >>> 1)

/-- Line 266: the condition of the merge loop on `(exp, mant1, mant2)`. -/
def mulFloat64.mergeCond (s : Int × Nat × Nat) : Bool :=
  decide (s.1 < FLOAT64_MAX_EXPONENT ∧ s.2.2 > 0)

/-- Lines 267-270: `mant1 >>= 1; mant1 &= ((mant2 & 0x1) << 63); mant2 >>= 1; ++exp;`. -/
def mulFloat64.mergeBody (s : Int × Nat × Nat) : Int × Nat × Nat :=
  (s.1 + 1, (s.2.1 >>> 1) &&& (((s.2.2 &&& 0x1) <<< 63) % 2 ^ 64), s.2.2 >>> 1)

/-- Line 273: the condition of the normalisation loop on `(exp, mant1)`. -/
def mulFloat64.normalizeCond (s : Int × Nat) : Bool :=
  decide (s.1 < FLOAT64_MAX_EXPONENT ∧ s.2 ≥ 1 <<< (FLOAT64_MANTISA_SIZE + 2))

/-- Lines 274-275: `++exp; mant1 >>= 1;`. -/
def mulFloat64.normalizeBody (s : Int × Nat) : Int × Nat := (s.1 + 1, s.2 >>> 1)

/-- Line 300: the condition of the denormal loop on `(exp, mant1)`. -/
def mulFloat64.denormalizeCond (s : Int × Nat) : Bool := decide (s.2 > 0 ∧ s.1 < 0)

/-- Lines 301-302: `mant1 >>= 1; ++exp;`. -/
def mulFloat64.denormalizeBody (s : Int × Nat) : Int × Nat := (s.1 + 1, s.2 >>> 1)

/-! ## The working exponent at the final pack -/

/-- Lines 138-162 of `mulFloat32`: the value of the working `exp` when the
assignment `result.parts.exp = exp` of line 162 is reached, `none` on the two
returns before it (late overflow, line 143; zero mantissa, line 159). -/
def mulFloat32.packExp (exp : Int) (mant1 : Nat) : Option Int :=
  if exp ≥ FLOAT32_MAX_EXPONENT then none
  else
    let exp := exp - FLOAT32_MANTISA_SIZE
    if exp ≤ FLOAT32_MANTISA_SIZE then
      let (exp, mant1) := mulFloat32.denormalize exp (mant1 >>> 1)
      if mant1 = 0 then none else some exp
    else some exp

/-- Lines 287-311 of `mulFloat64`: the value of the working `exp` when the
assignment `result.parts.exp = exp` of line 311 is reached, `none` on the two
returns before it (late overflow, line 292; zero mantissa, line 308). -/
def mulFloat64.packExp (exp : Int) (mant1 : Nat) : Option Int :=
  if exp ≥ FLOAT64_MAX_EXPONENT then none
  else
    let exp := exp - FLOAT64_MANTISA_SIZE
    if exp ≤ FLOAT64_MANTISA_SIZE then
      let (exp, mant1) := mulFloat64.denormalize exp (mant1 >>> 1)
      if mant1 = 0 then none else some exp
    else some exp

/-! ## Field lemmas -/

theorem float32_sign_lt (f : float32) : f.sign < 2 := Nat.mod_lt _ (by decide)

theorem float32_exp_lt (f : float32) : f.exp < 256 := Nat.mod_lt _ (by decide)

theorem float32_mantisa_lt (f : float32) : f.mantisa < 2 ^ 23 := Nat.mod_lt _ (by decide)

theorem float64_sign_lt (f : float64) : f.sign < 2 := Nat.mod_lt _ (by decide)

theorem float64_exp_lt (f : float64) : f.exp < 2048 := Nat.mod_lt _ (by decide)

theorem float64_mantisa_lt (f : float64) : f.mantisa < 2 ^ 52 := Nat.mod_lt _ (by decide)

theorem xor_bit_lt {x y : Nat} (hx : x < 2) (hy : y < 2) : x ^^^ y < 2 := by
  interval_cases x <;> interval_cases y <;> decide

theorem float32_sign_ofParts (s e m : Nat) : (float32.ofParts s e m).sign = s % 2 := by
  simp only [float32.ofParts, float32.sign]
  omega

theorem float32_exp_ofParts (s e m : Nat) : (float32.ofParts s e m).exp = e % 256 := by
  simp only [float32.ofParts, float32.exp]
  omega

theorem float32_mantisa_ofParts (s e m : Nat) :
    (float32.ofParts s e m).mantisa = m % 2 ^ 23 := by
  simp only [float32.ofParts, float32.mantisa]
  omega

theorem float64_sign_ofParts (s e m : Nat) : (float64.ofParts s e m).sign = s % 2 := by
  simp only [float64.ofParts, float64.sign]
  omega

theorem float64_exp_ofParts (s e m : Nat) : (float64.ofParts s e m).exp = e % 2048 := by
  simp only [float64.ofParts, float64.exp]
  omega

theorem float64_mantisa_ofParts (s e m : Nat) :
    (float64.ofParts s e m).mantisa = m % 2 ^ 52 := by
  simp only [float64.ofParts, float64.mantisa]
  omega

theorem float32_xor_sign_mod (a b : float32) :
    (a.sign ^^^ b.sign) % 2 = a.sign ^^^ b.sign :=
  Nat.mod_eq_of_lt (xor_bit_lt (float32_sign_lt a) (float32_sign_lt b))

theorem float32_exp_mod (a : float32) : a.exp % 256 = a.exp :=
  Nat.mod_eq_of_lt (float32_exp_lt a)

theorem float32_mantisa_mod (a : float32) : a.mantisa % 2 ^ 23 = a.mantisa :=
  Nat.mod_eq_of_lt (float32_mantisa_lt a)

theorem float64_xor_sign_mod (a b : float64) :
    (a.sign ^^^ b.sign) % 2 = a.sign ^^^ b.sign :=
  Nat.mod_eq_of_lt (xor_bit_lt (float64_sign_lt a) (float64_sign_lt b))

theorem float64_exp_mod (a : float64) : a.exp % 2048 = a.exp :=
  Nat.mod_eq_of_lt (float64_exp_lt a)

theorem float64_mantisa_mod (a : float64) : a.mantisa % 2 ^ 52 = a.mantisa :=
  Nat.mod_eq_of_lt (float64_mantisa_lt a)

/-! ## Classification lemmas -/

theorem isFloat32SigNaN_isNaN {c : Companion} {f : float32}
    (h : isFloat32SigNaN c f = true) : isFloat32NaN f = true := by
  unfold isFloat32SigNaN at h
  simp only [Bool.and_eq_true] at h
  exact h.1

theorem isFloat32Infinity_fields {f : float32} (h : isFloat32Infinity f = true) :
    f.exp = 255 ∧ f.mantisa = 0 := by
  simpa [isFloat32Infinity, FLOAT32_MAX_EXPONENT] using h

theorem isFloat32Zero_fields {f : float32} (h : isFloat32Zero f = true) :
    f.exp = 0 ∧ f.mantisa = 0 := by
  simpa [isFloat32Zero] using h

theorem isFloat32NaN_of_mantisa_zero {f : float32} (h : f.mantisa = 0) :
    isFloat32NaN f = false := by
  simp [isFloat32NaN, h]

theorem isFloat32NaN_of_exp_ne {f : float32} (h : f.exp ≠ 255) :
    isFloat32NaN f = false := by
  simp [isFloat32NaN, FLOAT32_MAX_EXPONENT, h]

theorem isFloat32Infinity_of_exp_ne {f : float32} (h : f.exp ≠ 255) :
    isFloat32Infinity f = false := by
  simp [isFloat32Infinity, FLOAT32_MAX_EXPONENT, h]

theorem float32_exp_ne_of_finite {f : float32} (hn : isFloat32NaN f = false)
    (hi : isFloat32Infinity f = false) : f.exp ≠ 255 := by
  intro h
  by_cases hm : f.mantisa = 0
  · simp [isFloat32Infinity, FLOAT32_MAX_EXPONENT, h, hm] at hi
  · simp [isFloat32NaN, FLOAT32_MAX_EXPONENT, h, hm] at hn

theorem float32_exp_ne_of_normal_or_subnormal {f : float32}
    (h : (f.isNormal || f.isSubnormal) = true) : f.exp ≠ 255 := by
  intro he
  simp [float32.isNormal, float32.isSubnormal, FLOAT32_MAX_EXPONENT, he] at h

theorem isFloat64NaN_of_exp_ne {f : float64} (h : f.exp ≠ 2047) :
    isFloat64NaN f = false := by
  simp [isFloat64NaN, FLOAT64_MAX_EXPONENT, h]

theorem isFloat64Infinity_of_exp_ne {f : float64} (h : f.exp ≠ 2047) :
    isFloat64Infinity f = false := by
  simp [isFloat64Infinity, FLOAT64_MAX_EXPONENT, h]

theorem float64_exp_ne_of_normal_or_subnormal {f : float64}
    (h : (f.isNormal || f.isSubnormal) = true) : f.exp ≠ 2047 := by
  intro he
  simp [float64.isNormal, float64.isSubnormal, FLOAT64_MAX_EXPONENT, he] at h

/-! ## The loops of `mulFloat32` -/

theorem mulFloat32_normalize_stop_mant {exp : Int} {m : Nat} (h : m < 2 ^ 25) :
    mulFloat32.normalize exp m = (exp, m) := by
  rw [mulFloat32.normalize]
  have e1 : 1 <<< (FLOAT32_MANTISA_SIZE + 2) = 2 ^ 25 := by decide
  rw [e1, if_neg]
  omega

theorem mulFloat32_normalize_stop_exp {exp : Int} {m : Nat} (h : 255 ≤ exp) :
    mulFloat32.normalize exp m = (exp, m) := by
  rw [mulFloat32.normalize]
  have e2 : ((FLOAT32_MAX_EXPONENT : Nat) : Int) = 255 := by decide
  rw [e2, if_neg]
  omega

theorem mulFloat32_normalize_step {exp : Int} {m : Nat} (h1 : exp < 255) (h2 : 2 ^ 25 ≤ m) :
    mulFloat32.normalize exp m = mulFloat32.normalize (exp + 1) (m / 2) := by
  rw [mulFloat32.normalize]
  have e1 : 1 <<< (FLOAT32_MANTISA_SIZE + 2) = 2 ^ 25 := by decide
  have e2 : ((FLOAT32_MAX_EXPONENT : Nat) : Int) = 255 := by decide
  rw [e1, e2, if_pos ⟨h1, h2⟩, Nat.shiftRight_eq_div_pow, pow_one]

/-- `k` turns of the normalisation loop: as long as the exponent stays below
255 and the mantissa has more than 25 bits, each turn halves the mantissa. -/
theorem mulFloat32_normalize_iter (k : Nat) : ∀ (exp : Int) (m : Nat),
    exp + k ≤ 255 → (k = 0 ∨ 2 ^ (24 + k) ≤ m) →
    mulFloat32.normalize exp m = mulFloat32.normalize (exp + k) (m / 2 ^ k) := by
  induction k with
  | zero => intro exp m _ _; simp
  | succ k ih =>
    intro exp m h1 h2
    have hm : 2 ^ (25 + k) ≤ m := by
      rcases h2 with h2 | h2
      · omega
      · have : 24 + (k + 1) = 25 + k := by omega
        rwa [this] at h2
    have h25 : 2 ^ 25 ≤ m := le_trans (Nat.pow_le_pow_right (by decide) (by omega)) hm
    rw [mulFloat32_normalize_step (by omega) h25,
      ih (exp + 1) (m / 2) (by push_cast at h1 ⊢; omega)]
    · rw [Nat.div_div_eq_div_mul, pow_succ, Nat.mul_comm (2 ^ k) 2]
      congr 1
      push_cast
      ring
    · right
      rw [Nat.le_div_iff_mul_le (by decide)]
      calc 2 ^ (24 + k) * 2 = 2 ^ (25 + k) := by rw [← pow_succ]; congr 1; omega
        _ ≤ m := hm

theorem mulFloat32_finish_sign (s : Nat) (exp : Int) (m : Nat) :
    (mulFloat32.finish s exp m).sign = s % 2 := by
  unfold mulFloat32.finish
  split
  · exact float32_sign_ofParts _ _ _
  · dsimp only
    split
    · split <;> exact float32_sign_ofParts _ _ _
    · exact float32_sign_ofParts _ _ _

/-- On operands that are neither NaN nor Infinity and whose exponent sum
passes both early tests, `mulFloat32` is the pipeline
product, normalize, round, finish. -/
theorem mulFloat32_normal_path (c : Companion) (a b : float32)
    (hna : isFloat32NaN a = false) (hnb : isFloat32NaN b = false)
    (hia : isFloat32Infinity a = false) (hib : isFloat32Infinity b = false)
    (h0 : 127 ≤ a.exp + b.exp) (h1 : a.exp + b.exp < 382) :
    mulFloat32 c a b =
      mulFloat32.finish (a.sign ^^^ b.sign)
        (mulFloat32.round
          (mulFloat32.normalize (mulFloat32.product a b (((a.exp + b.exp : Nat) : Int) - 127)).1
            (mulFloat32.product a b (((a.exp + b.exp : Nat) : Int) - 127)).2).1
          (mulFloat32.normalize (mulFloat32.product a b (((a.exp + b.exp : Nat) : Int) - 127)).1
            (mulFloat32.product a b (((a.exp + b.exp : Nat) : Int) - 127)).2).2).1
        (mulFloat32.round
          (mulFloat32.normalize (mulFloat32.product a b (((a.exp + b.exp : Nat) : Int) - 127)).1
            (mulFloat32.product a b (((a.exp + b.exp : Nat) : Int) - 127)).2).1
          (mulFloat32.normalize (mulFloat32.product a b (((a.exp + b.exp : Nat) : Int) - 127)).1
            (mulFloat32.product a b (((a.exp + b.exp : Nat) : Int) - 127)).2).2).2 := by
  have e1 : ((FLOAT32_MAX_EXPONENT : Nat) : Int) = 255 := by decide
  have e2 : ((FLOAT32_BIAS : Nat) : Int) = 127 := by decide
  have c1 : ¬ (((a.exp + b.exp : Nat) : Int) - 127 ≥ 255) := by omega
  have c2 : ¬ (((a.exp + b.exp : Nat) : Int) - 127 < 0) := by omega
  unfold mulFloat32
  simp only [hna, hnb, hia, hib, Bool.or_self, Bool.false_eq_true, if_false, e1, e2, c1, c2]

/-- The sign of the result on every path that is not a NaN or Infinity
path: early overflow, early underflow, and every exit of the pipeline. -/
theorem mulFloat32_sign_finite (c : Companion) (a b : float32)
    (hna : isFloat32NaN a = false) (hnb : isFloat32NaN b = false)
    (hia : isFloat32Infinity a = false) (hib : isFloat32Infinity b = false) :
    (mulFloat32 c a b).sign = a.sign ^^^ b.sign := by
  unfold mulFloat32
  simp only [hna, hnb, hia, hib, Bool.or_self, Bool.false_eq_true, if_false]
  split
  · rw [float32.setSign, float32_sign_ofParts, float32_xor_sign_mod]
  · split
    · rw [float32_sign_ofParts, float32_xor_sign_mod]
    · rw [mulFloat32_finish_sign, float32_xor_sign_mod]

/-! ## The loops of `mulFloat64` -/

theorem mulFloat64_merge_stop_hi {exp : Int} {m1 : Nat} :
    mulFloat64.merge exp m1 0 = (exp, m1, 0) := by
  rw [mulFloat64.merge, if_neg]
  omega

theorem mulFloat64_normalize_stop_mant {exp : Int} {m : Nat} (h : m < 2 ^ 54) :
    mulFloat64.normalize exp m = (exp, m) := by
  rw [mulFloat64.normalize]
  have e1 : 1 <<< (FLOAT64_MANTISA_SIZE + 2) = 2 ^ 54 := by decide
  rw [e1, if_neg]
  omega

theorem mulFloat64_finish_sign (s : Nat) (exp : Int) (m : Nat) :
    (mulFloat64.finish s exp m).sign = s % 2 := by
  unfold mulFloat64.finish
  split
  · exact float64_sign_ofParts _ _ _
  · dsimp only
    split
    · split <;> exact float64_sign_ofParts _ _ _
    · exact float64_sign_ofParts _ _ _

/-- On operands that are neither NaN nor Infinity and whose exponent sum
passes both early tests, `mulFloat64` is the pipeline
product, merge, normalize, round, finish. -/
theorem mulFloat64_normal_path (c : Companion) (a b : float64)
    (hna : isFloat64NaN a = false) (hnb : isFloat64NaN b = false)
    (hia : isFloat64Infinity a = false) (hib : isFloat64Infinity b = false)
    (h0 : 1023 ≤ a.exp + b.exp) (h1 : a.exp + b.exp < 3070)
    (e : Int) (m1 m2 : Nat)
    (hp : mulFloat64.product a b (((a.exp + b.exp : Nat) : Int) - 1023) = (e, m1, m2)) :
    mulFloat64 c a b =
      mulFloat64.finish (a.sign ^^^ b.sign)
        (mulFloat64.round
          (mulFloat64.normalize (mulFloat64.merge e m1 m2).1 (mulFloat64.merge e m1 m2).2.1).1
          (mulFloat64.normalize (mulFloat64.merge e m1 m2).1 (mulFloat64.merge e m1 m2).2.1).2).1
        (mulFloat64.round
          (mulFloat64.normalize (mulFloat64.merge e m1 m2).1 (mulFloat64.merge e m1 m2).2.1).1
          (mulFloat64.normalize (mulFloat64.merge e m1 m2).1 (mulFloat64.merge e m1 m2).2.1).2).2 := by
  have e1 : ((FLOAT64_MAX_EXPONENT : Nat) : Int) = 2047 := by decide
  have e2 : ((FLOAT64_BIAS : Nat) : Int) = 1023 := by decide
  have c1 : ¬ (((a.exp + b.exp : Nat) : Int) - 1023 ≥ 2047) := by omega
  have c2 : ¬ (((a.exp + b.exp : Nat) : Int) - 1023 < 0) := by omega
  unfold mulFloat64
  simp only [hna, hnb, hia, hib, Bool.or_self, Bool.false_eq_true, if_false, e1, e2, c1, c2, hp]

/-- The sign of the result on every path that is not a NaN or Infinity
path: early overflow, early underflow, and every exit of the pipeline. -/
theorem mulFloat64_sign_finite (c : Companion) (a b : float64)
    (hna : isFloat64NaN a = false) (hnb : isFloat64NaN b = false)
    (hia : isFloat64Infinity a = false) (hib : isFloat64Infinity b = false) :
    (mulFloat64 c a b).sign = a.sign ^^^ b.sign := by
  unfold mulFloat64
  simp only [hna, hnb, hia, hib, Bool.or_self, Bool.false_eq_true, if_false]
  split
  · rw [float64.setSign, float64_sign_ofParts, float64_xor_sign_mod]
  · split
    · rw [float64_sign_ofParts, float64_xor_sign_mod]
    · rw [mulFloat64_finish_sign, float64_xor_sign_mod]

/-! ## Claims about `mul64integers` and the golden values -/

/-- C1 (the code at the boundary operands of the claim): `mul64integers`
returns `(0, 0)` for `a = b = 0`, `(0, 0)` for `a = b = 2^32` and `(1, 3)`
for `a = b = 2^64 - 1`; in the last two cases `lo + hi * 2^64` is not the
product `a * b`, and already `mul64integers 1 1` is `(2^33 + 1, 2)`. -/
theorem mul64integers_boundary_operands :
    mul64integers 0 0 = (0, 0) ∧
    mul64integers (2 ^ 32) (2 ^ 32) = (0, 0) ∧
    (mul64integers (2 ^ 32) (2 ^ 32)).1 + (mul64integers (2 ^ 32) (2 ^ 32)).2 * 2 ^ 64
      ≠ 2 ^ 32 * 2 ^ 32 ∧
    mul64integers (2 ^ 64 - 1) (2 ^ 64 - 1) = (1, 3) ∧
    (mul64integers (2 ^ 64 - 1) (2 ^ 64 - 1)).1
      + (mul64integers (2 ^ 64 - 1) (2 ^ 64 - 1)).2 * 2 ^ 64
      ≠ (2 ^ 64 - 1) * (2 ^ 64 - 1) ∧
    mul64integers 1 1 = (2 ^ 33 + 1, 2) := by
  refine ⟨by decide, by decide, by decide, by decide, by decide, by decide⟩

/-- C2: `mulFloat32` on the bit patterns of +2.0 (`0x40000000`) and +3.0
(`0x40400000`) returns the bit pattern of +6.0 (`0x40C00000`), whatever the
companion data. -/
theorem mulFloat32_two_times_three (c : Companion) :
    mulFloat32 c ⟨0x40000000⟩ ⟨0x40400000⟩ = ⟨0x40C00000⟩ := by
  rw [mulFloat32_normal_path c _ _ (by decide) (by decide) (by decide) (by decide)
    (by decide) (by decide)]
  have hp : mulFloat32.product ⟨0x40000000⟩ ⟨0x40400000⟩
      (((float32.exp ⟨0x40000000⟩ + float32.exp ⟨0x40400000⟩ : Nat) : Int) - 127)
      = (129, 211106232532992) := by decide
  have hn : mulFloat32.normalize 129 211106232532992 = (152, 25165824) := by
    rw [mulFloat32_normalize_iter 23 129 211106232532992 (by decide) (by decide)]
    exact mulFloat32_normalize_stop_mant (by decide)
  rw [hp]
  simp only [hn]
  decide

/-- C3 (the code at the input of the claim): `mulFloat64` on the bit pattern
of +0.5 (`0x3FE0000000000000`) twice returns `0x3C90000000000000`, which is
not the bit pattern of +0.25 (`0x3FD0000000000000`): `mul64integers` returns
`(0, 0)` for the two working mantissas `2^53` and `2^52`. -/
theorem mulFloat64_half_times_half (c : Companion) :
    mul64integers (2 ^ 53) (2 ^ 52) = (0, 0) ∧
    mulFloat64 c ⟨0x3FE0000000000000⟩ ⟨0x3FE0000000000000⟩ = ⟨0x3C90000000000000⟩ ∧
    mulFloat64 c ⟨0x3FE0000000000000⟩ ⟨0x3FE0000000000000⟩ ≠ ⟨0x3FD0000000000000⟩ := by
  have hp : mulFloat64.product ⟨0x3FE0000000000000⟩ ⟨0x3FE0000000000000⟩
      (((float64.exp ⟨0x3FE0000000000000⟩ + float64.exp ⟨0x3FE0000000000000⟩ : Nat) : Int)
        - 1023) = (1021, 0, 0) := by decide
  have hv : mulFloat64 c ⟨0x3FE0000000000000⟩ ⟨0x3FE0000000000000⟩
      = ⟨0x3C90000000000000⟩ := by
    rw [mulFloat64_normal_path c _ _ (by decide) (by decide) (by decide) (by decide)
      (by decide) (by decide) 1021 0 0 hp]
    have hn : mulFloat64.normalize 1021 0 = (1021, 0) :=
      mulFloat64_normalize_stop_mant (by decide)
    simp only [mulFloat64_merge_stop_hi, hn]
    decide
  refine ⟨by decide, hv, ?_⟩
  rw [hv]
  decide

/-! ## Special operands of `mulFloat32` -/

/-- C4: signaling-NaN propagation in `mulFloat32`.  If `a` is a signaling NaN
the result has sign `a.sign XOR b.sign` and the exponent and mantissa fields
of `a`; if `a` is not a signaling NaN and `b` is one, the result has sign
`a.sign XOR b.sign` and the exponent and mantissa fields of `b`. -/
theorem mulFloat32_propagates_signaling_nan (c : Companion) (a b : float32) :
    (isFloat32SigNaN c a = true →
      (mulFloat32 c a b).sign = a.sign ^^^ b.sign ∧
      (mulFloat32 c a b).exp = a.exp ∧
      (mulFloat32 c a b).mantisa = a.mantisa) ∧
    (isFloat32SigNaN c a = false → isFloat32SigNaN c b = true →
      (mulFloat32 c a b).sign = a.sign ^^^ b.sign ∧
      (mulFloat32 c a b).exp = b.exp ∧
      (mulFloat32 c a b).mantisa = b.mantisa) := by
  constructor
  · intro ha
    have hn := isFloat32SigNaN_isNaN ha
    simp only [mulFloat32, hn, ha, Bool.true_or, if_true]
    exact ⟨by rw [float32_sign_ofParts, float32_xor_sign_mod],
      by rw [float32_exp_ofParts, float32_exp_mod],
      by rw [float32_mantisa_ofParts, float32_mantisa_mod]⟩
  · intro ha hb
    have hn := isFloat32SigNaN_isNaN hb
    simp only [mulFloat32, hn, ha, hb, Bool.or_true, if_true, Bool.false_eq_true, if_false]
    exact ⟨by rw [float32_sign_ofParts, float32_xor_sign_mod],
      by rw [float32_exp_ofParts, float32_exp_mod],
      by rw [float32_mantisa_ofParts, float32_mantisa_mod]⟩

/-- Witness: the signaling NaN `0x7F800001` against `-1.0`
(`0xBF800000`), in both operand orders. -/
theorem mulFloat32_propagates_signaling_nan_witness :
    isFloat32SigNaN Companion.ieee ⟨0x7F800001⟩ = true ∧
    isFloat32SigNaN Companion.ieee ⟨0xBF800000⟩ = false ∧
    ((mulFloat32 Companion.ieee ⟨0x7F800001⟩ ⟨0xBF800000⟩).sign = 1 ∧
      (mulFloat32 Companion.ieee ⟨0x7F800001⟩ ⟨0xBF800000⟩).exp = 255 ∧
      (mulFloat32 Companion.ieee ⟨0x7F800001⟩ ⟨0xBF800000⟩).mantisa = 1) ∧
    ((mulFloat32 Companion.ieee ⟨0xBF800000⟩ ⟨0x7F800001⟩).sign = 1 ∧
      (mulFloat32 Companion.ieee ⟨0xBF800000⟩ ⟨0x7F800001⟩).exp = 255 ∧
      (mulFloat32 Companion.ieee ⟨0xBF800000⟩ ⟨0x7F800001⟩).mantisa = 1) :=
  ⟨by decide, by decide,
    (mulFloat32_propagates_signaling_nan Companion.ieee ⟨0x7F800001⟩ ⟨0xBF800000⟩).1
      (by decide),
    (mulFloat32_propagates_signaling_nan Companion.ieee ⟨0xBF800000⟩ ⟨0x7F800001⟩).2
      (by decide) (by decide)⟩

/-- C5: quiet-NaN result in `mulFloat32`.  If at least one operand is a NaN
and neither is a signaling NaN, the result is the whole pattern
`FLOAT32_NAN`, whatever the operand signs. -/
theorem mulFloat32_quiet_nan (c : Companion) (a b : float32)
    (hnan : (isFloat32NaN a || isFloat32NaN b) = true)
    (ha : isFloat32SigNaN c a = false) (hb : isFloat32SigNaN c b = false) :
    mulFloat32 c a b = c.FLOAT32_NAN := by
  unfold mulFloat32
  simp only [hnan, ha, hb, if_true, Bool.false_eq_true, if_false]

/-- Witness: a negative quiet NaN (`0xFFC00000`) times `-Infinity`
(`0xFF800000`), and `+0` times that quiet NaN. -/
theorem mulFloat32_quiet_nan_witness :
    (isFloat32NaN ⟨0xFFC00000⟩ || isFloat32NaN ⟨0xFF800000⟩) = true ∧
    isFloat32SigNaN Companion.ieee ⟨0xFFC00000⟩ = false ∧
    isFloat32SigNaN Companion.ieee ⟨0xFF800000⟩ = false ∧
    mulFloat32 Companion.ieee ⟨0xFFC00000⟩ ⟨0xFF800000⟩ = ⟨0x7FC00001⟩ ∧
    mulFloat32 Companion.ieee ⟨0⟩ ⟨0xFFC00000⟩ = ⟨0x7FC00001⟩ :=
  ⟨by decide, by decide, by decide,
    mulFloat32_quiet_nan Companion.ieee ⟨0xFFC00000⟩ ⟨0xFF800000⟩
      (by decide) (by decide) (by decide),
    mulFloat32_quiet_nan Companion.ieee ⟨0⟩ ⟨0xFFC00000⟩
      (by decide) (by decide) (by decide)⟩

/-- C6: invalid operation in `mulFloat32`.  For every Infinity `x` and every
Zero `z`, of any signs, `mulFloat32 x z` and `mulFloat32 z x` are both the
whole pattern `FLOAT32_NAN`. -/
theorem mulFloat32_infinity_times_zero (c : Companion) (x z : float32)
    (hx : isFloat32Infinity x = true) (hz : isFloat32Zero z = true) :
    mulFloat32 c x z = c.FLOAT32_NAN ∧ mulFloat32 c z x = c.FLOAT32_NAN := by
  have hxf := isFloat32Infinity_fields hx
  have hzf := isFloat32Zero_fields hz
  have hnx : isFloat32NaN x = false := isFloat32NaN_of_mantisa_zero hxf.2
  have hnz : isFloat32NaN z = false := isFloat32NaN_of_mantisa_zero hzf.2
  have hiz : isFloat32Infinity z = false :=
    isFloat32Infinity_of_exp_ne (by rw [hzf.1]; decide)
  constructor
  · unfold mulFloat32
    simp only [hnx, hnz, hx, hz, Bool.or_self, Bool.false_eq_true, if_false, if_true]
  · unfold mulFloat32
    simp only [hnx, hnz, hx, hz, hiz, Bool.or_self, Bool.false_eq_true, if_false, if_true]

/-- Witness: `-Infinity` (`0xFF800000`) and `+0`. -/
theorem mulFloat32_infinity_times_zero_witness :
    isFloat32Infinity ⟨0xFF800000⟩ = true ∧ isFloat32Zero ⟨0⟩ = true ∧
    mulFloat32 Companion.ieee ⟨0xFF800000⟩ ⟨0⟩ = ⟨0x7FC00001⟩ ∧
    mulFloat32 Companion.ieee ⟨0⟩ ⟨0xFF800000⟩ = ⟨0x7FC00001⟩ :=
  ⟨by decide, by decide,
    mulFloat32_infinity_times_zero Companion.ieee ⟨0xFF800000⟩ ⟨0⟩ (by decide) (by decide)⟩

/-- C7: Infinity times a non-zero value in `mulFloat32`.  For operands that
are not NaN, at least one of them an Infinity and neither a Zero, the result
in either operand order is Infinity (exponent 255, mantissa 0) with sign
`a.sign XOR b.sign`; in particular `+Infinity` times `-Infinity` is
`-Infinity` (`0xFF800000`). -/
theorem mulFloat32_infinity_times_nonzero (c : Companion) :
    (∀ a b : float32, isFloat32NaN a = false → isFloat32NaN b = false →
      (isFloat32Infinity a || isFloat32Infinity b) = true →
      isFloat32Zero a = false → isFloat32Zero b = false →
      ((mulFloat32 c a b).sign = a.sign ^^^ b.sign ∧ (mulFloat32 c a b).exp = 255 ∧
        (mulFloat32 c a b).mantisa = 0) ∧
      ((mulFloat32 c b a).sign = a.sign ^^^ b.sign ∧ (mulFloat32 c b a).exp = 255 ∧
        (mulFloat32 c b a).mantisa = 0)) ∧
    mulFloat32 c ⟨0x7F800000⟩ ⟨0xFF800000⟩ = ⟨0xFF800000⟩ := by
  have key : ∀ a b : float32, isFloat32NaN a = false → isFloat32NaN b = false →
      (isFloat32Infinity a || isFloat32Infinity b) = true →
      isFloat32Zero a = false → isFloat32Zero b = false →
      mulFloat32 c a b = float32.ofParts (a.sign ^^^ b.sign) 255 0 := by
    intro a b hna hnb hinf hza hzb
    unfold mulFloat32
    by_cases hia : isFloat32Infinity a = true
    · have hf := isFloat32Infinity_fields hia
      simp only [hna, hnb, hia, hzb, Bool.or_self, Bool.false_eq_true, if_false, if_true,
        hf.1, hf.2]
    · have hia2 : isFloat32Infinity a = false := by simpa using hia
      have hib : isFloat32Infinity b = true := by simpa [hia2] using hinf
      have hf := isFloat32Infinity_fields hib
      simp only [hna, hnb, hia2, hib, hza, Bool.or_self, Bool.false_eq_true, if_false,
        if_true, hf.1, hf.2]
  have fields : ∀ s : Nat, s < 2 →
      (float32.ofParts s 255 0).sign = s ∧ (float32.ofParts s 255 0).exp = 255 ∧
        (float32.ofParts s 255 0).mantisa = 0 := by
    intro s hs
    exact ⟨by rw [float32_sign_ofParts, Nat.mod_eq_of_lt hs],
      by rw [float32_exp_ofParts], by rw [float32_mantisa_ofParts]; rfl⟩
  constructor
  · intro a b hna hnb hinf hza hzb
    constructor
    · rw [key a b hna hnb hinf hza hzb]
      exact fields _ (xor_bit_lt (float32_sign_lt a) (float32_sign_lt b))
    · rw [key b a hnb hna (by rw [Bool.or_comm]; exact hinf) hzb hza, Nat.xor_comm b.sign a.sign]
      exact fields _ (xor_bit_lt (float32_sign_lt a) (float32_sign_lt b))
  · rw [key ⟨0x7F800000⟩ ⟨0xFF800000⟩ (by decide) (by decide) (by decide) (by decide)
      (by decide)]
    decide

/-- Witness: `+Infinity` (`0x7F800000`) times `-1.0` (`0xBF800000`). -/
theorem mulFloat32_infinity_times_nonzero_witness :
    isFloat32NaN ⟨0x7F800000⟩ = false ∧ isFloat32NaN ⟨0xBF800000⟩ = false ∧
    (isFloat32Infinity ⟨0x7F800000⟩ || isFloat32Infinity ⟨0xBF800000⟩) = true ∧
    isFloat32Zero ⟨0x7F800000⟩ = false ∧ isFloat32Zero ⟨0xBF800000⟩ = false ∧
    ((mulFloat32 Companion.ieee ⟨0x7F800000⟩ ⟨0xBF800000⟩).sign = 1 ∧
      (mulFloat32 Companion.ieee ⟨0x7F800000⟩ ⟨0xBF800000⟩).exp = 255 ∧
      (mulFloat32 Companion.ieee ⟨0x7F800000⟩ ⟨0xBF800000⟩).mantisa = 0) ∧
    ((mulFloat32 Companion.ieee ⟨0xBF800000⟩ ⟨0x7F800000⟩).sign = 1 ∧
      (mulFloat32 Companion.ieee ⟨0xBF800000⟩ ⟨0x7F800000⟩).exp = 255 ∧
      (mulFloat32 Companion.ieee ⟨0xBF800000⟩ ⟨0x7F800000⟩).mantisa = 0) :=
  ⟨by decide, by decide, by decide, by decide, by decide,
    (mulFloat32_infinity_times_nonzero Companion.ieee).1 ⟨0x7F800000⟩ ⟨0xBF800000⟩
      (by decide) (by decide) (by decide) (by decide) (by decide)⟩

/-! ## Early overflow and underflow of `mulFloat32`, and the sign rule -/

/-- C8: overflow in `mulFloat32`.  For finite operands (neither NaN nor
Infinity) with `a.exp + b.exp - 127 ≥ 255`, the result is Infinity (exponent
255, mantissa 0) with sign `a.sign XOR b.sign`. -/
theorem mulFloat32_overflow (c : Companion) (a b : float32)
    (hna : isFloat32NaN a = false) (hia : isFloat32Infinity a = false)
    (hnb : isFloat32NaN b = false) (hib : isFloat32Infinity b = false)
    (hexp : (a.exp : Int) + (b.exp : Int) - 127 ≥ 255) :
    (mulFloat32 c a b).sign = a.sign ^^^ b.sign ∧ (mulFloat32 c a b).exp = 255 ∧
      (mulFloat32 c a b).mantisa = 0 := by
  have e2 : ((FLOAT32_BIAS : Nat) : Int) = 127 := by decide
  have e1 : ((FLOAT32_MAX_EXPONENT : Nat) : Int) = 255 := by decide
  have c1 : ((a.exp + b.exp : Nat) : Int) - 127 ≥ 255 := by push_cast; exact hexp
  have hv : mulFloat32 c a b = FLOAT32_INF.setSign (a.sign ^^^ b.sign) := by
    unfold mulFloat32
    simp only [hna, hnb, hia, hib, Bool.or_self, Bool.false_eq_true, if_false, e1, e2, c1,
      if_true]
  rw [hv, float32.setSign]
  exact ⟨by rw [float32_sign_ofParts, float32_xor_sign_mod],
    by rw [float32_exp_ofParts]; decide, by rw [float32_mantisa_ofParts]; decide⟩

/-- Witness: `2^127` (`0x7F000000`) times itself, exponent sum
`254 + 254 - 127 = 381`. -/
theorem mulFloat32_overflow_witness :
    isFloat32NaN ⟨0x7F000000⟩ = false ∧ isFloat32Infinity ⟨0x7F000000⟩ = false ∧
    ((254 : Int) + 254 - 127 ≥ 255) ∧
    ((mulFloat32 Companion.ieee ⟨0x7F000000⟩ ⟨0x7F000000⟩).sign = 0 ∧
      (mulFloat32 Companion.ieee ⟨0x7F000000⟩ ⟨0x7F000000⟩).exp = 255 ∧
      (mulFloat32 Companion.ieee ⟨0x7F000000⟩ ⟨0x7F000000⟩).mantisa = 0) :=
  ⟨by decide, by decide, by decide,
    mulFloat32_overflow Companion.ieee ⟨0x7F000000⟩ ⟨0x7F000000⟩
      (by decide) (by decide) (by decide) (by decide) (by decide)⟩

/-- C9: underflow in `mulFloat32`.  For finite operands (neither NaN nor
Infinity) with `a.exp + b.exp - 127 < 0`, the result is a zero (exponent 0,
mantissa 0) with sign `a.sign XOR b.sign`; in particular this is so for any
two Subnormal operands. -/
theorem mulFloat32_underflow (c : Companion) :
    (∀ a b : float32, isFloat32NaN a = false → isFloat32Infinity a = false →
      isFloat32NaN b = false → isFloat32Infinity b = false →
      (a.exp : Int) + (b.exp : Int) - 127 < 0 →
      (mulFloat32 c a b).sign = a.sign ^^^ b.sign ∧ (mulFloat32 c a b).exp = 0 ∧
        (mulFloat32 c a b).mantisa = 0) ∧
    (∀ a b : float32, a.isSubnormal = true → b.isSubnormal = true →
      (mulFloat32 c a b).sign = a.sign ^^^ b.sign ∧ (mulFloat32 c a b).exp = 0 ∧
        (mulFloat32 c a b).mantisa = 0) := by
  have main : ∀ a b : float32, isFloat32NaN a = false → isFloat32Infinity a = false →
      isFloat32NaN b = false → isFloat32Infinity b = false →
      (a.exp : Int) + (b.exp : Int) - 127 < 0 →
      (mulFloat32 c a b).sign = a.sign ^^^ b.sign ∧ (mulFloat32 c a b).exp = 0 ∧
        (mulFloat32 c a b).mantisa = 0 := by
    intro a b hna hia hnb hib hexp
    have e2 : ((FLOAT32_BIAS : Nat) : Int) = 127 := by decide
    have e1 : ((FLOAT32_MAX_EXPONENT : Nat) : Int) = 255 := by decide
    have c1 : ¬ (((a.exp + b.exp : Nat) : Int) - 127 ≥ 255) := by push_cast; omega
    have c2 : ((a.exp + b.exp : Nat) : Int) - 127 < 0 := by push_cast; exact hexp
    have hv : mulFloat32 c a b = float32.ofParts (a.sign ^^^ b.sign) 0 0 := by
      unfold mulFloat32
      simp only [hna, hnb, hia, hib, Bool.or_self, Bool.false_eq_true, if_false, e1, e2, c1,
        c2, if_true]
    rw [hv]
    exact ⟨by rw [float32_sign_ofParts, float32_xor_sign_mod],
      by rw [float32_exp_ofParts], by rw [float32_mantisa_ofParts]; rfl⟩
  refine ⟨main, ?_⟩
  intro a b ha hb
  have hea : a.exp = 0 := by
    simp only [float32.isSubnormal, Bool.and_eq_true, beq_iff_eq] at ha
    exact ha.1
  have heb : b.exp = 0 := by
    simp only [float32.isSubnormal, Bool.and_eq_true, beq_iff_eq] at hb
    exact hb.1
  exact main a b (isFloat32NaN_of_exp_ne (by omega)) (isFloat32Infinity_of_exp_ne (by omega))
    (isFloat32NaN_of_exp_ne (by omega)) (isFloat32Infinity_of_exp_ne (by omega))
    (by rw [hea, heb]; decide)

/-- Witness: `-2^-100` (`0x8D800000`, exponent field 27) times `2^-100`
(`0x0D800000`), and two Subnormal operands (`0x00000001`, `0x80000001`). -/
theorem mulFloat32_underflow_witness :
    isFloat32NaN ⟨0x8D800000⟩ = false ∧ isFloat32Infinity ⟨0x8D800000⟩ = false ∧
    isFloat32NaN ⟨0x0D800000⟩ = false ∧ isFloat32Infinity ⟨0x0D800000⟩ = false ∧
    ((27 : Int) + 27 - 127 < 0) ∧
    ((mulFloat32 Companion.ieee ⟨0x8D800000⟩ ⟨0x0D800000⟩).sign = 1 ∧
      (mulFloat32 Companion.ieee ⟨0x8D800000⟩ ⟨0x0D800000⟩).exp = 0 ∧
      (mulFloat32 Companion.ieee ⟨0x8D800000⟩ ⟨0x0D800000⟩).mantisa = 0) ∧
    float32.isSubnormal ⟨0x00000001⟩ = true ∧ float32.isSubnormal ⟨0x80000001⟩ = true ∧
    ((mulFloat32 Companion.ieee ⟨0x00000001⟩ ⟨0x80000001⟩).sign = 1 ∧
      (mulFloat32 Companion.ieee ⟨0x00000001⟩ ⟨0x80000001⟩).exp = 0 ∧
      (mulFloat32 Companion.ieee ⟨0x00000001⟩ ⟨0x80000001⟩).mantisa = 0) :=
  ⟨by decide, by decide, by decide, by decide, by decide,
    (mulFloat32_underflow Companion.ieee).1 ⟨0x8D800000⟩ ⟨0x0D800000⟩
      (by decide) (by decide) (by decide) (by decide) (by decide),
    by decide, by decide,
    (mulFloat32_underflow Companion.ieee).2 ⟨0x00000001⟩ ⟨0x80000001⟩ (by decide) (by decide)⟩

/-- C10: the sign rule at both widths.  For operands that are each Normal or
Subnormal, the sign bit of the result of `mulFloat32` and of `mulFloat64` is
`a.sign XOR b.sign`, whichever exit of the function is taken (early overflow,
early underflow, late overflow, denormal flush or the final pack). -/
theorem mulFloat_sign_rule (c : Companion) :
    (∀ a b : float32, (a.isNormal || a.isSubnormal) = true →
      (b.isNormal || b.isSubnormal) = true →
      (mulFloat32 c a b).sign = a.sign ^^^ b.sign) ∧
    (∀ a b : float64, (a.isNormal || a.isSubnormal) = true →
      (b.isNormal || b.isSubnormal) = true →
      (mulFloat64 c a b).sign = a.sign ^^^ b.sign) := by
  constructor
  · intro a b ha hb
    have hea := float32_exp_ne_of_normal_or_subnormal ha
    have heb := float32_exp_ne_of_normal_or_subnormal hb
    exact mulFloat32_sign_finite c a b (isFloat32NaN_of_exp_ne hea)
      (isFloat32NaN_of_exp_ne heb) (isFloat32Infinity_of_exp_ne hea)
      (isFloat32Infinity_of_exp_ne heb)
  · intro a b ha hb
    have hea := float64_exp_ne_of_normal_or_subnormal ha
    have heb := float64_exp_ne_of_normal_or_subnormal hb
    exact mulFloat64_sign_finite c a b (isFloat64NaN_of_exp_ne hea)
      (isFloat64NaN_of_exp_ne heb) (isFloat64Infinity_of_exp_ne hea)
      (isFloat64Infinity_of_exp_ne heb)

/-- Witness: `-2.0` times `+3.0` at width 32 and a negative Subnormal
times `+0.5` at width 64. -/
theorem mulFloat_sign_rule_witness :
    (float32.isNormal ⟨0xC0000000⟩ || float32.isSubnormal ⟨0xC0000000⟩) = true ∧
    (float32.isNormal ⟨0x40400000⟩ || float32.isSubnormal ⟨0x40400000⟩) = true ∧
    (mulFloat32 Companion.ieee ⟨0xC0000000⟩ ⟨0x40400000⟩).sign = 1 ∧
    (float64.isNormal ⟨0x8000000000000001⟩ || float64.isSubnormal ⟨0x8000000000000001⟩)
      = true ∧
    (float64.isNormal ⟨0x3FE0000000000000⟩ || float64.isSubnormal ⟨0x3FE0000000000000⟩)
      = true ∧
    (mulFloat64 Companion.ieee ⟨0x8000000000000001⟩ ⟨0x3FE0000000000000⟩).sign = 1 :=
  ⟨by decide, by decide,
    (mulFloat_sign_rule Companion.ieee).1 ⟨0xC0000000⟩ ⟨0x40400000⟩ (by decide) (by decide),
    by decide, by decide,
    (mulFloat_sign_rule Companion.ieee).2 ⟨0x8000000000000001⟩ ⟨0x3FE0000000000000⟩
      (by decide) (by decide)⟩

/-! ## Special operands of `mulFloat64` -/

theorem isFloat64SigNaN_isNaN {c : Companion} {f : float64}
    (h : isFloat64SigNaN c f = true) : isFloat64NaN f = true := by
  unfold isFloat64SigNaN at h
  simp only [Bool.and_eq_true] at h
  exact h.1

theorem isFloat64Infinity_fields {f : float64} (h : isFloat64Infinity f = true) :
    f.exp = 2047 ∧ f.mantisa = 0 := by
  simpa [isFloat64Infinity, FLOAT64_MAX_EXPONENT] using h

theorem isFloat64Zero_fields {f : float64} (h : isFloat64Zero f = true) :
    f.exp = 0 ∧ f.mantisa = 0 := by
  simpa [isFloat64Zero] using h

theorem isFloat64NaN_of_mantisa_zero {f : float64} (h : f.mantisa = 0) :
    isFloat64NaN f = false := by
  simp [isFloat64NaN, h]

theorem isFloat32NaN_fields {f : float32} (h : isFloat32NaN f = true) :
    f.exp = 255 ∧ f.mantisa ≠ 0 := by
  simpa [isFloat32NaN, FLOAT32_MAX_EXPONENT] using h

theorem isFloat64NaN_fields {f : float64} (h : isFloat64NaN f = true) :
    f.exp = 2047 ∧ f.mantisa ≠ 0 := by
  simpa [isFloat64NaN, FLOAT64_MAX_EXPONENT] using h

/-- The Infinity branches of `mulFloat64` on operands that are not NaN, at
least one an Infinity and neither a Zero. -/
theorem mulFloat64_infinity_branch (c : Companion) (a b : float64)
    (hna : isFloat64NaN a = false) (hnb : isFloat64NaN b = false)
    (hinf : (isFloat64Infinity a || isFloat64Infinity b) = true)
    (hza : isFloat64Zero a = false) (hzb : isFloat64Zero b = false) :
    mulFloat64 c a b = float64.ofParts (a.sign ^^^ b.sign) 2047 0 := by
  unfold mulFloat64
  by_cases hia : isFloat64Infinity a = true
  · have hf := isFloat64Infinity_fields hia
    simp only [hna, hnb, hia, hzb, Bool.or_self, Bool.false_eq_true, if_false, if_true,
      hf.1, hf.2]
  · have hia2 : isFloat64Infinity a = false := by simpa using hia
    have hib : isFloat64Infinity b = true := by simpa [hia2] using hinf
    have hf := isFloat64Infinity_fields hib
    simp only [hna, hnb, hia2, hib, hza, Bool.or_self, Bool.false_eq_true, if_false,
      if_true, hf.1, hf.2]

theorem float64_fields_of_infinity (s : Nat) (hs : s < 2) :
    (float64.ofParts s 2047 0).sign = s ∧ (float64.ofParts s 2047 0).exp = 2047 ∧
      (float64.ofParts s 2047 0).mantisa = 0 :=
  ⟨by rw [float64_sign_ofParts, Nat.mod_eq_of_lt hs],
    by rw [float64_exp_ofParts], by rw [float64_mantisa_ofParts]; rfl⟩

/-- C13: NaN handling in `mulFloat64`, in the decision order of width 32.  If
`a` is a signaling NaN the result has sign `a.sign XOR b.sign` and the exponent
and mantissa fields of `a`; else if `b` is a signaling NaN, sign
`a.sign XOR b.sign` and the exponent and mantissa fields of `b`; else if
either operand is a NaN the result is the whole pattern `FLOAT64_NAN`. -/
theorem mulFloat64_nan_handling (c : Companion) (a b : float64) :
    (isFloat64SigNaN c a = true →
      (mulFloat64 c a b).sign = a.sign ^^^ b.sign ∧
      (mulFloat64 c a b).exp = a.exp ∧
      (mulFloat64 c a b).mantisa = a.mantisa) ∧
    (isFloat64SigNaN c a = false → isFloat64SigNaN c b = true →
      (mulFloat64 c a b).sign = a.sign ^^^ b.sign ∧
      (mulFloat64 c a b).exp = b.exp ∧
      (mulFloat64 c a b).mantisa = b.mantisa) ∧
    (isFloat64SigNaN c a = false → isFloat64SigNaN c b = false →
      (isFloat64NaN a || isFloat64NaN b) = true →
      mulFloat64 c a b = c.FLOAT64_NAN) := by
  refine ⟨?_, ?_, ?_⟩
  · intro ha
    have hn := isFloat64SigNaN_isNaN ha
    simp only [mulFloat64, hn, ha, Bool.true_or, if_true]
    exact ⟨by rw [float64_sign_ofParts, float64_xor_sign_mod],
      by rw [float64_exp_ofParts, float64_exp_mod],
      by rw [float64_mantisa_ofParts, float64_mantisa_mod]⟩
  · intro ha hb
    have hn := isFloat64SigNaN_isNaN hb
    simp only [mulFloat64, hn, ha, hb, Bool.or_true, if_true, Bool.false_eq_true, if_false]
    exact ⟨by rw [float64_sign_ofParts, float64_xor_sign_mod],
      by rw [float64_exp_ofParts, float64_exp_mod],
      by rw [float64_mantisa_ofParts, float64_mantisa_mod]⟩
  · intro ha hb hnan
    unfold mulFloat64
    simp only [hnan, ha, hb, if_true, Bool.false_eq_true, if_false]

/-- Witness: the signaling NaN `0x7FF0000000000001` against `-1.0`
(`0xBFF0000000000000`) in both orders, and the negative quiet NaN
`0xFFF8000000000000` against `+0`. -/
theorem mulFloat64_nan_handling_witness :
    isFloat64SigNaN Companion.ieee ⟨0x7FF0000000000001⟩ = true ∧
    isFloat64SigNaN Companion.ieee ⟨0xBFF0000000000000⟩ = false ∧
    ((mulFloat64 Companion.ieee ⟨0x7FF0000000000001⟩ ⟨0xBFF0000000000000⟩).sign = 1 ∧
      (mulFloat64 Companion.ieee ⟨0x7FF0000000000001⟩ ⟨0xBFF0000000000000⟩).exp = 2047 ∧
      (mulFloat64 Companion.ieee ⟨0x7FF0000000000001⟩ ⟨0xBFF0000000000000⟩).mantisa = 1) ∧
    ((mulFloat64 Companion.ieee ⟨0xBFF0000000000000⟩ ⟨0x7FF0000000000001⟩).sign = 1 ∧
      (mulFloat64 Companion.ieee ⟨0xBFF0000000000000⟩ ⟨0x7FF0000000000001⟩).exp = 2047 ∧
      (mulFloat64 Companion.ieee ⟨0xBFF0000000000000⟩ ⟨0x7FF0000000000001⟩).mantisa = 1) ∧
    isFloat64SigNaN Companion.ieee ⟨0xFFF8000000000000⟩ = false ∧
    isFloat64SigNaN Companion.ieee ⟨0⟩ = false ∧
    (isFloat64NaN ⟨0xFFF8000000000000⟩ || isFloat64NaN ⟨0⟩) = true ∧
    mulFloat64 Companion.ieee ⟨0xFFF8000000000000⟩ ⟨0⟩ = ⟨0x7FF8000000000001⟩ :=
  ⟨by decide, by decide,
    (mulFloat64_nan_handling Companion.ieee ⟨0x7FF0000000000001⟩ ⟨0xBFF0000000000000⟩).1
      (by decide),
    (mulFloat64_nan_handling Companion.ieee ⟨0xBFF0000000000000⟩ ⟨0x7FF0000000000001⟩).2.1
      (by decide) (by decide),
    by decide, by decide, by decide,
    (mulFloat64_nan_handling Companion.ieee ⟨0xFFF8000000000000⟩ ⟨0⟩).2.2
      (by decide) (by decide) (by decide)⟩

/-- C14: Infinity handling in `mulFloat64`.  For an Infinity `x` and a Zero
`z`, both orders give the whole pattern `FLOAT64_NAN`; for operands that are
not NaN, at least one an Infinity and neither a Zero, both orders give
Infinity (exponent 2047, mantissa 0) with sign `a.sign XOR b.sign`. -/
theorem mulFloat64_infinity_handling (c : Companion) :
    (∀ x z : float64, isFloat64Infinity x = true → isFloat64Zero z = true →
      mulFloat64 c x z = c.FLOAT64_NAN ∧ mulFloat64 c z x = c.FLOAT64_NAN) ∧
    (∀ a b : float64, isFloat64NaN a = false → isFloat64NaN b = false →
      (isFloat64Infinity a || isFloat64Infinity b) = true →
      isFloat64Zero a = false → isFloat64Zero b = false →
      ((mulFloat64 c a b).sign = a.sign ^^^ b.sign ∧ (mulFloat64 c a b).exp = 2047 ∧
        (mulFloat64 c a b).mantisa = 0) ∧
      ((mulFloat64 c b a).sign = a.sign ^^^ b.sign ∧ (mulFloat64 c b a).exp = 2047 ∧
        (mulFloat64 c b a).mantisa = 0)) := by
  constructor
  · intro x z hx hz
    have hxf := isFloat64Infinity_fields hx
    have hzf := isFloat64Zero_fields hz
    have hnx : isFloat64NaN x = false := isFloat64NaN_of_mantisa_zero hxf.2
    have hnz : isFloat64NaN z = false := isFloat64NaN_of_mantisa_zero hzf.2
    have hiz : isFloat64Infinity z = false :=
      isFloat64Infinity_of_exp_ne (by rw [hzf.1]; decide)
    constructor
    · unfold mulFloat64
      simp only [hnx, hnz, hx, hz, Bool.or_self, Bool.false_eq_true, if_false, if_true]
    · unfold mulFloat64
      simp only [hnx, hnz, hx, hz, hiz, Bool.or_self, Bool.false_eq_true, if_false, if_true]
  · intro a b hna hnb hinf hza hzb
    constructor
    · rw [mulFloat64_infinity_branch c a b hna hnb hinf hza hzb]
      exact float64_fields_of_infinity _ (xor_bit_lt (float64_sign_lt a) (float64_sign_lt b))
    · rw [mulFloat64_infinity_branch c b a hnb hna (by rw [Bool.or_comm]; exact hinf) hzb hza,
        Nat.xor_comm b.sign a.sign]
      exact float64_fields_of_infinity _ (xor_bit_lt (float64_sign_lt a) (float64_sign_lt b))

/-- Witness: `-Infinity` (`0xFFF0000000000000`) against `+0`, and `+Infinity`
(`0x7FF0000000000000`) against `-1.0` (`0xBFF0000000000000`). -/
theorem mulFloat64_infinity_handling_witness :
    isFloat64Infinity ⟨0xFFF0000000000000⟩ = true ∧ isFloat64Zero ⟨0⟩ = true ∧
    (mulFloat64 Companion.ieee ⟨0xFFF0000000000000⟩ ⟨0⟩ = ⟨0x7FF8000000000001⟩ ∧
      mulFloat64 Companion.ieee ⟨0⟩ ⟨0xFFF0000000000000⟩ = ⟨0x7FF8000000000001⟩) ∧
    isFloat64NaN ⟨0x7FF0000000000000⟩ = false ∧ isFloat64NaN ⟨0xBFF0000000000000⟩ = false ∧
    (isFloat64Infinity ⟨0x7FF0000000000000⟩ || isFloat64Infinity ⟨0xBFF0000000000000⟩)
      = true ∧
    isFloat64Zero ⟨0x7FF0000000000000⟩ = false ∧ isFloat64Zero ⟨0xBFF0000000000000⟩ = false ∧
    (((mulFloat64 Companion.ieee ⟨0x7FF0000000000000⟩ ⟨0xBFF0000000000000⟩).sign = 1 ∧
      (mulFloat64 Companion.ieee ⟨0x7FF0000000000000⟩ ⟨0xBFF0000000000000⟩).exp = 2047 ∧
      (mulFloat64 Companion.ieee ⟨0x7FF0000000000000⟩ ⟨0xBFF0000000000000⟩).mantisa = 0) ∧
    ((mulFloat64 Companion.ieee ⟨0xBFF0000000000000⟩ ⟨0x7FF0000000000000⟩).sign = 1 ∧
      (mulFloat64 Companion.ieee ⟨0xBFF0000000000000⟩ ⟨0x7FF0000000000000⟩).exp = 2047 ∧
      (mulFloat64 Companion.ieee ⟨0xBFF0000000000000⟩ ⟨0x7FF0000000000000⟩).mantisa = 0)) :=
  ⟨by decide, by decide,
    (mulFloat64_infinity_handling Companion.ieee).1 ⟨0xFFF0000000000000⟩ ⟨0⟩
      (by decide) (by decide),
    by decide, by decide, by decide, by decide, by decide,
    (mulFloat64_infinity_handling Companion.ieee).2 ⟨0x7FF0000000000000⟩ ⟨0xBFF0000000000000⟩
      (by decide) (by decide) (by decide) (by decide) (by decide)⟩

/-- The early overflow exit of `mulFloat64`. -/
theorem mulFloat64_early_overflow (c : Companion) (a b : float64)
    (hna : isFloat64NaN a = false) (hia : isFloat64Infinity a = false)
    (hnb : isFloat64NaN b = false) (hib : isFloat64Infinity b = false)
    (hexp : (a.exp : Int) + (b.exp : Int) - 1023 ≥ 2047) :
    mulFloat64 c a b = FLOAT64_INF.setSign (a.sign ^^^ b.sign) := by
  have e2 : ((FLOAT64_BIAS : Nat) : Int) = 1023 := by decide
  have e1 : ((FLOAT64_MAX_EXPONENT : Nat) : Int) = 2047 := by decide
  have c1 : ((a.exp + b.exp : Nat) : Int) - 1023 ≥ 2047 := by push_cast; exact hexp
  unfold mulFloat64
  simp only [hna, hnb, hia, hib, Bool.or_self, Bool.false_eq_true, if_false, e1, e2, c1,
    if_true]

/-- The early underflow exit of `mulFloat64`. -/
theorem mulFloat64_early_underflow (c : Companion) (a b : float64)
    (hna : isFloat64NaN a = false) (hia : isFloat64Infinity a = false)
    (hnb : isFloat64NaN b = false) (hib : isFloat64Infinity b = false)
    (hexp : (a.exp : Int) + (b.exp : Int) - 1023 < 0) :
    mulFloat64 c a b = float64.ofParts (a.sign ^^^ b.sign) 0 0 := by
  have e2 : ((FLOAT64_BIAS : Nat) : Int) = 1023 := by decide
  have e1 : ((FLOAT64_MAX_EXPONENT : Nat) : Int) = 2047 := by decide
  have c1 : ¬ (((a.exp + b.exp : Nat) : Int) - 1023 ≥ 2047) := by push_cast; omega
  have c2 : ((a.exp + b.exp : Nat) : Int) - 1023 < 0 := by push_cast; exact hexp
  unfold mulFloat64
  simp only [hna, hnb, hia, hib, Bool.or_self, Bool.false_eq_true, if_false, e1, e2, c1,
    c2, if_true]

/-- C15: early overflow and underflow in `mulFloat64`.  For finite operands
(neither NaN nor Infinity), if `a.exp + b.exp - 1023 ≥ 2047` the result is
Infinity (exponent 2047, mantissa 0) with sign `a.sign XOR b.sign`, and if
`a.exp + b.exp - 1023 < 0` the result is a zero (exponent 0, mantissa 0) with
sign `a.sign XOR b.sign`. -/
theorem mulFloat64_early_overflow_underflow (c : Companion) (a b : float64)
    (hna : isFloat64NaN a = false) (hia : isFloat64Infinity a = false)
    (hnb : isFloat64NaN b = false) (hib : isFloat64Infinity b = false) :
    ((a.exp : Int) + (b.exp : Int) - 1023 ≥ 2047 →
      (mulFloat64 c a b).sign = a.sign ^^^ b.sign ∧ (mulFloat64 c a b).exp = 2047 ∧
        (mulFloat64 c a b).mantisa = 0) ∧
    ((a.exp : Int) + (b.exp : Int) - 1023 < 0 →
      (mulFloat64 c a b).sign = a.sign ^^^ b.sign ∧ (mulFloat64 c a b).exp = 0 ∧
        (mulFloat64 c a b).mantisa = 0) := by
  constructor
  · intro hexp
    rw [mulFloat64_early_overflow c a b hna hia hnb hib hexp, float64.setSign]
    exact ⟨by rw [float64_sign_ofParts, float64_xor_sign_mod],
      by rw [float64_exp_ofParts]; decide, by rw [float64_mantisa_ofParts]; decide⟩
  · intro hexp
    rw [mulFloat64_early_underflow c a b hna hia hnb hib hexp]
    exact ⟨by rw [float64_sign_ofParts, float64_xor_sign_mod],
      by rw [float64_exp_ofParts], by rw [float64_mantisa_ofParts]; rfl⟩

/-- Witness: `-2^1023` (`0xFFE0000000000000`, exponent field 2046) times
`2^1023`, and `-2^-1000` (`0x8170000000000000`, exponent field 23) times
`2^-1000`. -/
theorem mulFloat64_early_overflow_underflow_witness :
    (isFloat64NaN ⟨0xFFE0000000000000⟩ = false ∧
      isFloat64Infinity ⟨0xFFE0000000000000⟩ = false ∧
      isFloat64NaN ⟨0x7FE0000000000000⟩ = false ∧
      isFloat64Infinity ⟨0x7FE0000000000000⟩ = false ∧
      ((2046 : Int) + 2046 - 1023 ≥ 2047) ∧
      (mulFloat64 Companion.ieee ⟨0xFFE0000000000000⟩ ⟨0x7FE0000000000000⟩).sign = 1 ∧
      (mulFloat64 Companion.ieee ⟨0xFFE0000000000000⟩ ⟨0x7FE0000000000000⟩).exp = 2047 ∧
      (mulFloat64 Companion.ieee ⟨0xFFE0000000000000⟩ ⟨0x7FE0000000000000⟩).mantisa = 0) ∧
    (isFloat64NaN ⟨0x8170000000000000⟩ = false ∧
      isFloat64Infinity ⟨0x8170000000000000⟩ = false ∧
      isFloat64NaN ⟨0x0170000000000000⟩ = false ∧
      isFloat64Infinity ⟨0x0170000000000000⟩ = false ∧
      ((23 : Int) + 23 - 1023 < 0) ∧
      (mulFloat64 Companion.ieee ⟨0x8170000000000000⟩ ⟨0x0170000000000000⟩).sign = 1 ∧
      (mulFloat64 Companion.ieee ⟨0x8170000000000000⟩ ⟨0x0170000000000000⟩).exp = 0 ∧
      (mulFloat64 Companion.ieee ⟨0x8170000000000000⟩ ⟨0x0170000000000000⟩).mantisa = 0) :=
  ⟨⟨by decide, by decide, by decide, by decide, by decide,
      (mulFloat64_early_overflow_underflow Companion.ieee ⟨0xFFE0000000000000⟩
        ⟨0x7FE0000000000000⟩ (by decide) (by decide) (by decide) (by decide)).1 (by decide)⟩,
    ⟨by decide, by decide, by decide, by decide, by decide,
      (mulFloat64_early_overflow_underflow Companion.ieee ⟨0x8170000000000000⟩
        ⟨0x0170000000000000⟩ (by decide) (by decide) (by decide) (by decide)).2 (by decide)⟩⟩

/-! ## The two views of an encoded float -/

/-- C19: the packed and the decomposed view are exact inverses at both
widths.  For every 32-bit (64-bit) word, packing the fields read from it gives
the word back; for every `sign < 2`, `exp < 2^8` (`2^11`) and
`mantisa < 2^23` (`2^52`), the fields read from the packed word are the same
triple; and writing the sign field of a word (as the overflow exit does after
assigning `FLOAT32_INF` / `FLOAT64_INF`) keeps the low 31 (63) bits and sets
bit 31 (63) to the new sign. -/
theorem float_views_inverse :
    (∀ w : float32, w.binary < 2 ^ 32 → float32.ofParts w.sign w.exp w.mantisa = w) ∧
    (∀ s e m : Nat, s < 2 → e < 2 ^ 8 → m < 2 ^ 23 →
      (float32.ofParts s e m).sign = s ∧ (float32.ofParts s e m).exp = e ∧
        (float32.ofParts s e m).mantisa = m) ∧
    (∀ (w : float32) (s : Nat), w.binary < 2 ^ 32 → s < 2 →
      (w.setSign s).binary = w.binary % 2 ^ 31 + s * 2 ^ 31) ∧
    (∀ w : float64, w.binary < 2 ^ 64 → float64.ofParts w.sign w.exp w.mantisa = w) ∧
    (∀ s e m : Nat, s < 2 → e < 2 ^ 11 → m < 2 ^ 52 →
      (float64.ofParts s e m).sign = s ∧ (float64.ofParts s e m).exp = e ∧
        (float64.ofParts s e m).mantisa = m) ∧
    (∀ (w : float64) (s : Nat), w.binary < 2 ^ 64 → s < 2 →
      (w.setSign s).binary = w.binary % 2 ^ 63 + s * 2 ^ 63) := by
  refine ⟨?_, ?_, ?_, ?_, ?_, ?_⟩
  · intro w hw
    cases w with
    | mk n =>
      simp only [float32.ofParts, float32.sign, float32.exp, float32.mantisa,
        float32.mk.injEq] at hw ⊢
      omega
  · intro s e m hs he hm
    exact ⟨by rw [float32_sign_ofParts, Nat.mod_eq_of_lt hs],
      by rw [float32_exp_ofParts]; omega,
      by rw [float32_mantisa_ofParts, Nat.mod_eq_of_lt hm]⟩
  · intro w s _ hs
    simp only [float32.setSign, float32.ofParts, float32.exp, float32.mantisa]
    omega
  · intro w hw
    cases w with
    | mk n =>
      simp only [float64.ofParts, float64.sign, float64.exp, float64.mantisa,
        float64.mk.injEq] at hw ⊢
      omega
  · intro s e m hs he hm
    exact ⟨by rw [float64_sign_ofParts, Nat.mod_eq_of_lt hs],
      by rw [float64_exp_ofParts]; omega,
      by rw [float64_mantisa_ofParts, Nat.mod_eq_of_lt hm]⟩
  · intro w s _ hs
    simp only [float64.setSign, float64.ofParts, float64.exp, float64.mantisa]
    omega

/-- Witness: the words `0xC0490FDB` and `0xC00921FB54442D18`, the triples
`(1, 128, 0x490FDB)` and `(1, 1024, 0x921FB54442D18)`, and the sign written
over `FLOAT32_INF` and `FLOAT64_INF`. -/
theorem float_views_inverse_witness :
    ((0xC0490FDB : Nat) < 2 ^ 32 ∧
      float32.ofParts (float32.sign ⟨0xC0490FDB⟩) (float32.exp ⟨0xC0490FDB⟩)
        (float32.mantisa ⟨0xC0490FDB⟩) = ⟨0xC0490FDB⟩) ∧
    ((float32.ofParts 1 128 0x490FDB).sign = 1 ∧ (float32.ofParts 1 128 0x490FDB).exp = 128 ∧
      (float32.ofParts 1 128 0x490FDB).mantisa = 0x490FDB) ∧
    (FLOAT32_INF.setSign 1).binary = 0x7F800000 % 2 ^ 31 + 1 * 2 ^ 31 ∧
    ((0xC00921FB54442D18 : Nat) < 2 ^ 64 ∧
      float64.ofParts (float64.sign ⟨0xC00921FB54442D18⟩) (float64.exp ⟨0xC00921FB54442D18⟩)
        (float64.mantisa ⟨0xC00921FB54442D18⟩) = ⟨0xC00921FB54442D18⟩) ∧
    ((float64.ofParts 1 1024 0x921FB54442D18).sign = 1 ∧
      (float64.ofParts 1 1024 0x921FB54442D18).exp = 1024 ∧
      (float64.ofParts 1 1024 0x921FB54442D18).mantisa = 0x921FB54442D18) ∧
    (FLOAT64_INF.setSign 1).binary = 0x7FF0000000000000 % 2 ^ 63 + 1 * 2 ^ 63 :=
  ⟨⟨by decide, float_views_inverse.1 ⟨0xC0490FDB⟩ (by decide)⟩,
    float_views_inverse.2.1 1 128 0x490FDB (by decide) (by decide) (by decide),
    float_views_inverse.2.2.1 FLOAT32_INF 1 (by decide) (by decide),
    ⟨by decide, float_views_inverse.2.2.2.1 ⟨0xC00921FB54442D18⟩ (by decide)⟩,
    float_views_inverse.2.2.2.2.1 1 1024 0x921FB54442D18 (by decide) (by decide) (by decide),
    float_views_inverse.2.2.2.2.2 FLOAT64_INF 1 (by decide) (by decide)⟩

/-! ## Zero operands and the width-64 product on Normal operands -/

/-- C17 (the code at a failing input): `mulFloat32` on `+0` and `2^50`
(`0x58800000`, exponent field 177) returns `0x0E000000` in both operand
orders: exponent field 28 and mantissa 0, which is the encoding of `2^-99`
and not a Zero. -/
theorem mulFloat32_zero_times_large (c : Companion) :
    isFloat32Zero ⟨0⟩ = true ∧ float32.isNormal ⟨0x58800000⟩ = true ∧
    mulFloat32 c ⟨0⟩ ⟨0x58800000⟩ = ⟨0x0E000000⟩ ∧
    mulFloat32 c ⟨0x58800000⟩ ⟨0⟩ = ⟨0x0E000000⟩ ∧
    float32.exp ⟨0x0E000000⟩ = 28 ∧ isFloat32Zero ⟨0x0E000000⟩ = false := by
  have h1 : mulFloat32 c ⟨0⟩ ⟨0x58800000⟩ = ⟨0x0E000000⟩ := by
    rw [mulFloat32_normal_path c _ _ (by decide) (by decide) (by decide) (by decide)
      (by decide) (by decide)]
    have hp : mulFloat32.product ⟨0⟩ ⟨0x58800000⟩
        (((float32.exp ⟨0⟩ + float32.exp ⟨0x58800000⟩ : Nat) : Int) - 127) = (51, 0) := by
      decide
    have hn : mulFloat32.normalize 51 0 = (51, 0) :=
      mulFloat32_normalize_stop_mant (by decide)
    rw [hp]
    simp only [hn]
    decide
  have h2 : mulFloat32 c ⟨0x58800000⟩ ⟨0⟩ = ⟨0x0E000000⟩ := by
    rw [mulFloat32_normal_path c _ _ (by decide) (by decide) (by decide) (by decide)
      (by decide) (by decide)]
    have hp : mulFloat32.product ⟨0x58800000⟩ ⟨0⟩
        (((float32.exp ⟨0x58800000⟩ + float32.exp ⟨0⟩ : Nat) : Int) - 127) = (51, 0) := by
      decide
    have hn : mulFloat32.normalize 51 0 = (51, 0) :=
      mulFloat32_normalize_stop_mant (by decide)
    rw [hp]
    simp only [hn]
    decide
  exact ⟨by decide, by decide, h1, h2, by decide, by decide⟩

/-- C18 (the code at a failing input): `mulFloat64` on `+1.0`
(`0x3FF0000000000000`) twice, where `E = 1023`, `ma * mb = 2^104 < 2^105` and
the claimed result is `+1.0` again, returns `0x3CB0000000000000`: exponent
field 971 and mantissa 0. -/
theorem mulFloat64_one_times_one (c : Companion) :
    float64.isNormal ⟨0x3FF0000000000000⟩ = true ∧
    mulFloat64 c ⟨0x3FF0000000000000⟩ ⟨0x3FF0000000000000⟩ = ⟨0x3CB0000000000000⟩ ∧
    float64.exp ⟨0x3CB0000000000000⟩ = 971 ∧ float64.mantisa ⟨0x3CB0000000000000⟩ = 0 := by
  have hp : mulFloat64.product ⟨0x3FF0000000000000⟩ ⟨0x3FF0000000000000⟩
      (((float64.exp ⟨0x3FF0000000000000⟩ + float64.exp ⟨0x3FF0000000000000⟩ : Nat) : Int)
        - 1023) = (1023, 0, 0) := by decide
  have hv : mulFloat64 c ⟨0x3FF0000000000000⟩ ⟨0x3FF0000000000000⟩
      = ⟨0x3CB0000000000000⟩ := by
    rw [mulFloat64_normal_path c _ _ (by decide) (by decide) (by decide) (by decide)
      (by decide) (by decide) 1023 0 0 hp]
    have hn : mulFloat64.normalize 1023 0 = (1023, 0) :=
      mulFloat64_normalize_stop_mant (by decide)
    simp only [mulFloat64_merge_stop_hi, hn]
    decide
  exact ⟨by decide, hv, by decide, by decide⟩

/-! ## Termination of the loops -/

theorem shiftRight_one_lt {m : Nat} (h : 0 < m) : m >>> 1 < m := by
  rw [Nat.shiftRight_eq_div_pow]
  omega

theorem mulFloat32_normalize_run (fuel : Nat) : ∀ (m : Nat) (exp : Int), m < fuel →
    whileLoop mulFloat32.normalizeCond mulFloat32.normalizeBody fuel (exp, m)
      = some (mulFloat32.normalize exp m) := by
  induction fuel with
  | zero => intro m exp h; omega
  | succ f ih =>
    intro m exp h
    rw [whileLoop, mulFloat32.normalize]
    by_cases hc : exp < (FLOAT32_MAX_EXPONENT : Int) ∧ m ≥ 1 <<< (FLOAT32_MANTISA_SIZE + 2)
    · have e1 : 1 <<< (FLOAT32_MANTISA_SIZE + 2) = 2 ^ 25 := by decide
      have hm : m >>> 1 < m := shiftRight_one_lt (by rw [e1] at hc; omega)
      simp only [mulFloat32.normalizeCond, hc, and_self, decide_True, if_true,
        mulFloat32.normalizeBody]
      exact ih (m >>> 1) (exp + 1) (by omega)
    · simp only [mulFloat32.normalizeCond, hc, decide_False, Bool.false_eq_true, if_false]

theorem mulFloat32_denormalize_run (fuel : Nat) : ∀ (m : Nat) (exp : Int), m < fuel →
    whileLoop mulFloat32.denormalizeCond mulFloat32.denormalizeBody fuel (exp, m)
      = some (mulFloat32.denormalize exp m) := by
  induction fuel with
  | zero => intro m exp h; omega
  | succ f ih =>
    intro m exp h
    rw [whileLoop, mulFloat32.denormalize]
    by_cases hc : m > 0 ∧ exp < 0
    · have hm : m >>> 1 < m := shiftRight_one_lt hc.1
      simp only [mulFloat32.denormalizeCond, hc, and_self, decide_True, if_true,
        mulFloat32.denormalizeBody]
      exact ih (m >>> 1) (exp + 1) (by omega)
    · simp only [mulFloat32.denormalizeCond, hc, decide_False, Bool.false_eq_true, if_false]

theorem mulFloat64_merge_run (fuel : Nat) : ∀ (m2 m1 : Nat) (exp : Int), m2 < fuel →
    whileLoop mulFloat64.mergeCond mulFloat64.mergeBody fuel (exp, m1, m2)
      = some (mulFloat64.merge exp m1 m2) := by
  induction fuel with
  | zero => intro m2 m1 exp h; omega
  | succ f ih =>
    intro m2 m1 exp h
    rw [whileLoop, mulFloat64.merge]
    by_cases hc : exp < (FLOAT64_MAX_EXPONENT : Int) ∧ m2 > 0
    · have hm : m2 >>> 1 < m2 := shiftRight_one_lt hc.2
      simp only [mulFloat64.mergeCond, hc, and_self, decide_True, if_true,
        mulFloat64.mergeBody]
      exact ih (m2 >>> 1) _ (exp + 1) (by omega)
    · simp only [mulFloat64.mergeCond, hc, decide_False, Bool.false_eq_true, if_false]

theorem mulFloat64_normalize_run (fuel : Nat) : ∀ (m : Nat) (exp : Int), m < fuel →
    whileLoop mulFloat64.normalizeCond mulFloat64.normalizeBody fuel (exp, m)
      = some (mulFloat64.normalize exp m) := by
  induction fuel with
  | zero => intro m exp h; omega
  | succ f ih =>
    intro m exp h
    rw [whileLoop, mulFloat64.normalize]
    by_cases hc : exp < (FLOAT64_MAX_EXPONENT : Int) ∧ m ≥ 1 <<< (FLOAT64_MANTISA_SIZE + 2)
    · have e1 : 1 <<< (FLOAT64_MANTISA_SIZE + 2) = 2 ^ 54 := by decide
      have hm : m >>> 1 < m := shiftRight_one_lt (by rw [e1] at hc; omega)
      simp only [mulFloat64.normalizeCond, hc, and_self, decide_True, if_true,
        mulFloat64.normalizeBody]
      exact ih (m >>> 1) (exp + 1) (by omega)
    · simp only [mulFloat64.normalizeCond, hc, decide_False, Bool.false_eq_true, if_false]

theorem mulFloat64_denormalize_run (fuel : Nat) : ∀ (m : Nat) (exp : Int), m < fuel →
    whileLoop mulFloat64.denormalizeCond mulFloat64.denormalizeBody fuel (exp, m)
      = some (mulFloat64.denormalize exp m) := by
  induction fuel with
  | zero => intro m exp h; omega
  | succ f ih =>
    intro m exp h
    rw [whileLoop, mulFloat64.denormalize]
    by_cases hc : m > 0 ∧ exp < 0
    · have hm : m >>> 1 < m := shiftRight_one_lt hc.1
      simp only [mulFloat64.denormalizeCond, hc, and_self, decide_True, if_true,
        mulFloat64.denormalizeBody]
      exact ih (m >>> 1) (exp + 1) (by omega)
    · simp only [mulFloat64.denormalizeCond, hc, decide_False, Bool.false_eq_true, if_false]

/-- The early underflow exit of `mulFloat32`. -/
theorem mulFloat32_early_underflow (c : Companion) (a b : float32)
    (hna : isFloat32NaN a = false) (hia : isFloat32Infinity a = false)
    (hnb : isFloat32NaN b = false) (hib : isFloat32Infinity b = false)
    (hexp : (a.exp : Int) + (b.exp : Int) - 127 < 0) :
    mulFloat32 c a b = float32.ofParts (a.sign ^^^ b.sign) 0 0 := by
  have e2 : ((FLOAT32_BIAS : Nat) : Int) = 127 := by decide
  have e1 : ((FLOAT32_MAX_EXPONENT : Nat) : Int) = 255 := by decide
  have c1 : ¬ (((a.exp + b.exp : Nat) : Int) - 127 ≥ 255) := by push_cast; omega
  have c2 : ((a.exp + b.exp : Nat) : Int) - 127 < 0 := by push_cast; exact hexp
  unfold mulFloat32
  simp only [hna, hnb, hia, hib, Bool.or_self, Bool.false_eq_true, if_false, e1, e2, c1,
    c2, if_true]

/-- C16: totality.  Each `while` loop of `mulFloat32` and `mulFloat64` has a
strictly decreasing measure (the mantissa word that its body shifts right:
`mant1` for the normalisation and denormal loops, `mant2` for the merge loop),
and run from any state with one turn more than that measure it ends, in the
state returned by the embedded loop function.  `mul64integers` has no loop.
The three functions map the all-zeros words to the all-zeros result, and the
all-ones words to a defined result. -/
theorem mulFloat_loops_terminate (c : Companion) :
    (∀ s, mulFloat32.normalizeCond s = true → (mulFloat32.normalizeBody s).2 < s.2) ∧
    (∀ exp m, whileLoop mulFloat32.normalizeCond mulFloat32.normalizeBody (m + 1) (exp, m)
      = some (mulFloat32.normalize exp m)) ∧
    (∀ s, mulFloat32.denormalizeCond s = true → (mulFloat32.denormalizeBody s).2 < s.2) ∧
    (∀ exp m, whileLoop mulFloat32.denormalizeCond mulFloat32.denormalizeBody (m + 1) (exp, m)
      = some (mulFloat32.denormalize exp m)) ∧
    (∀ s, mulFloat64.mergeCond s = true → (mulFloat64.mergeBody s).2.2 < s.2.2) ∧
    (∀ exp m1 m2, whileLoop mulFloat64.mergeCond mulFloat64.mergeBody (m2 + 1) (exp, m1, m2)
      = some (mulFloat64.merge exp m1 m2)) ∧
    (∀ s, mulFloat64.normalizeCond s = true → (mulFloat64.normalizeBody s).2 < s.2) ∧
    (∀ exp m, whileLoop mulFloat64.normalizeCond mulFloat64.normalizeBody (m + 1) (exp, m)
      = some (mulFloat64.normalize exp m)) ∧
    (∀ s, mulFloat64.denormalizeCond s = true → (mulFloat64.denormalizeBody s).2 < s.2) ∧
    (∀ exp m, whileLoop mulFloat64.denormalizeCond mulFloat64.denormalizeBody (m + 1) (exp, m)
      = some (mulFloat64.denormalize exp m)) ∧
    mulFloat32 c ⟨0⟩ ⟨0⟩ = ⟨0⟩ ∧ mulFloat64 c ⟨0⟩ ⟨0⟩ = ⟨0⟩ ∧ mul64integers 0 0 = (0, 0) ∧
    mulFloat32 Companion.ieee ⟨0xFFFFFFFF⟩ ⟨0xFFFFFFFF⟩ = ⟨0x7FC00001⟩ ∧
    mulFloat64 Companion.ieee ⟨0xFFFFFFFFFFFFFFFF⟩ ⟨0xFFFFFFFFFFFFFFFF⟩
      = ⟨0x7FF8000000000001⟩ ∧
    mul64integers 0xFFFFFFFFFFFFFFFF 0xFFFFFFFFFFFFFFFF = (1, 3) := by
  refine ⟨?_, fun exp m => mulFloat32_normalize_run (m + 1) m exp (Nat.lt_succ_self m),
    ?_, fun exp m => mulFloat32_denormalize_run (m + 1) m exp (Nat.lt_succ_self m),
    ?_, fun exp m1 m2 => mulFloat64_merge_run (m2 + 1) m2 m1 exp (Nat.lt_succ_self m2),
    ?_, fun exp m => mulFloat64_normalize_run (m + 1) m exp (Nat.lt_succ_self m),
    ?_, fun exp m => mulFloat64_denormalize_run (m + 1) m exp (Nat.lt_succ_self m),
    ?_, ?_, by decide, by decide, by decide, by decide⟩
  · intro s hs
    have e1 : 1 <<< (FLOAT32_MANTISA_SIZE + 2) = 2 ^ 25 := by decide
    simp only [mulFloat32.normalizeCond, decide_eq_true_eq, e1] at hs
    exact shiftRight_one_lt (by omega)
  · intro s hs
    simp only [mulFloat32.denormalizeCond, decide_eq_true_eq] at hs
    exact shiftRight_one_lt hs.1
  · intro s hs
    simp only [mulFloat64.mergeCond, decide_eq_true_eq] at hs
    exact shiftRight_one_lt hs.2
  · intro s hs
    have e1 : 1 <<< (FLOAT64_MANTISA_SIZE + 2) = 2 ^ 54 := by decide
    simp only [mulFloat64.normalizeCond, decide_eq_true_eq, e1] at hs
    exact shiftRight_one_lt (by omega)
  · intro s hs
    simp only [mulFloat64.denormalizeCond, decide_eq_true_eq] at hs
    exact shiftRight_one_lt hs.1
  · have h := (mulFloat32_early_underflow c ⟨0⟩ ⟨0⟩ (by decide) (by decide) (by decide)
      (by decide) (by decide))
    rw [h]
    decide
  · rw [mulFloat64_early_underflow c ⟨0⟩ ⟨0⟩ (by decide) (by decide) (by decide)
      (by decide) (by decide)]
    decide

/-- Witness: one state in which each loop condition holds, `exp = 0` (or
`-1` for the denormal loops) and the shifted word `2^25`, `1`, `1`, `2^54`,
`1`. -/
theorem mulFloat_loops_terminate_witness :
    (mulFloat32.normalizeCond (0, 2 ^ 25) = true ∧
      (mulFloat32.normalizeBody (0, 2 ^ 25)).2 < 2 ^ 25) ∧
    (mulFloat32.denormalizeCond (-1, 1) = true ∧ (mulFloat32.denormalizeBody (-1, 1)).2 < 1) ∧
    (mulFloat64.mergeCond (0, 0, 1) = true ∧ (mulFloat64.mergeBody (0, 0, 1)).2.2 < 1) ∧
    (mulFloat64.normalizeCond (0, 2 ^ 54) = true ∧
      (mulFloat64.normalizeBody (0, 2 ^ 54)).2 < 2 ^ 54) ∧
    (mulFloat64.denormalizeCond (-1, 1) = true ∧ (mulFloat64.denormalizeBody (-1, 1)).2 < 1) :=
  ⟨⟨by decide, (mulFloat_loops_terminate Companion.ieee).1 (0, 2 ^ 25) (by decide)⟩,
    ⟨by decide, (mulFloat_loops_terminate Companion.ieee).2.2.1 (-1, 1) (by decide)⟩,
    ⟨by decide, (mulFloat_loops_terminate Companion.ieee).2.2.2.2.1 (0, 0, 1) (by decide)⟩,
    ⟨by decide,
      (mulFloat_loops_terminate Companion.ieee).2.2.2.2.2.2.1 (0, 2 ^ 54) (by decide)⟩,
    ⟨by decide,
      (mulFloat_loops_terminate Companion.ieee).2.2.2.2.2.2.2.2.1 (-1, 1) (by decide)⟩⟩

/-! ## Commutativity -/

theorem mulFloat32_product_comm (a b : float32) (e : Int) :
    mulFloat32.product a b e = mulFloat32.product b a e := by
  have key : ∀ x y : Nat, ((x <<< 1) % 2 ^ 64 * y) % 2 ^ 64 = ((y <<< 1) % 2 ^ 64 * x) % 2 ^ 64 := by
    intro x y
    rw [Nat.shiftLeft_eq, Nat.shiftLeft_eq, Nat.mod_mul_mod, Nat.mod_mul_mod]
    congr 1
    ring
  unfold mulFloat32.product
  by_cases ha : a.exp > 0 <;> by_cases hb : b.exp > 0 <;>
    simp only [ha, hb, if_true, if_false, key a.mantisa, key (a.mantisa ||| _),
      Prod.mk.injEq, and_true]


/-- The finite part of `mulFloat32`, after the NaN and Infinity branches,
does not depend on the order of the operands. -/
theorem mulFloat32_comm_finite (c : Companion) (a b : float32)
    (hna : isFloat32NaN a = false) (hnb : isFloat32NaN b = false)
    (hia : isFloat32Infinity a = false) (hib : isFloat32Infinity b = false) :
    mulFloat32 c a b = mulFloat32 c b a := by
  unfold mulFloat32
  simp only [hna, hnb, hia, hib, Bool.or_self, Bool.false_eq_true, if_false]
  rw [Nat.add_comm b.exp a.exp, Nat.xor_comm b.sign a.sign]
  simp only [mulFloat32_product_comm b a]

/-- Commutativity of `mulFloat32` on every pair of operands except two
signaling NaNs with different mantissa fields. -/
theorem mulFloat32_comm_of (c : Companion) (a b : float32)
    (h : ¬ (isFloat32SigNaN c a = true ∧ isFloat32SigNaN c b = true ∧
      a.mantisa ≠ b.mantisa)) :
    mulFloat32 c a b = mulFloat32 c b a := by
  by_cases hnan : (isFloat32NaN a || isFloat32NaN b) = true
  · have hnan2 : (isFloat32NaN b || isFloat32NaN a) = true := by
      rw [Bool.or_comm]; exact hnan
    unfold mulFloat32
    simp only [hnan, hnan2, if_true]
    rw [Nat.xor_comm b.sign a.sign]
    by_cases hsa : isFloat32SigNaN c a = true <;> by_cases hsb : isFloat32SigNaN c b = true
    · have hm : a.mantisa = b.mantisa := by
        by_contra hne
        exact h ⟨hsa, hsb, hne⟩
      have hea := (isFloat32NaN_fields (isFloat32SigNaN_isNaN hsa)).1
      have heb := (isFloat32NaN_fields (isFloat32SigNaN_isNaN hsb)).1
      simp only [hsa, hsb, if_true, hm, hea, heb]
    · simp only [hsa, hsb, if_true, Bool.false_eq_true, if_false]
    · simp only [hsa, hsb, if_true, Bool.false_eq_true, if_false]
    · simp only [hsa, hsb, Bool.false_eq_true, if_false]
  · have hna : isFloat32NaN a = false := by
      cases h1 : isFloat32NaN a
      · rfl
      · simp [h1] at hnan
    have hnb : isFloat32NaN b = false := by
      cases h1 : isFloat32NaN b
      · rfl
      · simp [h1] at hnan
    by_cases hia : isFloat32Infinity a = true <;> by_cases hib : isFloat32Infinity b = true
    · have hfa := isFloat32Infinity_fields hia
      have hfb := isFloat32Infinity_fields hib
      have hza : isFloat32Zero a = false := by simp [isFloat32Zero, hfa.1]
      have hzb : isFloat32Zero b = false := by simp [isFloat32Zero, hfb.1]
      unfold mulFloat32
      simp only [hna, hnb, hia, hib, hza, hzb, Bool.or_self, Bool.false_eq_true, if_false,
        if_true, hfa.1, hfa.2, hfb.1, hfb.2]
      rw [Nat.xor_comm b.sign a.sign]
    · have hib2 : isFloat32Infinity b = false := by simpa using hib
      unfold mulFloat32
      simp only [hna, hnb, hia, hib2, Bool.or_self, Bool.false_eq_true, if_false, if_true]
      rw [Nat.xor_comm b.sign a.sign]
    · have hia2 : isFloat32Infinity a = false := by simpa using hia
      unfold mulFloat32
      simp only [hna, hnb, hia2, hib, Bool.or_self, Bool.false_eq_true, if_false, if_true]
      rw [Nat.xor_comm b.sign a.sign]
    · exact mulFloat32_comm_finite c a b hna hnb (by simpa using hia) (by simpa using hib)

/-- Commutativity of `mulFloat64` on the NaN and Infinity branches, except
for two signaling NaNs with different mantissa fields. -/
theorem mulFloat64_comm_special (c : Companion) (a b : float64)
    (h : ¬ (isFloat64SigNaN c a = true ∧ isFloat64SigNaN c b = true ∧
      a.mantisa ≠ b.mantisa))
    (hs : (isFloat64NaN a || isFloat64NaN b) = true ∨
      (isFloat64Infinity a || isFloat64Infinity b) = true) :
    mulFloat64 c a b = mulFloat64 c b a := by
  by_cases hnan : (isFloat64NaN a || isFloat64NaN b) = true
  · have hnan2 : (isFloat64NaN b || isFloat64NaN a) = true := by
      rw [Bool.or_comm]; exact hnan
    unfold mulFloat64
    simp only [hnan, hnan2, if_true]
    rw [Nat.xor_comm b.sign a.sign]
    by_cases hsa : isFloat64SigNaN c a = true <;> by_cases hsb : isFloat64SigNaN c b = true
    · have hm : a.mantisa = b.mantisa := by
        by_contra hne
        exact h ⟨hsa, hsb, hne⟩
      have hea := (isFloat64NaN_fields (isFloat64SigNaN_isNaN hsa)).1
      have heb := (isFloat64NaN_fields (isFloat64SigNaN_isNaN hsb)).1
      simp only [hsa, hsb, if_true, hm, hea, heb]
    · simp only [hsa, hsb, if_true, Bool.false_eq_true, if_false]
    · simp only [hsa, hsb, if_true, Bool.false_eq_true, if_false]
    · simp only [hsa, hsb, Bool.false_eq_true, if_false]
  · have hna : isFloat64NaN a = false := by
      cases h1 : isFloat64NaN a
      · rfl
      · simp [h1] at hnan
    have hnb : isFloat64NaN b = false := by
      cases h1 : isFloat64NaN b
      · rfl
      · simp [h1] at hnan
    have hinf : (isFloat64Infinity a || isFloat64Infinity b) = true := by
      rcases hs with hs | hs
      · exact absurd hs hnan
      · exact hs
    by_cases hia : isFloat64Infinity a = true <;> by_cases hib : isFloat64Infinity b = true
    · have hfa := isFloat64Infinity_fields hia
      have hfb := isFloat64Infinity_fields hib
      have hza : isFloat64Zero a = false := by simp [isFloat64Zero, hfa.1]
      have hzb : isFloat64Zero b = false := by simp [isFloat64Zero, hfb.1]
      unfold mulFloat64
      simp only [hna, hnb, hia, hib, hza, hzb, Bool.or_self, Bool.false_eq_true, if_false,
        if_true, hfa.1, hfa.2, hfb.1, hfb.2]
      rw [Nat.xor_comm b.sign a.sign]
    · have hib2 : isFloat64Infinity b = false := by simpa using hib
      unfold mulFloat64
      simp only [hna, hnb, hia, hib2, Bool.or_self, Bool.false_eq_true, if_false, if_true]
      rw [Nat.xor_comm b.sign a.sign]
    · have hia2 : isFloat64Infinity a = false := by simpa using hia
      unfold mulFloat64
      simp only [hna, hnb, hia2, hib, Bool.or_self, Bool.false_eq_true, if_false, if_true]
      rw [Nat.xor_comm b.sign a.sign]
    · have hia2 : isFloat64Infinity a = false := by simpa using hia
      have hib2 : isFloat64Infinity b = false := by simpa using hib
      simp [hia2, hib2] at hinf

theorem float32_ofParts_mantisa_ne (s e m1 m2 : Nat) (h1 : m1 < 2 ^ 23) (h2 : m2 < 2 ^ 23)
    (hne : m1 ≠ m2) : float32.ofParts s e m1 ≠ float32.ofParts s e m2 := by
  intro h
  have h3 := congrArg float32.mantisa h
  rw [float32_mantisa_ofParts, float32_mantisa_ofParts, Nat.mod_eq_of_lt h1,
    Nat.mod_eq_of_lt h2] at h3
  exact hne h3

theorem float64_ofParts_mantisa_ne (s e m1 m2 : Nat) (h1 : m1 < 2 ^ 52) (h2 : m2 < 2 ^ 52)
    (hne : m1 ≠ m2) : float64.ofParts s e m1 ≠ float64.ofParts s e m2 := by
  intro h
  have h3 := congrArg float64.mantisa h
  rw [float64_mantisa_ofParts, float64_mantisa_ofParts, Nat.mod_eq_of_lt h1,
    Nat.mod_eq_of_lt h2] at h3
  exact hne h3

/-- Two signaling NaNs with different mantissa fields: each order of
`mulFloat32` propagates its first operand, so the two results differ. -/
theorem mulFloat32_two_signaling_ne (c : Companion) (a b : float32)
    (hsa : isFloat32SigNaN c a = true) (hsb : isFloat32SigNaN c b = true)
    (hne : a.mantisa ≠ b.mantisa) : mulFloat32 c a b ≠ mulFloat32 c b a := by
  have hna := isFloat32SigNaN_isNaN hsa
  have hnb := isFloat32SigNaN_isNaN hsb
  have hea := (isFloat32NaN_fields hna).1
  have heb := (isFloat32NaN_fields hnb).1
  unfold mulFloat32
  simp only [hna, hnb, hsa, hsb, Bool.or_self, if_true, hea, heb]
  rw [Nat.xor_comm b.sign a.sign]
  exact float32_ofParts_mantisa_ne _ _ _ _ (float32_mantisa_lt a) (float32_mantisa_lt b) hne

/-- Two signaling NaNs with different mantissa fields: each order of
`mulFloat64` propagates its first operand, so the two results differ. -/
theorem mulFloat64_two_signaling_ne (c : Companion) (a b : float64)
    (hsa : isFloat64SigNaN c a = true) (hsb : isFloat64SigNaN c b = true)
    (hne : a.mantisa ≠ b.mantisa) : mulFloat64 c a b ≠ mulFloat64 c b a := by
  have hna := isFloat64SigNaN_isNaN hsa
  have hnb := isFloat64SigNaN_isNaN hsb
  have hea := (isFloat64NaN_fields hna).1
  have heb := (isFloat64NaN_fields hnb).1
  unfold mulFloat64
  simp only [hna, hnb, hsa, hsb, Bool.or_self, if_true, hea, heb]
  rw [Nat.xor_comm b.sign a.sign]
  exact float64_ofParts_mantisa_ne _ _ _ _ (float64_mantisa_lt a) (float64_mantisa_lt b) hne

/-- Commutativity of `mulFloat64` on the two early exits. -/
theorem mulFloat64_comm_early (c : Companion) (a b : float64)
    (hna : isFloat64NaN a = false) (hia : isFloat64Infinity a = false)
    (hnb : isFloat64NaN b = false) (hib : isFloat64Infinity b = false)
    (hexp : (a.exp : Int) + (b.exp : Int) - 1023 ≥ 2047 ∨
      (a.exp : Int) + (b.exp : Int) - 1023 < 0) :
    mulFloat64 c a b = mulFloat64 c b a := by
  rcases hexp with hexp | hexp
  · rw [mulFloat64_early_overflow c a b hna hia hnb hib hexp,
      mulFloat64_early_overflow c b a hnb hib hna hia (by omega), Nat.xor_comm b.sign a.sign]
  · rw [mulFloat64_early_underflow c a b hna hia hnb hib hexp,
      mulFloat64_early_underflow c b a hnb hib hna hia (by omega), Nat.xor_comm b.sign a.sign]

/-- C11 (counterexample): on the signaling NaNs `0x7F800001` and `0x7F800002`
`mulFloat32` returns its first operand in each order, `0x7F800001` for
`(a, b)` and `0x7F800002` for `(b, a)`, so the two results differ. -/
theorem mulFloat32_comm_counterexample :
    isFloat32SigNaN Companion.ieee ⟨0x7F800001⟩ = true ∧
    isFloat32SigNaN Companion.ieee ⟨0x7F800002⟩ = true ∧
    mulFloat32 Companion.ieee ⟨0x7F800001⟩ ⟨0x7F800002⟩ = ⟨0x7F800001⟩ ∧
    mulFloat32 Companion.ieee ⟨0x7F800002⟩ ⟨0x7F800001⟩ = ⟨0x7F800002⟩ ∧
    mulFloat32 Companion.ieee ⟨0x7F800001⟩ ⟨0x7F800002⟩
      ≠ mulFloat32 Companion.ieee ⟨0x7F800002⟩ ⟨0x7F800001⟩ := by
  refine ⟨by decide, by decide, by decide, by decide, by decide⟩

/-- C11 (amended): for all 32-bit patterns `a` and `b`, `mulFloat32 a b` is
bit-for-bit equal to `mulFloat32 b a` unless both are signaling NaNs with
different mantissa fields; in that case the two results differ. -/
theorem mulFloat32_comm_except_signaling (c : Companion) (a b : float32) :
    (¬ (isFloat32SigNaN c a = true ∧ isFloat32SigNaN c b = true ∧ a.mantisa ≠ b.mantisa) →
      mulFloat32 c a b = mulFloat32 c b a) ∧
    (isFloat32SigNaN c a = true ∧ isFloat32SigNaN c b = true ∧ a.mantisa ≠ b.mantisa →
      mulFloat32 c a b ≠ mulFloat32 c b a) :=
  ⟨mulFloat32_comm_of c a b, fun h => mulFloat32_two_signaling_ne c a b h.1 h.2.1 h.2.2⟩

/-- Witness: the signaling NaN `0x7F800001` against the quiet NaN
`0xFFC00000`, which commute, and against the signaling NaN `0x7F800002`,
which do not. -/
theorem mulFloat32_comm_except_signaling_witness :
    (¬ (isFloat32SigNaN Companion.ieee ⟨0x7F800001⟩ = true ∧
        isFloat32SigNaN Companion.ieee ⟨0xFFC00000⟩ = true ∧
        float32.mantisa ⟨0x7F800001⟩ ≠ float32.mantisa ⟨0xFFC00000⟩) ∧
      mulFloat32 Companion.ieee ⟨0x7F800001⟩ ⟨0xFFC00000⟩
        = mulFloat32 Companion.ieee ⟨0xFFC00000⟩ ⟨0x7F800001⟩) ∧
    ((isFloat32SigNaN Companion.ieee ⟨0x7F800001⟩ = true ∧
        isFloat32SigNaN Companion.ieee ⟨0x7F800002⟩ = true ∧
        float32.mantisa ⟨0x7F800001⟩ ≠ float32.mantisa ⟨0x7F800002⟩) ∧
      mulFloat32 Companion.ieee ⟨0x7F800001⟩ ⟨0x7F800002⟩
        ≠ mulFloat32 Companion.ieee ⟨0x7F800002⟩ ⟨0x7F800001⟩) :=
  ⟨⟨by decide,
      (mulFloat32_comm_except_signaling Companion.ieee ⟨0x7F800001⟩ ⟨0xFFC00000⟩).1
        (by decide)⟩,
    ⟨by decide,
      (mulFloat32_comm_except_signaling Companion.ieee ⟨0x7F800001⟩ ⟨0x7F800002⟩).2
        (by decide)⟩⟩

/-- C12 (counterexample): on the signaling NaNs `0x7FF0000000000001` and
`0x7FF0000000000002` `mulFloat64` returns its first operand in each order, so
the two results differ.  The Normal operands `0x3FF0000080000000` and
`0x3FF0000000000001` also give two different results, `0x3CB0000000000000`
and `0x3CB0000080000000`. -/
theorem mulFloat64_comm_counterexample :
    mulFloat64 Companion.ieee ⟨0x7FF0000000000001⟩ ⟨0x7FF0000000000002⟩
      = ⟨0x7FF0000000000001⟩ ∧
    mulFloat64 Companion.ieee ⟨0x7FF0000000000002⟩ ⟨0x7FF0000000000001⟩
      = ⟨0x7FF0000000000002⟩ ∧
    mulFloat64 Companion.ieee ⟨0x7FF0000000000001⟩ ⟨0x7FF0000000000002⟩
      ≠ mulFloat64 Companion.ieee ⟨0x7FF0000000000002⟩ ⟨0x7FF0000000000001⟩ ∧
    mulFloat64 Companion.ieee ⟨0x3FF0000080000000⟩ ⟨0x3FF0000000000001⟩
      = ⟨0x3CB0000000000000⟩ ∧
    mulFloat64 Companion.ieee ⟨0x3FF0000000000001⟩ ⟨0x3FF0000080000000⟩
      = ⟨0x3CB0000080000000⟩ := by
  have hp1 : mulFloat64.product ⟨0x3FF0000080000000⟩ ⟨0x3FF0000000000001⟩
      (((float64.exp ⟨0x3FF0000080000000⟩ + float64.exp ⟨0x3FF0000000000001⟩ : Nat) : Int)
        - 1023) = (1023, 0, 0) := by decide
  have hp2 : mulFloat64.product ⟨0x3FF0000000000001⟩ ⟨0x3FF0000080000000⟩
      (((float64.exp ⟨0x3FF0000000000001⟩ + float64.exp ⟨0x3FF0000080000000⟩ : Nat) : Int)
        - 1023) = (1023, 4294967296, 0) := by decide
  have hn1 : mulFloat64.normalize 1023 0 = (1023, 0) :=
    mulFloat64_normalize_stop_mant (by decide)
  have hn2 : mulFloat64.normalize 1023 4294967296 = (1023, 4294967296) :=
    mulFloat64_normalize_stop_mant (by decide)
  refine ⟨by decide, by decide, by decide, ?_, ?_⟩
  · rw [mulFloat64_normal_path Companion.ieee _ _ (by decide) (by decide) (by decide)
      (by decide) (by decide) (by decide) 1023 0 0 hp1]
    simp only [mulFloat64_merge_stop_hi, hn1]
    decide
  · rw [mulFloat64_normal_path Companion.ieee _ _ (by decide) (by decide) (by decide)
      (by decide) (by decide) (by decide) 1023 4294967296 0 hp2]
    simp only [mulFloat64_merge_stop_hi, hn2]
    decide

/-- C12 (amended): for all 64-bit patterns `a` and `b` that are not both
signaling NaNs with different mantissa fields and that do not reach the
mantissa product (an operand is a NaN or an Infinity, or the exponent sum
`a.exp + b.exp - 1023` is at least 2047 or negative), `mulFloat64 a b` is
bit-for-bit equal to `mulFloat64 b a`. -/
theorem mulFloat64_comm_outside_product (c : Companion) (a b : float64)
    (h : ¬ (isFloat64SigNaN c a = true ∧ isFloat64SigNaN c b = true ∧
      a.mantisa ≠ b.mantisa))
    (hpath : (isFloat64NaN a || isFloat64NaN b || isFloat64Infinity a
        || isFloat64Infinity b) = true ∨
      (a.exp : Int) + (b.exp : Int) - 1023 ≥ 2047 ∨
      (a.exp : Int) + (b.exp : Int) - 1023 < 0) :
    mulFloat64 c a b = mulFloat64 c b a := by
  by_cases hs : (isFloat64NaN a || isFloat64NaN b) = true ∨
      (isFloat64Infinity a || isFloat64Infinity b) = true
  · exact mulFloat64_comm_special c a b h hs
  · have hna : isFloat64NaN a = false := by
      cases h1 : isFloat64NaN a
      · rfl
      · simp [h1] at hs
    have hnb : isFloat64NaN b = false := by
      cases h1 : isFloat64NaN b
      · rfl
      · simp [h1] at hs
    have hia : isFloat64Infinity a = false := by
      cases h1 : isFloat64Infinity a
      · rfl
      · simp [h1] at hs
    have hib : isFloat64Infinity b = false := by
      cases h1 : isFloat64Infinity b
      · rfl
      · simp [h1] at hs
    rcases hpath with hp | hp
    · simp [hna, hnb, hia, hib] at hp
    · exact mulFloat64_comm_early c a b hna hia hnb hib hp

/-- Witness: `+Infinity` (`0x7FF0000000000000`) against `-1.0`
(`0xBFF0000000000000`). -/
theorem mulFloat64_comm_outside_product_witness :
    ¬ (isFloat64SigNaN Companion.ieee ⟨0x7FF0000000000000⟩ = true ∧
      isFloat64SigNaN Companion.ieee ⟨0xBFF0000000000000⟩ = true ∧
      float64.mantisa ⟨0x7FF0000000000000⟩ ≠ float64.mantisa ⟨0xBFF0000000000000⟩) ∧
    (isFloat64NaN ⟨0x7FF0000000000000⟩ || isFloat64NaN ⟨0xBFF0000000000000⟩
      || isFloat64Infinity ⟨0x7FF0000000000000⟩
      || isFloat64Infinity ⟨0xBFF0000000000000⟩) = true ∧
    mulFloat64 Companion.ieee ⟨0x7FF0000000000000⟩ ⟨0xBFF0000000000000⟩
      = mulFloat64 Companion.ieee ⟨0xBFF0000000000000⟩ ⟨0x7FF0000000000000⟩ :=
  ⟨by decide, by decide,
    mulFloat64_comm_outside_product Companion.ieee ⟨0x7FF0000000000000⟩ ⟨0xBFF0000000000000⟩
      (by decide) (Or.inl (by decide))⟩

/-! ## The pipeline of `mulFloat32` on Normal operands -/

theorem hidden_bit_or {i m : Nat} (h : m < 2 ^ i) : m ||| 2 ^ i = m + 2 ^ i := by
  have h1 := Nat.mul_add_lt_is_or h 1
  rw [Nat.mul_one] at h1
  rw [Nat.or_comm, ← h1, Nat.add_comm]

theorem expField_of_nat (w n : Nat) (x : Int) (hx : x = (n : Int)) (hn : n < 2 ^ w) :
    expField w x = n := by
  subst hx
  unfold expField
  have h2 : ((n : Int) % 2 ^ w) = (n : Int) :=
    Int.emod_eq_of_lt (Int.natCast_nonneg n) (by exact_mod_cast hn)
  rw [h2, Int.toNat_ofNat]

theorem float32_isNormal_exp {f : float32} (h : f.isNormal = true) :
    0 < f.exp ∧ f.exp < 255 := by
  simpa [float32.isNormal, FLOAT32_MAX_EXPONENT] using h

/-- Lines 103-120 on two operands with non-zero exponent fields: the raw
product is twice the product of the two significands, without wrap. -/
theorem mulFloat32_product_normal (a b : float32) (e : Int) (ha : 0 < a.exp)
    (hb : 0 < b.exp) :
    mulFloat32.product a b e = (e, 2 * ((2 ^ 23 + a.mantisa) * (2 ^ 23 + b.mantisa))) := by
  have hma := float32_mantisa_lt a
  have hmb := float32_mantisa_lt b
  have h1 : a.mantisa ||| FLOAT32_HIDDEN_BIT_MASK = 2 ^ 23 + a.mantisa := by
    rw [FLOAT32_HIDDEN_BIT_MASK, hidden_bit_or hma, Nat.add_comm]
  have h2 : b.mantisa ||| FLOAT32_HIDDEN_BIT_MASK = 2 ^ 23 + b.mantisa := by
    rw [FLOAT32_HIDDEN_BIT_MASK, hidden_bit_or hmb, Nat.add_comm]
  have h3 : ((2 ^ 23 + a.mantisa) <<< 1) % 2 ^ 64 = 2 * (2 ^ 23 + a.mantisa) := by
    rw [Nat.shiftLeft_eq]
    omega
  have h4 : (2 ^ 23 + a.mantisa) * (2 ^ 23 + b.mantisa) < 2 ^ 24 * 2 ^ 24 :=
    Nat.mul_lt_mul'' (by omega) (by omega)
  have h5 : (2 * (2 ^ 23 + a.mantisa) * (2 ^ 23 + b.mantisa)) % 2 ^ 64
      = 2 * ((2 ^ 23 + a.mantisa) * (2 ^ 23 + b.mantisa)) := by
    rw [Nat.mul_assoc]
    apply Nat.mod_eq_of_lt
    have : (2 : Nat) ^ 24 * 2 ^ 24 = 2 ^ 48 := by norm_num
    omega
  unfold mulFloat32.product
  simp only [gt_iff_lt, ha, hb, if_true, h1, h2, h3, h5]

/-- The normalisation loop on a word with exactly `25 + k` bits, when the
exponent can take `k` increments: the word is shifted right `k` times. -/
theorem mulFloat32_normalize_exact (k : Nat) (e : Int) (p : Nat) (h1 : e + k ≤ 255)
    (h2 : 2 ^ (24 + k) ≤ p) (h3 : p < 2 ^ (25 + k)) :
    mulFloat32.normalize e p = (e + k, p / 2 ^ k) := by
  rw [mulFloat32_normalize_iter k e p h1 (Or.inr h2)]
  apply mulFloat32_normalize_stop_mant
  rw [Nat.div_lt_iff_lt_mul (Nat.pos_pow_of_pos k (by decide)), ← pow_add]
  exact h3

/-- Lines 131-136 on a word below `2^25`: the carry-absorb step is not taken. -/
theorem mulFloat32_round_no_carry (e : Int) (m : Nat) (h : m < 2 ^ 25) :
    mulFloat32.round e m = (e, m / 2) := by
  have e1 : 1 <<< (FLOAT32_MANTISA_SIZE + 1) = 2 ^ 24 := by decide
  have hc : ¬ (e < (FLOAT32_MAX_EXPONENT : Int) ∧ m >>> 1 ≥ 1 <<< (FLOAT32_MANTISA_SIZE + 1)) := by
    rw [e1, Nat.shiftRight_eq_div_pow]
    omega
  unfold mulFloat32.round
  simp only [hc, if_false]
  rw [Nat.shiftRight_eq_div_pow, pow_one]

/-- Lines 138-165 when neither the late overflow test nor the denormal gate
fires: the final pack. -/
theorem mulFloat32_finish_pack (s : Nat) (e : Int) (m : Nat) (h1 : e < 255)
    (h2 : 23 < e - 23) :
    mulFloat32.finish s e m = float32.ofParts s (expField 8 (e - 23)) (m % 2 ^ 23) := by
  have e1 : ((FLOAT32_MAX_EXPONENT : Nat) : Int) = 255 := by decide
  have e2 : ((FLOAT32_MANTISA_SIZE : Nat) : Int) = 23 := by decide
  have e3 : (1 <<< FLOAT32_MANTISA_SIZE) - 1 = 2 ^ 23 - 1 := by decide
  have c1 : ¬ (e ≥ 255) := by omega
  have c2 : ¬ (e - 23 ≤ 23) := by omega
  unfold mulFloat32.finish
  simp only [e1, e2, e3, c1, c2, if_false, Nat.and_pow_two_sub_one_eq_mod]

/-- The whole pipeline of `mulFloat32` on two Normal operands whose exponent
sum `E = a.exp + b.exp - 127` lies in `[24, 230]`, for the number `s` of extra
bits of the product of the significands. -/
theorem mulFloat32_normal_core (c : Companion) (a b : float32) (s : Nat)
    (ha : a.isNormal = true) (hb : b.isNormal = true)
    (hlo : 151 ≤ a.exp + b.exp) (hhi : a.exp + b.exp ≤ 357) (hs : s ≤ 1)
    (hq1 : 2 ^ (46 + s) ≤ (2 ^ 23 + a.mantisa) * (2 ^ 23 + b.mantisa))
    (hq2 : (2 ^ 23 + a.mantisa) * (2 ^ 23 + b.mantisa) < 2 ^ (47 + s)) :
    mulFloat32 c a b = float32.ofParts (a.sign ^^^ b.sign) (a.exp + b.exp - 127 + s)
      ((2 ^ 23 + a.mantisa) * (2 ^ 23 + b.mantisa) / 2 ^ (23 + s) % 2 ^ 23) := by
  have hea := float32_isNormal_exp ha
  have heb := float32_isNormal_exp hb
  rw [mulFloat32_normal_path c a b (isFloat32NaN_of_exp_ne (by omega))
    (isFloat32NaN_of_exp_ne (by omega)) (isFloat32Infinity_of_exp_ne (by omega))
    (isFloat32Infinity_of_exp_ne (by omega)) (by omega) (by omega),
    mulFloat32_product_normal a b _ hea.1 heb.1]
  generalize hQ : (2 ^ 23 + a.mantisa) * (2 ^ 23 + b.mantisa) = Q at hq1 hq2 ⊢
  have hp1 : 2 ^ (24 + (23 + s)) ≤ 2 * Q := by
    have : (2 : Nat) ^ (24 + (23 + s)) = 2 * 2 ^ (46 + s) := by
      rw [← pow_succ']; congr 1; omega
    omega
  have hp2 : 2 * Q < 2 ^ (25 + (23 + s)) := by
    have : (2 : Nat) ^ (25 + (23 + s)) = 2 * 2 ^ (47 + s) := by
      rw [← pow_succ']; congr 1; omega
    omega
  have hn := mulFloat32_normalize_exact (23 + s) (((a.exp + b.exp : Nat) : Int) - 127) (2 * Q)
    (by push_cast; omega) hp1 hp2
  have hdiv : 2 * Q / 2 ^ (23 + s) / 2 = Q / 2 ^ (23 + s) := by
    rw [Nat.div_div_eq_div_mul, Nat.mul_comm (2 ^ (23 + s)) 2,
      Nat.mul_div_mul_left _ _ (by decide : 0 < 2)]
  have hlt : 2 * Q / 2 ^ (23 + s) < 2 ^ 25 := by
    rw [Nat.div_lt_iff_lt_mul (Nat.pos_pow_of_pos _ (by decide)), ← pow_add]
    exact hp2
  simp only [hn]
  rw [mulFloat32_round_no_carry _ _ hlt]
  simp only [hdiv]
  rw [mulFloat32_finish_pack _ _ _ (by push_cast; omega) (by push_cast; omega)]
  rw [expField_of_nat 8 (a.exp + b.exp - 127 + s) _ (by push_cast; omega)
    (by norm_num; omega)]

/-- C20: truncated product at width 32.  For Normal `a`, `b` with significands
`ma = 2^23 + a.mantisa`, `mb = 2^23 + b.mantisa` and
`E = a.exp + b.exp - 127` in `[24, 230]`, the result of `mulFloat32` has sign
`a.sign XOR b.sign`; if `ma * mb < 2^47` its exponent field is `E` and its
mantissa field `ma * mb / 2^23 - 2^23`, otherwise its exponent field is
`E + 1` and its mantissa field `ma * mb / 2^24 - 2^23` (the quotients rounded
down: the exact product truncated toward zero to 24 significant bits). -/
theorem mulFloat32_truncated_product (c : Companion) (a b : float32)
    (ha : a.isNormal = true) (hb : b.isNormal = true)
    (hlo : 24 ≤ (a.exp : Int) + (b.exp : Int) - 127)
    (hhi : (a.exp : Int) + (b.exp : Int) - 127 ≤ 230) :
    (mulFloat32 c a b).sign = a.sign ^^^ b.sign ∧
    ((2 ^ 23 + a.mantisa) * (2 ^ 23 + b.mantisa) < 2 ^ 47 →
      ((mulFloat32 c a b).exp : Int) = (a.exp : Int) + (b.exp : Int) - 127 ∧
      (mulFloat32 c a b).mantisa
        = (2 ^ 23 + a.mantisa) * (2 ^ 23 + b.mantisa) / 2 ^ 23 - 2 ^ 23) ∧
    (2 ^ 47 ≤ (2 ^ 23 + a.mantisa) * (2 ^ 23 + b.mantisa) →
      ((mulFloat32 c a b).exp : Int) = (a.exp : Int) + (b.exp : Int) - 127 + 1 ∧
      (mulFloat32 c a b).mantisa
        = (2 ^ 23 + a.mantisa) * (2 ^ 23 + b.mantisa) / 2 ^ 24 - 2 ^ 23) := by
  have hea := float32_isNormal_exp ha
  have heb := float32_isNormal_exp hb
  have hma := float32_mantisa_lt a
  have hmb := float32_mantisa_lt b
  have hqlo : 2 ^ 23 * 2 ^ 23 ≤ (2 ^ 23 + a.mantisa) * (2 ^ 23 + b.mantisa) :=
    Nat.mul_le_mul (by omega) (by omega)
  have hqhi : (2 ^ 23 + a.mantisa) * (2 ^ 23 + b.mantisa) < 2 ^ 24 * 2 ^ 24 :=
    Nat.mul_lt_mul'' (by omega) (by omega)
  refine ⟨?_, ?_, ?_⟩
  · exact mulFloat32_sign_finite c a b (isFloat32NaN_of_exp_ne (by omega))
      (isFloat32NaN_of_exp_ne (by omega)) (isFloat32Infinity_of_exp_ne (by omega))
      (isFloat32Infinity_of_exp_ne (by omega))
  · intro hq
    rw [mulFloat32_normal_core c a b 0 ha hb (by omega) (by omega) (by omega)
      (by norm_num at hqlo ⊢; exact hqlo) (by norm_num at hq ⊢; exact hq)]
    generalize (2 ^ 23 + a.mantisa) * (2 ^ 23 + b.mantisa) = Q at hqlo hq ⊢
    rw [float32_exp_ofParts, float32_mantisa_ofParts]
    norm_num at hqlo hq ⊢
    omega
  · intro hq
    rw [mulFloat32_normal_core c a b 1 ha hb (by omega) (by omega) (by omega)
      (by norm_num at hq ⊢; exact hq) (by norm_num at hqhi ⊢; exact hqhi)]
    generalize (2 ^ 23 + a.mantisa) * (2 ^ 23 + b.mantisa) = Q at hqhi hq ⊢
    rw [float32_exp_ofParts, float32_mantisa_ofParts]
    norm_num at hqhi hq ⊢
    omega

/-- Witness: `(1 + 2^-23) * 1.5` (`0x3F800001`, `0x3FC00000`), where the
product of the significands is below `2^47` and its low bits are cut off
(mantissa field `0x400001`, where rounding to nearest would give `0x400002`),
and `1.5 * 1.5`, where the product is at least `2^47`. -/
theorem mulFloat32_truncated_product_witness :
    (float32.isNormal ⟨0x3F800001⟩ = true ∧ float32.isNormal ⟨0x3FC00000⟩ = true ∧
      (24 ≤ (127 : Int) + 127 - 127) ∧ ((127 : Int) + 127 - 127 ≤ 230) ∧
      (2 ^ 23 + 1) * (2 ^ 23 + 0x400000) < 2 ^ 47 ∧
      (mulFloat32 Companion.ieee ⟨0x3F800001⟩ ⟨0x3FC00000⟩).sign = 0 ∧
      ((mulFloat32 Companion.ieee ⟨0x3F800001⟩ ⟨0x3FC00000⟩).exp : Int) = 127 ∧
      (mulFloat32 Companion.ieee ⟨0x3F800001⟩ ⟨0x3FC00000⟩).mantisa = 0x400001) ∧
    (2 ^ 47 ≤ (2 ^ 23 + 0x400000) * (2 ^ 23 + 0x400000) ∧
      (mulFloat32 Companion.ieee ⟨0x3FC00000⟩ ⟨0x3FC00000⟩).sign = 0 ∧
      ((mulFloat32 Companion.ieee ⟨0x3FC00000⟩ ⟨0x3FC00000⟩).exp : Int) = 128 ∧
      (mulFloat32 Companion.ieee ⟨0x3FC00000⟩ ⟨0x3FC00000⟩).mantisa = 0x100000) :=
  ⟨⟨by decide, by decide, by decide, by decide, by decide,
      (mulFloat32_truncated_product Companion.ieee ⟨0x3F800001⟩ ⟨0x3FC00000⟩
        (by decide) (by decide) (by decide) (by decide)).1,
      (mulFloat32_truncated_product Companion.ieee ⟨0x3F800001⟩ ⟨0x3FC00000⟩
        (by decide) (by decide) (by decide) (by decide)).2.1 (by decide)⟩,
    ⟨by decide,
      (mulFloat32_truncated_product Companion.ieee ⟨0x3FC00000⟩ ⟨0x3FC00000⟩
        (by decide) (by decide) (by decide) (by decide)).1,
      (mulFloat32_truncated_product Companion.ieee ⟨0x3FC00000⟩ ⟨0x3FC00000⟩
        (by decide) (by decide) (by decide) (by decide)).2.2 (by decide)⟩⟩

/-! ## `mul64integers`: zero operands and the low word -/

/-- C25: zero operand of `mul64integers`.  For every `b`,
`mul64integers 0 b` and `mul64integers b 0` both return `(lo, hi) = (0, 0)`. -/
theorem mul64integers_zero_operand (b : Nat) :
    mul64integers 0 b = (0, 0) ∧ mul64integers b 0 = (0, 0) := by
  constructor <;> simp [mul64integers]

/-- C24 (the code at a failing input): `mul64integers 3 5` returns the low
word `15 + 30 * 2^32` (and the high word 30), not `3 * 5 mod 2^64 = 15`: the
combined middle term `30 * 2^32` is added into the low word as it is, because
the shift of line 342 (`middle1 << 32;`) is not assigned. -/
theorem mul64integers_three_five :
    mul64integers 3 5 = (15 + 30 * 2 ^ 32, 30) ∧
    (mul64integers 3 5).1 ≠ 3 * 5 % 2 ^ 64 := by
  constructor <;> decide

/-! ## The raw product of `mulFloat32` -/

/-- C26: the raw mantissa product of `mulFloat32` never wraps.  Whatever the
operands, the value that lines 103-120 leave in the 64-bit `mant1` is the
mathematical product `2 * mant1 * mant2` of the two working mantissas (the
mantissa field, with the hidden bit when the exponent field is not 0), and it
is below `2^49`. -/
theorem mulFloat32_product_no_wrap (a b : float32) (e : Int) :
    (mulFloat32.product a b e).2
      = 2 * (if a.exp > 0 then a.mantisa ||| FLOAT32_HIDDEN_BIT_MASK else a.mantisa)
          * (if b.exp > 0 then b.mantisa ||| FLOAT32_HIDDEN_BIT_MASK else b.mantisa) ∧
    (mulFloat32.product a b e).2 < 2 ^ 49 := by
  have hma := float32_mantisa_lt a
  have hmb := float32_mantisa_lt b
  have h1 : a.mantisa ||| FLOAT32_HIDDEN_BIT_MASK < 2 ^ 24 := by
    rw [FLOAT32_HIDDEN_BIT_MASK, hidden_bit_or hma]; omega
  have h2 : b.mantisa ||| FLOAT32_HIDDEN_BIT_MASK < 2 ^ 24 := by
    rw [FLOAT32_HIDDEN_BIT_MASK, hidden_bit_or hmb]; omega
  have key : ∀ x y : Nat, x < 2 ^ 24 → y < 2 ^ 24 →
      ((x <<< 1) % 2 ^ 64 * y) % 2 ^ 64 = 2 * x * y ∧
        ((x <<< 1) % 2 ^ 64 * y) % 2 ^ 64 < 2 ^ 49 := by
    intro x y hx hy
    have hxy : x * y < 2 ^ 24 * 2 ^ 24 := Nat.mul_lt_mul'' hx hy
    have h48 : (2 : Nat) ^ 24 * 2 ^ 24 = 2 ^ 48 := by norm_num
    have h3 : (x <<< 1) % 2 ^ 64 = 2 * x := by
      rw [Nat.shiftLeft_eq]
      omega
    have h4 : 2 * x * y = 2 * (x * y) := Nat.mul_assoc 2 x y
    have h5 : (2 * (x * y)) % 2 ^ 64 = 2 * (x * y) := Nat.mod_eq_of_lt (by omega)
    rw [h3, h4, h5]
    exact ⟨rfl, by omega⟩
  unfold mulFloat32.product
  by_cases ha : a.exp > 0
  · by_cases hb : b.exp > 0
    · simp only [ha, hb, if_true]
      exact key _ _ h1 h2
    · simp only [ha, hb, if_true, if_false]
      exact key _ _ h1 (by omega)
  · by_cases hb : b.exp > 0
    · simp only [ha, hb, if_true, if_false]
      exact key _ _ (by omega) h2
    · simp only [ha, hb, if_false]
      exact key _ _ (by omega) (by omega)

/-! ## Commutativity of `mulFloat32` outside pairs of signaling NaNs -/

/-- C30: `mulFloat32` is commutative except on pairs of signaling NaNs.  For
all `a`, `b` that are not both signaling NaNs, `mulFloat32 a b` and
`mulFloat32 b a` are the same word. -/
theorem mulFloat32_comm_unless_both_signaling (c : Companion) (a b : float32)
    (h : ¬ (isFloat32SigNaN c a = true ∧ isFloat32SigNaN c b = true)) :
    mulFloat32 c a b = mulFloat32 c b a :=
  mulFloat32_comm_of c a b (fun hh => h ⟨hh.1, hh.2.1⟩)

/-- Witness: the signaling NaN `0x7F800001` against `-3.0` (`0xC0400000`). -/
theorem mulFloat32_comm_unless_both_signaling_witness :
    ¬ (isFloat32SigNaN Companion.ieee ⟨0x7F800001⟩ = true ∧
      isFloat32SigNaN Companion.ieee ⟨0xC0400000⟩ = true) ∧
    mulFloat32 Companion.ieee ⟨0x7F800001⟩ ⟨0xC0400000⟩
      = mulFloat32 Companion.ieee ⟨0xC0400000⟩ ⟨0x7F800001⟩ :=
  ⟨by decide,
    mulFloat32_comm_unless_both_signaling Companion.ieee ⟨0x7F800001⟩ ⟨0xC0400000⟩
      (by decide)⟩

/-! ## The merge loop of `mulFloat64` -/

/-- C23 (the code at a failing input): on the operands
`a = b = 0x3FF0000000000001` the merge loop of `mulFloat64` starts from
`exp = 1023`, `lo = 2^34 + 2`, `hi = 4`.  Its first turn leaves
`lo = ((2^34 + 2) >> 1) AND ((4 AND 1) << 63) = 0` where an OR would leave
`2^33 + 1`, and the loop ends after three turns with `lo = 0`, not with
`(4 * 2^64 + 2^34 + 2) / 2^3 = 2^63 + 2^31`. -/
theorem mulFloat64_merge_clears_low_word :
    mulFloat64.product ⟨0x3FF0000000000001⟩ ⟨0x3FF0000000000001⟩ 1023
      = (1023, 2 ^ 34 + 2, 4) ∧
    mulFloat64.mergeBody (1023, 2 ^ 34 + 2, 4) = (1024, 0, 2) ∧
    ((2 ^ 34 + 2) >>> 1) ||| (((4 &&& 0x1) <<< 63) % 2 ^ 64) = 2 ^ 33 + 1 ∧
    mulFloat64.merge 1023 (2 ^ 34 + 2) 4 = (1026, 0, 0) ∧
    (4 * 2 ^ 64 + (2 ^ 34 + 2)) / 2 ^ 3 = 2 ^ 63 + 2 ^ 31 := by
  refine ⟨by decide, by decide, by decide, ?_, by decide⟩
  have e1 : ((FLOAT64_MAX_EXPONENT : Nat) : Int) = 2047 := by decide
  have s1 : mulFloat64.merge 1023 (2 ^ 34 + 2) 4 = mulFloat64.merge 1024 0 2 := by
    rw [mulFloat64.merge, e1, if_pos (by decide)]
    rfl
  have s2 : mulFloat64.merge 1024 0 2 = mulFloat64.merge 1025 0 1 := by
    rw [mulFloat64.merge, e1, if_pos (by decide)]
    rfl
  have s3 : mulFloat64.merge 1025 0 1 = mulFloat64.merge 1026 0 0 := by
    rw [mulFloat64.merge, e1, if_pos (by decide)]
    rfl
  rw [s1, s2, s3, mulFloat64_merge_stop_hi]

/-! ## The denormal loops -/

theorem mulFloat32_denormalize_stop_exp {e : Int} {m : Nat} (h : 0 ≤ e) :
    mulFloat32.denormalize e m = (e, m) := by
  rw [mulFloat32.denormalize, if_neg]
  omega

theorem mulFloat32_denormalize_stop_mant (e : Int) :
    mulFloat32.denormalize e 0 = (e, 0) := by
  rw [mulFloat32.denormalize, if_neg]
  omega

theorem mulFloat32_denormalize_step {e : Int} {m : Nat} (h1 : 0 < m) (h2 : e < 0) :
    mulFloat32.denormalize e m = mulFloat32.denormalize (e + 1) (m / 2) := by
  rw [mulFloat32.denormalize, if_pos ⟨h1, h2⟩, Nat.shiftRight_eq_div_pow, pow_one]

/-- `j` turns of the denormal loop: as long as the exponent is negative and
the mantissa is not 0, each turn halves the mantissa. -/
theorem mulFloat32_denormalize_iter (j : Nat) : ∀ (e : Int) (m : Nat),
    e + j ≤ 0 → (j = 0 ∨ 2 ^ (j - 1) ≤ m) →
    mulFloat32.denormalize e m = mulFloat32.denormalize (e + j) (m / 2 ^ j) := by
  induction j with
  | zero => intro e m _ _; simp
  | succ j ih =>
    intro e m h1 h2
    have hm : 2 ^ j ≤ m := by
      rcases h2 with h2 | h2
      · omega
      · simpa using h2
    have hpos : 0 < m := lt_of_lt_of_le (Nat.pos_pow_of_pos j (by decide)) hm
    rw [mulFloat32_denormalize_step hpos (by omega),
      ih (e + 1) (m / 2) (by push_cast at h1 ⊢; omega)]
    · rw [Nat.div_div_eq_div_mul, pow_succ, Nat.mul_comm (2 ^ j) 2]
      congr 1
      push_cast
      ring
    · rcases Nat.eq_zero_or_pos j with hj | hj
      · left; exact hj
      · right
        rw [Nat.le_div_iff_mul_le (by decide)]
        calc 2 ^ (j - 1) * 2 = 2 ^ j := by
              rw [← pow_succ]; congr 1; omega
          _ ≤ m := hm

/-- What the denormal loop leaves: a mantissa that is 0 or an exponent that
is not negative, and an exponent between the one it started from and
`max e 0`. -/
theorem mulFloat32_denormalize_bounds (m : Nat) : ∀ e : Int,
    ((mulFloat32.denormalize e m).2 ≠ 0 → 0 ≤ (mulFloat32.denormalize e m).1) ∧
    e ≤ (mulFloat32.denormalize e m).1 ∧ (mulFloat32.denormalize e m).1 ≤ max e 0 := by
  induction m using Nat.strong_induction_on with
  | _ m ih =>
    intro e
    by_cases hc : m > 0 ∧ e < 0
    · rw [mulFloat32_denormalize_step hc.1 hc.2]
      have h := ih (m / 2) (by omega) (e + 1)
      refine ⟨h.1, by omega, ?_⟩
      have h3 := h.2.2
      rw [max_def] at h3 ⊢
      split_ifs at h3 ⊢ <;> omega
    · rw [mulFloat32.denormalize, if_neg hc]
      refine ⟨?_, le_refl _, le_max_left _ _⟩
      intro hm
      simp only [ne_eq] at hm
      omega

theorem mulFloat64_denormalize_step {e : Int} {m : Nat} (h1 : 0 < m) (h2 : e < 0) :
    mulFloat64.denormalize e m = mulFloat64.denormalize (e + 1) (m / 2) := by
  rw [mulFloat64.denormalize, if_pos ⟨h1, h2⟩, Nat.shiftRight_eq_div_pow, pow_one]

/-- What the denormal loop leaves: a mantissa that is 0 or an exponent that
is not negative, and an exponent between the one it started from and
`max e 0`. -/
theorem mulFloat64_denormalize_bounds (m : Nat) : ∀ e : Int,
    ((mulFloat64.denormalize e m).2 ≠ 0 → 0 ≤ (mulFloat64.denormalize e m).1) ∧
    e ≤ (mulFloat64.denormalize e m).1 ∧ (mulFloat64.denormalize e m).1 ≤ max e 0 := by
  induction m using Nat.strong_induction_on with
  | _ m ih =>
    intro e
    by_cases hc : m > 0 ∧ e < 0
    · rw [mulFloat64_denormalize_step hc.1 hc.2]
      have h := ih (m / 2) (by omega) (e + 1)
      refine ⟨h.1, by omega, ?_⟩
      have h3 := h.2.2
      rw [max_def] at h3 ⊢
      split_ifs at h3 ⊢ <;> omega
    · rw [mulFloat64.denormalize, if_neg hc]
      refine ⟨?_, le_refl _, le_max_left _ _⟩
      intro hm
      simp only [ne_eq] at hm
      omega

/-! ## The denormal gate -/

/-- C22: the denormal gate `exp <= FLOAT32_MANTISA_SIZE` is too broad.  The
Normal operand `2^-57` (`0x23000000`, exponent field 70, mantissa 0) squared
has the exact product `2^-114`, the Normal value `0x06800000` (exponent field
13, mantissa 0): in integers, `(2^23)^2 * 2^(70+70) = 2^23 * 2^(13+150)`.
`mulFloat32` reaches the final stage with `exp = 36`, `mant1 = 2^23`; the
rebiased exponent 13 passes the gate, the mantissa is shifted once more, and
the result is `0x06C00000`: exponent field 13, mantissa field `0x400000`. -/
theorem mulFloat32_denormal_gate_too_broad (c : Companion) :
    float32.isNormal ⟨0x23000000⟩ = true ∧ float32.isNormal ⟨0x06800000⟩ = true ∧
    (2 ^ 23 + float32.mantisa ⟨0x23000000⟩) * (2 ^ 23 + float32.mantisa ⟨0x23000000⟩)
        * 2 ^ (float32.exp ⟨0x23000000⟩ + float32.exp ⟨0x23000000⟩)
      = (2 ^ 23 + float32.mantisa ⟨0x06800000⟩) * 2 ^ (float32.exp ⟨0x06800000⟩ + 150) ∧
    mulFloat32.round (mulFloat32.normalize 13 (2 ^ 47)).1 (mulFloat32.normalize 13 (2 ^ 47)).2
      = (36, 2 ^ 23) ∧
    ((36 : Int) - FLOAT32_MANTISA_SIZE ≤ FLOAT32_MANTISA_SIZE) ∧
    mulFloat32 c ⟨0x23000000⟩ ⟨0x23000000⟩ = ⟨0x06C00000⟩ ∧
    float32.exp ⟨0x06C00000⟩ = 13 ∧ float32.mantisa ⟨0x06C00000⟩ = 0x400000 ∧
    (⟨0x06C00000⟩ : float32) ≠ ⟨0x06800000⟩ := by
  have hp : mulFloat32.product ⟨0x23000000⟩ ⟨0x23000000⟩
      (((float32.exp ⟨0x23000000⟩ + float32.exp ⟨0x23000000⟩ : Nat) : Int) - 127)
      = (13, 2 ^ 47) := by decide
  have hn : mulFloat32.normalize 13 (2 ^ 47) = (36, 2 ^ 24) := by
    rw [mulFloat32_normalize_exact 23 13 (2 ^ 47) (by decide) (by decide) (by decide)]
    decide
  have hr : mulFloat32.round 36 (2 ^ 24) = (36, 2 ^ 23) := by decide
  have hd : mulFloat32.denormalize (36 - (FLOAT32_MANTISA_SIZE : Int)) (2 ^ 23 >>> 1)
      = (13, 2 ^ 22) := mulFloat32_denormalize_stop_exp (by decide)
  have hf : mulFloat32.finish (float32.sign ⟨0x23000000⟩ ^^^ float32.sign ⟨0x23000000⟩)
      36 (2 ^ 23) = ⟨0x06C00000⟩ := by
    unfold mulFloat32.finish
    simp only [hd]
    decide
  refine ⟨by decide, by decide, by decide, ?_, by decide, ?_, by decide, by decide,
    by decide⟩
  · rw [hn]
    exact hr
  · rw [mulFloat32_normal_path c _ _ (by decide) (by decide) (by decide) (by decide)
      (by decide) (by decide), hp]
    simp only [hn, hr]
    exact hf

/-! ## Normal operands of `mulFloat32` up to the last exponent that fits -/

/-- The pipeline of `mulFloat32` on two Normal operands, as in
`mulFloat32_normal_core`, with the upper bound on the exponent sum that the
normalisation loop really needs: `E + 23 + s < 255`. -/
theorem mulFloat32_normal_core_wide (c : Companion) (a b : float32) (s : Nat)
    (ha : a.isNormal = true) (hb : b.isNormal = true)
    (hlo : 151 ≤ a.exp + b.exp) (hhi : a.exp + b.exp + s ≤ 358) (hs : s ≤ 1)
    (hq1 : 2 ^ (46 + s) ≤ (2 ^ 23 + a.mantisa) * (2 ^ 23 + b.mantisa))
    (hq2 : (2 ^ 23 + a.mantisa) * (2 ^ 23 + b.mantisa) < 2 ^ (47 + s)) :
    mulFloat32 c a b = float32.ofParts (a.sign ^^^ b.sign) (a.exp + b.exp - 127 + s)
      ((2 ^ 23 + a.mantisa) * (2 ^ 23 + b.mantisa) / 2 ^ (23 + s) % 2 ^ 23) := by
  have hea := float32_isNormal_exp ha
  have heb := float32_isNormal_exp hb
  rw [mulFloat32_normal_path c a b (isFloat32NaN_of_exp_ne (by omega))
    (isFloat32NaN_of_exp_ne (by omega)) (isFloat32Infinity_of_exp_ne (by omega))
    (isFloat32Infinity_of_exp_ne (by omega)) (by omega) (by omega),
    mulFloat32_product_normal a b _ hea.1 heb.1]
  generalize hQ : (2 ^ 23 + a.mantisa) * (2 ^ 23 + b.mantisa) = Q at hq1 hq2 ⊢
  have hp1 : 2 ^ (24 + (23 + s)) ≤ 2 * Q := by
    have : (2 : Nat) ^ (24 + (23 + s)) = 2 * 2 ^ (46 + s) := by
      rw [← pow_succ']; congr 1; omega
    omega
  have hp2 : 2 * Q < 2 ^ (25 + (23 + s)) := by
    have : (2 : Nat) ^ (25 + (23 + s)) = 2 * 2 ^ (47 + s) := by
      rw [← pow_succ']; congr 1; omega
    omega
  have hn := mulFloat32_normalize_exact (23 + s) (((a.exp + b.exp : Nat) : Int) - 127) (2 * Q)
    (by push_cast; omega) hp1 hp2
  have hdiv : 2 * Q / 2 ^ (23 + s) / 2 = Q / 2 ^ (23 + s) := by
    rw [Nat.div_div_eq_div_mul, Nat.mul_comm (2 ^ (23 + s)) 2,
      Nat.mul_div_mul_left _ _ (by decide : 0 < 2)]
  have hlt : 2 * Q / 2 ^ (23 + s) < 2 ^ 25 := by
    rw [Nat.div_lt_iff_lt_mul (Nat.pos_pow_of_pos _ (by decide)), ← pow_add]
    exact hp2
  simp only [hn]
  rw [mulFloat32_round_no_carry _ _ hlt]
  simp only [hdiv]
  rw [mulFloat32_finish_pack _ _ _ (by push_cast; omega) (by push_cast; omega)]
  rw [expField_of_nat 8 (a.exp + b.exp - 127 + s) _ (by push_cast; omega)
    (by norm_num; omega)]

theorem float32_ofParts_fields (w : float32) (hw : w.binary < 2 ^ 32) :
    float32.ofParts w.sign w.exp w.mantisa = w := by
  cases w with
  | mk n =>
    simp only [float32.ofParts, float32.sign, float32.exp, float32.mantisa,
      float32.mk.injEq] at hw ⊢
    omega

/-- C29: multiplicative identity at width 32.  For every Normal 32-bit `x`
with exponent field in `[24, 231]`, `mulFloat32 x 1.0` and `mulFloat32 1.0 x`
(`1.0 = 0x3F800000`) are the word `x` itself. -/
theorem mulFloat32_one_identity (c : Companion) (x : float32) (hw : x.binary < 2 ^ 32)
    (hx : x.isNormal = true) (hlo : 24 ≤ x.exp) (hhi : x.exp ≤ 231) :
    mulFloat32 c x ⟨0x3F800000⟩ = x ∧ mulFloat32 c ⟨0x3F800000⟩ x = x := by
  have h1e : float32.exp ⟨0x3F800000⟩ = 127 := by decide
  have h1m : float32.mantisa ⟨0x3F800000⟩ = 0 := by decide
  have h1s : float32.sign ⟨0x3F800000⟩ = 0 := by decide
  have hmx := float32_mantisa_lt x
  have hv : mulFloat32 c x ⟨0x3F800000⟩ = x := by
    rw [mulFloat32_normal_core_wide c x ⟨0x3F800000⟩ 0 hx (by decide)
      (by rw [h1e]; omega) (by rw [h1e]; omega) (by omega)
      (by rw [h1m]; norm_num; omega) (by rw [h1m]; norm_num; omega)]
    rw [h1e, h1m, h1s]
    have e1 : x.exp + 127 - 127 + 0 = x.exp := by omega
    have e2 : (2 ^ 23 + x.mantisa) * (2 ^ 23 + 0) / 2 ^ (23 + 0) % 2 ^ 23 = x.mantisa := by
      rw [Nat.add_zero, Nat.add_zero, Nat.mul_div_cancel _ (by norm_num : 0 < 2 ^ 23)]
      omega
    rw [e1, e2, Nat.xor_zero]
    exact float32_ofParts_fields x hw
  refine ⟨hv, ?_⟩
  have hex := float32_isNormal_exp hx
  rw [← mulFloat32_comm_finite c x ⟨0x3F800000⟩ (isFloat32NaN_of_exp_ne (by omega))
    (by decide) (isFloat32Infinity_of_exp_ne (by omega)) (by decide)]
  exact hv

/-- Witness: `x = -pi` rounded (`0xC0490FDB`, exponent field 128). -/
theorem mulFloat32_one_identity_witness :
    (0xC0490FDB : Nat) < 2 ^ 32 ∧ float32.isNormal ⟨0xC0490FDB⟩ = true ∧
    24 ≤ float32.exp ⟨0xC0490FDB⟩ ∧ float32.exp ⟨0xC0490FDB⟩ ≤ 231 ∧
    mulFloat32 Companion.ieee ⟨0xC0490FDB⟩ ⟨0x3F800000⟩ = ⟨0xC0490FDB⟩ ∧
    mulFloat32 Companion.ieee ⟨0x3F800000⟩ ⟨0xC0490FDB⟩ = ⟨0xC0490FDB⟩ :=
  ⟨by decide, by decide, by decide, by decide,
    mulFloat32_one_identity Companion.ieee ⟨0xC0490FDB⟩ (by decide) (by decide) (by decide)
      (by decide)⟩

/-! ## The final stage: exits and the packed exponent -/

theorem mulFloat32_finish_eq (s : Nat) (e : Int) (m : Nat) :
    mulFloat32.finish s e m =
      if e ≥ 255 then float32.ofParts s 255 0
      else if e - 23 ≤ 23 then
        if (mulFloat32.denormalize (e - 23) (m >>> 1)).2 = 0 then float32.ofParts s 0 0
        else float32.ofParts s (expField 8 (mulFloat32.denormalize (e - 23) (m >>> 1)).1)
          ((mulFloat32.denormalize (e - 23) (m >>> 1)).2 % 2 ^ 23)
      else float32.ofParts s (expField 8 (e - 23)) (m % 2 ^ 23) := by
  have e1 : ((FLOAT32_MAX_EXPONENT : Nat) : Int) = 255 := by decide
  have e2 : ((FLOAT32_MANTISA_SIZE : Nat) : Int) = 23 := by decide
  have e3 : (1 <<< FLOAT32_MANTISA_SIZE) - 1 = 2 ^ 23 - 1 := by decide
  unfold mulFloat32.finish
  simp only [e1, e2, e3, Nat.and_pow_two_sub_one_eq_mod]
  rfl

theorem mulFloat32_packExp_eq (e : Int) (m : Nat) :
    mulFloat32.packExp e m =
      if e ≥ 255 then none
      else if e - 23 ≤ 23 then
        if (mulFloat32.denormalize (e - 23) (m >>> 1)).2 = 0 then none
        else some (mulFloat32.denormalize (e - 23) (m >>> 1)).1
      else some (e - 23) := by
  have e1 : ((FLOAT32_MAX_EXPONENT : Nat) : Int) = 255 := by decide
  have e2 : ((FLOAT32_MANTISA_SIZE : Nat) : Int) = 23 := by decide
  unfold mulFloat32.packExp
  simp only [e1, e2]

theorem mulFloat64_finish_eq (s : Nat) (e : Int) (m : Nat) :
    mulFloat64.finish s e m =
      if e ≥ 2047 then float64.ofParts s 2047 0
      else if e - 52 ≤ 52 then
        if (mulFloat64.denormalize (e - 52) (m >>> 1)).2 = 0 then float64.ofParts s 0 0
        else float64.ofParts s (expField 11 (mulFloat64.denormalize (e - 52) (m >>> 1)).1)
          ((mulFloat64.denormalize (e - 52) (m >>> 1)).2 % 2 ^ 52)
      else float64.ofParts s (expField 11 (e - 52)) (m % 2 ^ 52) := by
  have e1 : ((FLOAT64_MAX_EXPONENT : Nat) : Int) = 2047 := by decide
  have e2 : ((FLOAT64_MANTISA_SIZE : Nat) : Int) = 52 := by decide
  have e3 : (1 <<< FLOAT64_MANTISA_SIZE) - 1 = 2 ^ 52 - 1 := by decide
  unfold mulFloat64.finish
  simp only [e1, e2, e3, Nat.and_pow_two_sub_one_eq_mod]
  rfl

theorem mulFloat64_packExp_eq (e : Int) (m : Nat) :
    mulFloat64.packExp e m =
      if e ≥ 2047 then none
      else if e - 52 ≤ 52 then
        if (mulFloat64.denormalize (e - 52) (m >>> 1)).2 = 0 then none
        else some (mulFloat64.denormalize (e - 52) (m >>> 1)).1
      else some (e - 52) := by
  have e1 : ((FLOAT64_MAX_EXPONENT : Nat) : Int) = 2047 := by decide
  have e2 : ((FLOAT64_MANTISA_SIZE : Nat) : Int) = 52 := by decide
  unfold mulFloat64.packExp
  simp only [e1, e2]

theorem expField_of_range (w : Nat) (x : Int) (h0 : 0 ≤ x) (h1 : x < 2 ^ w) :
    ((expField w x : Nat) : Int) = x := by
  unfold expField
  rw [Int.emod_eq_of_lt h0 h1, Int.toNat_of_nonneg h0]

/-- The working exponent at the final pack of `mulFloat32` lies in
`[0, 231]`, and it is the exponent field of the result. -/
theorem mulFloat32_packExp_bounds (s : Nat) (e : Int) (m : Nat) (x : Int)
    (h : mulFloat32.packExp e m = some x) :
    0 ≤ x ∧ x ≤ 231 ∧ ((mulFloat32.finish s e m).exp : Int) = x := by
  rw [mulFloat32_packExp_eq] at h
  rw [mulFloat32_finish_eq]
  by_cases h1 : e ≥ 255
  · simp only [h1, if_true] at h
    cases h
  · simp only [h1, if_false] at h ⊢
    by_cases h2 : e - 23 ≤ 23
    · simp only [h2, if_true] at h ⊢
      by_cases h3 : (mulFloat32.denormalize (e - 23) (m >>> 1)).2 = 0
      · simp only [h3, if_true] at h
        cases h
      · simp only [h3, if_false, Option.some.injEq] at h ⊢
        have hb := mulFloat32_denormalize_bounds (m >>> 1) (e - 23)
        have hx0 : 0 ≤ x := by rw [← h]; exact hb.1 h3
        have hx1 : x ≤ 23 := by
          have := hb.2.2
          rw [h, max_def] at this
          split_ifs at this <;> omega
        refine ⟨hx0, by omega, ?_⟩
        rw [float32_exp_ofParts, h]
        have hf := expField_of_range 8 x hx0 (by norm_num; omega)
        omega
    · simp only [h2, if_false, Option.some.injEq] at h ⊢
      subst h
      refine ⟨by omega, by omega, ?_⟩
      rw [float32_exp_ofParts]
      have hf := expField_of_range 8 (e - 23) (by omega) (by norm_num; omega)
      omega

/-- When `mulFloat32` returns before the final pack, the exponent field of
the result is 255 (late overflow) or 0 (zero mantissa). -/
theorem mulFloat32_packExp_none (s : Nat) (e : Int) (m : Nat)
    (h : mulFloat32.packExp e m = none) :
    (mulFloat32.finish s e m).exp = 255 ∨ (mulFloat32.finish s e m).exp = 0 := by
  rw [mulFloat32_packExp_eq] at h
  rw [mulFloat32_finish_eq]
  by_cases h1 : e ≥ 255
  · left
    simp only [h1, if_true]
    rw [float32_exp_ofParts]
  · right
    simp only [h1, if_false] at h ⊢
    by_cases h2 : e - 23 ≤ 23
    · simp only [h2, if_true] at h ⊢
      by_cases h3 : (mulFloat32.denormalize (e - 23) (m >>> 1)).2 = 0
      · simp only [h3, if_true]
        rw [float32_exp_ofParts]
      · simp only [h3, if_false] at h
        cases h
    · simp only [h2, if_false] at h
      cases h

/-- The working exponent at the final pack of `mulFloat64` lies in
`[0, 1994]`, and it is the exponent field of the result. -/
theorem mulFloat64_packExp_bounds (s : Nat) (e : Int) (m : Nat) (x : Int)
    (h : mulFloat64.packExp e m = some x) :
    0 ≤ x ∧ x ≤ 1994 ∧ ((mulFloat64.finish s e m).exp : Int) = x := by
  rw [mulFloat64_packExp_eq] at h
  rw [mulFloat64_finish_eq]
  by_cases h1 : e ≥ 2047
  · simp only [h1, if_true] at h
    cases h
  · simp only [h1, if_false] at h ⊢
    by_cases h2 : e - 52 ≤ 52
    · simp only [h2, if_true] at h ⊢
      by_cases h3 : (mulFloat64.denormalize (e - 52) (m >>> 1)).2 = 0
      · simp only [h3, if_true] at h
        cases h
      · simp only [h3, if_false, Option.some.injEq] at h ⊢
        have hb := mulFloat64_denormalize_bounds (m >>> 1) (e - 52)
        have hx0 : 0 ≤ x := by rw [← h]; exact hb.1 h3
        have hx1 : x ≤ 52 := by
          have := hb.2.2
          rw [h, max_def] at this
          split_ifs at this <;> omega
        refine ⟨hx0, by omega, ?_⟩
        rw [float64_exp_ofParts, h]
        have hf := expField_of_range 11 x hx0 (by norm_num; omega)
        omega
    · simp only [h2, if_false, Option.some.injEq] at h ⊢
      subst h
      refine ⟨by omega, by omega, ?_⟩
      rw [float64_exp_ofParts]
      have hf := expField_of_range 11 (e - 52) (by omega) (by norm_num; omega)
      omega

/-- C27: the exponent never overflows its field.  Whenever the final stage of
`mulFloat32` reaches the assignment `result.parts.exp = exp`, the working
exponent satisfies `0 ≤ exp < 255`, the 8-bit field keeps its value and the
exponent field of the result is that value; likewise `0 ≤ exp < 2047` and the
11-bit field for `mulFloat64`. -/
theorem working_exponent_fits_field :
    (∀ (s : Nat) (e : Int) (m : Nat) (x : Int), mulFloat32.packExp e m = some x →
      0 ≤ x ∧ x < 255 ∧ ((expField 8 x : Nat) : Int) = x ∧
        ((mulFloat32.finish s e m).exp : Int) = x) ∧
    (∀ (s : Nat) (e : Int) (m : Nat) (x : Int), mulFloat64.packExp e m = some x →
      0 ≤ x ∧ x < 2047 ∧ ((expField 11 x : Nat) : Int) = x ∧
        ((mulFloat64.finish s e m).exp : Int) = x) := by
  constructor
  · intro s e m x h
    have hb := mulFloat32_packExp_bounds s e m x h
    exact ⟨hb.1, by omega, expField_of_range 8 x hb.1 (by norm_num; omega), hb.2.2⟩
  · intro s e m x h
    have hb := mulFloat64_packExp_bounds s e m x h
    exact ⟨hb.1, by omega, expField_of_range 11 x hb.1 (by norm_num; omega), hb.2.2⟩

/-- Witness: the final stage of `2.0 * 3.0` at width 32 (`exp = 152`,
`mant1 = 3 * 2^22`, packed exponent 129) and of a width-64 state with
`exp = 1075`, `mant1 = 2^52` (packed exponent 1023). -/
theorem working_exponent_fits_field_witness :
    (mulFloat32.packExp 152 12582912 = some 129 ∧
      (0 : Int) ≤ 129 ∧ (129 : Int) < 255 ∧ ((expField 8 129 : Nat) : Int) = 129 ∧
      ((mulFloat32.finish 0 152 12582912).exp : Int) = 129) ∧
    (mulFloat64.packExp 1075 (2 ^ 52) = some 1023 ∧
      (0 : Int) ≤ 1023 ∧ (1023 : Int) < 2047 ∧ ((expField 11 1023 : Nat) : Int) = 1023 ∧
      ((mulFloat64.finish 0 1075 (2 ^ 52)).exp : Int) = 1023) :=
  ⟨⟨by decide, working_exponent_fits_field.1 0 152 12582912 129 (by decide)⟩,
    ⟨by decide, working_exponent_fits_field.2 0 1075 (2 ^ 52) 1023 (by decide)⟩⟩

/-! ## Overflow of `mulFloat32` on Normal operands -/

/-- The early overflow exit of `mulFloat32`. -/
theorem mulFloat32_early_overflow (c : Companion) (a b : float32)
    (hna : isFloat32NaN a = false) (hia : isFloat32Infinity a = false)
    (hnb : isFloat32NaN b = false) (hib : isFloat32Infinity b = false)
    (hexp : (a.exp : Int) + (b.exp : Int) - 127 ≥ 255) :
    mulFloat32 c a b = float32.ofParts (a.sign ^^^ b.sign) 255 0 := by
  have e2 : ((FLOAT32_BIAS : Nat) : Int) = 127 := by decide
  have e1 : ((FLOAT32_MAX_EXPONENT : Nat) : Int) = 255 := by decide
  have c1 : ((a.exp + b.exp : Nat) : Int) - 127 ≥ 255 := by push_cast; exact hexp
  unfold mulFloat32
  simp only [hna, hnb, hia, hib, Bool.or_self, Bool.false_eq_true, if_false, e1, e2, c1,
    if_true]
  rfl

/-- Lines 131-136 when the exponent has reached 255: no carry-absorb step. -/
theorem mulFloat32_round_at_max (e : Int) (m : Nat) (h : 255 ≤ e) :
    mulFloat32.round e m = (e, m >>> 1) := by
  have e1 : ((FLOAT32_MAX_EXPONENT : Nat) : Int) = 255 := by decide
  have hc : ¬ (e < (FLOAT32_MAX_EXPONENT : Int) ∧
      m >>> 1 ≥ 1 <<< (FLOAT32_MANTISA_SIZE + 1)) := by
    rw [e1]
    omega
  unfold mulFloat32.round
  simp only [hc, if_false]

/-- The normalisation loop stops at `exp = 255` on two Normal operands whose
exponent sum `E = a.exp + b.exp - 127` lies in `[232, 254]`, and the late
overflow exit returns Infinity. -/
theorem mulFloat32_late_overflow (c : Companion) (a b : float32)
    (ha : a.isNormal = true) (hb : b.isNormal = true)
    (hlo : 359 ≤ a.exp + b.exp) (hhi : a.exp + b.exp ≤ 381) :
    mulFloat32 c a b = float32.ofParts (a.sign ^^^ b.sign) 255 0 := by
  have hea := float32_isNormal_exp ha
  have heb := float32_isNormal_exp hb
  have hma := float32_mantisa_lt a
  have hmb := float32_mantisa_lt b
  rw [mulFloat32_normal_path c a b (isFloat32NaN_of_exp_ne (by omega))
    (isFloat32NaN_of_exp_ne (by omega)) (isFloat32Infinity_of_exp_ne (by omega))
    (isFloat32Infinity_of_exp_ne (by omega)) (by omega) (by omega),
    mulFloat32_product_normal a b _ hea.1 heb.1]
  have hq : 2 ^ 23 * 2 ^ 23 ≤ (2 ^ 23 + a.mantisa) * (2 ^ 23 + b.mantisa) :=
    Nat.mul_le_mul (by omega) (by omega)
  generalize (2 ^ 23 + a.mantisa) * (2 ^ 23 + b.mantisa) = Q at hq ⊢
  obtain ⟨k, hk⟩ : ∃ k, k + (a.exp + b.exp) = 382 := ⟨382 - (a.exp + b.exp), by omega⟩
  have hk23 : k ≤ 23 := by omega
  have hpow : 2 ^ (24 + k) ≤ 2 * Q := by
    have h1 : (2 : Nat) ^ (24 + k) ≤ 2 ^ 47 := Nat.pow_le_pow_right (by decide) (by omega)
    have h2 : (2 : Nat) ^ 23 * 2 ^ 23 = 2 ^ 46 := by norm_num
    have h3 : (2 : Nat) ^ 47 = 2 * 2 ^ 46 := by norm_num
    omega
  have hn : mulFloat32.normalize (((a.exp + b.exp : Nat) : Int) - 127) (2 * Q)
      = (((a.exp + b.exp : Nat) : Int) - 127 + k, 2 * Q / 2 ^ k) := by
    rw [mulFloat32_normalize_iter k _ _ (by push_cast; omega) (Or.inr hpow)]
    exact mulFloat32_normalize_stop_exp (by push_cast; omega)
  simp only [hn]
  rw [mulFloat32_round_at_max _ _ (by push_cast; omega), mulFloat32_finish_eq,
    if_pos (by push_cast; omega)]

theorem mulFloat32_finish_exp_range (s : Nat) (e : Int) (m : Nat) :
    (mulFloat32.finish s e m).exp = 255 ∨ (mulFloat32.finish s e m).exp ≤ 231 := by
  cases hp : mulFloat32.packExp e m with
  | none =>
    rcases mulFloat32_packExp_none s e m hp with h | h
    · left; exact h
    · right; omega
  | some x =>
    have hb := mulFloat32_packExp_bounds s e m x hp
    right
    omega

/-- The exponent field of every result of `mulFloat32` that is not the
pattern `FLOAT32_NAN`: 255, or at most 231. -/
theorem mulFloat32_exp_range (c : Companion) (a b : float32) :
    mulFloat32 c a b = c.FLOAT32_NAN ∨ (mulFloat32 c a b).exp = 255 ∨
      (mulFloat32 c a b).exp ≤ 231 := by
  by_cases hnan : (isFloat32NaN a || isFloat32NaN b) = true
  · by_cases hsa : isFloat32SigNaN c a = true
    · right; left
      have hea := (isFloat32NaN_fields (isFloat32SigNaN_isNaN hsa)).1
      unfold mulFloat32
      simp only [hnan, hsa, if_true]
      rw [float32_exp_ofParts, hea]
    · by_cases hsb : isFloat32SigNaN c b = true
      · right; left
        have heb := (isFloat32NaN_fields (isFloat32SigNaN_isNaN hsb)).1
        unfold mulFloat32
        simp only [hnan, hsa, hsb, if_true, Bool.false_eq_true, if_false]
        rw [float32_exp_ofParts, heb]
      · left
        unfold mulFloat32
        simp only [hnan, hsa, hsb, if_true, Bool.false_eq_true, if_false]
  · have hna : isFloat32NaN a = false := by
      cases h1 : isFloat32NaN a
      · rfl
      · simp [h1] at hnan
    have hnb : isFloat32NaN b = false := by
      cases h1 : isFloat32NaN b
      · rfl
      · simp [h1] at hnan
    by_cases hia : isFloat32Infinity a = true
    · have hf := isFloat32Infinity_fields hia
      by_cases hzb : isFloat32Zero b = true
      · left
        unfold mulFloat32
        simp only [hna, hnb, hia, hzb, Bool.or_self, Bool.false_eq_true, if_false, if_true]
      · right; left
        unfold mulFloat32
        simp only [hna, hnb, hia, hzb, Bool.or_self, Bool.false_eq_true, if_false, if_true]
        rw [float32_exp_ofParts, hf.1]
    · have hia2 : isFloat32Infinity a = false := by simpa using hia
      by_cases hib : isFloat32Infinity b = true
      · have hf := isFloat32Infinity_fields hib
        by_cases hza : isFloat32Zero a = true
        · left
          unfold mulFloat32
          simp only [hna, hnb, hia2, hib, hza, Bool.or_self, Bool.false_eq_true, if_false,
            if_true]
        · right; left
          unfold mulFloat32
          simp only [hna, hnb, hia2, hib, hza, Bool.or_self, Bool.false_eq_true, if_false,
            if_true]
          rw [float32_exp_ofParts, hf.1]
      · have hib2 : isFloat32Infinity b = false := by simpa using hib
        right
        by_cases ho : (a.exp : Int) + (b.exp : Int) - 127 ≥ 255
        · left
          rw [mulFloat32_early_overflow c a b hna hia2 hnb hib2 ho, float32_exp_ofParts]
        · by_cases hu : (a.exp : Int) + (b.exp : Int) - 127 < 0
          · right
            rw [mulFloat32_early_underflow c a b hna hia2 hnb hib2 hu, float32_exp_ofParts]
            decide
          · rw [mulFloat32_normal_path c a b hna hnb hia2 hib2 (by omega) (by omega)]
            exact mulFloat32_finish_exp_range _ _ _

/-- C28: premature overflow at width 32.  For all Normal `a`, `b` with
`a.exp + b.exp - 127 ≥ 232`, `mulFloat32` returns Infinity (exponent 255,
mantissa 0) with sign `a.sign XOR b.sign`.  This includes `2^60 * 2^60`
(`0x5D800000` squared), whose exact product `2^120` is the Normal value
`0x7B800000` (in integers, both values scaled by `2^150`:
`(2^23)^2 * 2^(187+187-150) = 2^23 * 2^247`) and which gives `0x7F800000`.  Every result of `mulFloat32` is the pattern
`FLOAT32_NAN`, or has exponent field 255, or has an exponent field of at most
231. -/
theorem mulFloat32_premature_overflow (c : Companion) :
    (∀ a b : float32, a.isNormal = true → b.isNormal = true →
      (a.exp : Int) + (b.exp : Int) - 127 ≥ 232 →
      (mulFloat32 c a b).sign = a.sign ^^^ b.sign ∧ (mulFloat32 c a b).exp = 255 ∧
        (mulFloat32 c a b).mantisa = 0) ∧
    (float32.isNormal ⟨0x5D800000⟩ = true ∧ float32.isNormal ⟨0x7B800000⟩ = true ∧
      (2 ^ 23 + float32.mantisa ⟨0x5D800000⟩) * (2 ^ 23 + float32.mantisa ⟨0x5D800000⟩)
          * 2 ^ (float32.exp ⟨0x5D800000⟩ + float32.exp ⟨0x5D800000⟩ - 150)
        = (2 ^ 23 + float32.mantisa ⟨0x7B800000⟩) * 2 ^ float32.exp ⟨0x7B800000⟩ ∧
      mulFloat32 c ⟨0x5D800000⟩ ⟨0x5D800000⟩ = ⟨0x7F800000⟩) ∧
    (∀ a b : float32, mulFloat32 c a b = c.FLOAT32_NAN ∨ (mulFloat32 c a b).exp = 255 ∨
      (mulFloat32 c a b).exp ≤ 231) := by
  have key : ∀ a b : float32, a.isNormal = true → b.isNormal = true →
      (a.exp : Int) + (b.exp : Int) - 127 ≥ 232 →
      mulFloat32 c a b = float32.ofParts (a.sign ^^^ b.sign) 255 0 := by
    intro a b ha hb hexp
    have hea := float32_isNormal_exp ha
    have heb := float32_isNormal_exp hb
    by_cases ho : (a.exp : Int) + (b.exp : Int) - 127 ≥ 255
    · exact mulFloat32_early_overflow c a b (isFloat32NaN_of_exp_ne (by omega))
        (isFloat32Infinity_of_exp_ne (by omega)) (isFloat32NaN_of_exp_ne (by omega))
        (isFloat32Infinity_of_exp_ne (by omega)) ho
    · exact mulFloat32_late_overflow c a b ha hb (by omega) (by omega)
  refine ⟨?_, ⟨by decide, by decide, by decide, ?_⟩, mulFloat32_exp_range c⟩
  · intro a b ha hb hexp
    rw [key a b ha hb hexp]
    exact ⟨by rw [float32_sign_ofParts, float32_xor_sign_mod],
      by rw [float32_exp_ofParts], by rw [float32_mantisa_ofParts]; rfl⟩
  · rw [key ⟨0x5D800000⟩ ⟨0x5D800000⟩ (by decide) (by decide) (by decide)]
    decide

/-- Witness: `2^105 * 2^1` (`0x74000000`, `0x40000000`), exponent sum
`232 + 128 - 127 = 233`, whose exact product `2^106` is representable. -/
theorem mulFloat32_premature_overflow_witness :
    float32.isNormal ⟨0x74000000⟩ = true ∧ float32.isNormal ⟨0x40000000⟩ = true ∧
    ((232 : Int) + 128 - 127 ≥ 232) ∧
    (mulFloat32 Companion.ieee ⟨0x74000000⟩ ⟨0x40000000⟩).sign = 0 ∧
    (mulFloat32 Companion.ieee ⟨0x74000000⟩ ⟨0x40000000⟩).exp = 255 ∧
    (mulFloat32 Companion.ieee ⟨0x74000000⟩ ⟨0x40000000⟩).mantisa = 0 :=
  ⟨by decide, by decide, by decide,
    (mulFloat32_premature_overflow Companion.ieee).1 ⟨0x74000000⟩ ⟨0x40000000⟩
      (by decide) (by decide) (by decide)⟩

/-! ## Subnormal results of `mulFloat32` -/

theorem float32_isSubnormal_fields {f : float32} (h : f.isSubnormal = true) :
    f.exp = 0 ∧ f.mantisa ≠ 0 := by
  simpa [float32.isSubnormal] using h

/-- Lines 103-120 on a first operand with exponent field 0 and a second one
with a non-zero exponent field. -/
theorem mulFloat32_product_subnormal_normal (a b : float32) (e : Int) (ha : a.exp = 0)
    (hb : 0 < b.exp) :
    mulFloat32.product a b e = (e + 1, 2 * (a.mantisa * (2 ^ 23 + b.mantisa))) := by
  have hma := float32_mantisa_lt a
  have hmb := float32_mantisa_lt b
  have h2 : b.mantisa ||| FLOAT32_HIDDEN_BIT_MASK = 2 ^ 23 + b.mantisa := by
    rw [FLOAT32_HIDDEN_BIT_MASK, hidden_bit_or hmb, Nat.add_comm]
  have h3 : (a.mantisa <<< 1) % 2 ^ 64 = 2 * a.mantisa := by
    rw [Nat.shiftLeft_eq]
    omega
  have h4 : a.mantisa * (2 ^ 23 + b.mantisa) < 2 ^ 23 * 2 ^ 24 :=
    Nat.mul_lt_mul'' hma (by omega)
  have h5 : (2 * a.mantisa * (2 ^ 23 + b.mantisa)) % 2 ^ 64
      = 2 * (a.mantisa * (2 ^ 23 + b.mantisa)) := by
    rw [Nat.mul_assoc]
    apply Nat.mod_eq_of_lt
    have : (2 : Nat) ^ 23 * 2 ^ 24 = 2 ^ 47 := by norm_num
    omega
  have ha0 : ¬ (a.exp > 0) := by omega
  unfold mulFloat32.product
  simp only [gt_iff_lt, ha0, hb, if_true, if_false, h2, h3, h5]

/-- A word of at least 25 bits has exactly `25 + k` bits for some `k`. -/
theorem exists_bit_length {p : Nat} (h : 2 ^ 24 ≤ p) :
    ∃ k, 2 ^ (24 + k) ≤ p ∧ p < 2 ^ (25 + k) := by
  have hp : p ≠ 0 := by
    have : 0 < 2 ^ 24 := by norm_num
    omega
  have h1 := Nat.pow_log_le_self 2 hp
  have h2 := Nat.lt_pow_succ_log_self (by decide : 1 < 2) p
  have h3 : 24 ≤ Nat.log 2 p := by
    by_contra hlt
    have h4 : Nat.log 2 p + 1 ≤ 24 := by omega
    have h5 : 2 ^ (Nat.log 2 p + 1) ≤ 2 ^ 24 := Nat.pow_le_pow_right (by decide) h4
    have h6 : p < 2 ^ 24 := lt_of_lt_of_le h2 h5
    omega
  refine ⟨Nat.log 2 p - 24, ?_, ?_⟩
  · have : 24 + (Nat.log 2 p - 24) = Nat.log 2 p := by omega
    rw [this]
    exact h1
  · have : 25 + (Nat.log 2 p - 24) = (Nat.log 2 p).succ := by omega
    rw [this]
    exact h2

/-- The whole pipeline of `mulFloat32` on a Subnormal `a` and a Normal `b`
with exponent field at least 127, when the product of the mantissa field of
`a` and the significand of `b` is below `2^(173 - b.exp)`. -/
theorem mulFloat32_subnormal_core (c : Companion) (a b : float32)
    (ha : a.isSubnormal = true) (hb : b.isNormal = true) (heb : 127 ≤ b.exp)
    (hq : a.mantisa * (2 ^ 23 + b.mantisa) < 2 ^ (173 - b.exp)) :
    mulFloat32 c a b = float32.ofParts (a.sign ^^^ b.sign) 0
      (a.mantisa * (2 ^ 23 + b.mantisa) / 2 ^ (150 - b.exp)) ∧
    0 < a.mantisa * (2 ^ 23 + b.mantisa) / 2 ^ (150 - b.exp) ∧
    a.mantisa * (2 ^ 23 + b.mantisa) / 2 ^ (150 - b.exp) < 2 ^ 23 := by
  have hfa := float32_isSubnormal_fields ha
  have hnb := float32_isNormal_exp hb
  have hma := float32_mantisa_lt a
  have hmb := float32_mantisa_lt b
  have hq0 : 2 ^ 23 ≤ a.mantisa * (2 ^ 23 + b.mantisa) := by
    have h1 : 1 * 2 ^ 23 ≤ a.mantisa * (2 ^ 23 + b.mantisa) :=
      Nat.mul_le_mul (by omega) (by omega)
    omega
  generalize hQ : a.mantisa * (2 ^ 23 + b.mantisa) = Q at hq hq0 ⊢
  -- the exponent field of `b` is at most 149
  have heb2 : b.exp ≤ 149 := by
    by_contra hgt
    have h1 : (2 : Nat) ^ (173 - b.exp) ≤ 2 ^ 23 := Nat.pow_le_pow_right (by decide) (by omega)
    omega
  -- the raw product `2 * Q` has `25 + k` bits
  obtain ⟨k, hk1, hk2⟩ := exists_bit_length (p := 2 * Q) (by omega)
  have hk3 : 24 + k < 174 - b.exp := by
    have h1 : (2 : Nat) ^ (174 - b.exp) = 2 * 2 ^ (173 - b.exp) := by
      rw [← pow_succ']; congr 1; omega
    have h2 : (2 : Nat) ^ (24 + k) < 2 ^ (174 - b.exp) := by omega
    exact (Nat.pow_lt_pow_iff_right (by decide : 1 < 2)).1 h2
  obtain ⟨j, hj⟩ : ∃ j, j + k + b.exp = 149 := ⟨149 - b.exp - k, by omega⟩
  -- the mantissa entering the denormal loop
  have hm0 : 2 ^ 22 ≤ 2 * Q / 2 ^ k / 2 / 2 := by
    rw [Nat.div_div_eq_div_mul, Nat.div_div_eq_div_mul,
      Nat.le_div_iff_mul_le (by positivity)]
    calc 2 ^ 22 * (2 ^ k * (2 * 2)) = 2 ^ (24 + k) := by ring
      _ ≤ 2 * Q := hk1
  have hj22 : (2 : Nat) ^ j ≤ 2 ^ 22 := Nat.pow_le_pow_right (by decide) (by omega)
  have hdiv : 2 * Q / 2 ^ k / 2 / 2 / 2 ^ j = Q / 2 ^ (150 - b.exp) := by
    have h150 : 150 - b.exp = k + 1 + j := by omega
    rw [Nat.div_div_eq_div_mul, Nat.div_div_eq_div_mul, Nat.div_div_eq_div_mul, h150]
    have h1 : 2 ^ k * (2 * (2 * 2 ^ j)) = 2 * 2 ^ (k + 1 + j) := by ring
    rw [h1, Nat.mul_div_mul_left _ _ (by decide : 0 < 2)]
  have hpos : 0 < Q / 2 ^ (150 - b.exp) := by
    rw [← hdiv]
    exact Nat.div_pos (le_trans hj22 hm0) (by positivity)
  have hlt : Q / 2 ^ (150 - b.exp) < 2 ^ 23 := by
    rw [Nat.div_lt_iff_lt_mul (by positivity), ← pow_add]
    have : 23 + (150 - b.exp) = 173 - b.exp := by omega
    rw [this]
    exact hq
  refine ⟨?_, hpos, hlt⟩
  rw [mulFloat32_normal_path c a b (isFloat32NaN_of_exp_ne (by omega))
    (isFloat32NaN_of_exp_ne (by omega)) (isFloat32Infinity_of_exp_ne (by omega))
    (isFloat32Infinity_of_exp_ne (by omega)) (by omega) (by omega),
    mulFloat32_product_subnormal_normal a b _ hfa.1 hnb.1, hQ]
  have hn := mulFloat32_normalize_exact k (((a.exp + b.exp : Nat) : Int) - 127 + 1) (2 * Q)
    (by push_cast; omega) hk1 hk2
  have hlt25 : 2 * Q / 2 ^ k < 2 ^ 25 := by
    rw [Nat.div_lt_iff_lt_mul (by positivity), ← pow_add]
    exact hk2
  simp only [hn]
  rw [mulFloat32_round_no_carry _ _ hlt25]
  simp only []
  have hden : mulFloat32.denormalize (((a.exp + b.exp : Nat) : Int) - 127 + 1 + k - 23)
      ((2 * Q / 2 ^ k / 2) >>> 1) = (0, Q / 2 ^ (150 - b.exp)) := by
    rw [Nat.shiftRight_eq_div_pow, pow_one,
      mulFloat32_denormalize_iter j _ _ (by push_cast; omega)
        (by
          rcases Nat.eq_zero_or_pos j with h0 | h0
          · left; exact h0
          · right
            exact le_trans (Nat.pow_le_pow_right (by decide) (by omega))
              (le_trans hj22 hm0)),
      hdiv]
    have he0 : ((a.exp + b.exp : Nat) : Int) - 127 + 1 + k - 23 + j = 0 := by
      push_cast; omega
    rw [he0]
    exact mulFloat32_denormalize_stop_exp (le_refl 0)
  rw [mulFloat32_finish_eq, if_neg (by push_cast; omega), if_pos (by push_cast; omega),
    hden]
  simp only []
  rw [if_neg (by omega), Nat.mod_eq_of_lt hlt]
  rfl

/-- C21: Subnormal results at width 32.  For every Subnormal `a` (mantissa
field `fa`) and Normal `b` with exponent field `eb ≥ 127` and significand
`mb = 2^23 + b.mantisa` such that `fa * mb < 2^(173 - eb)`, both
`mulFloat32 a b` and `mulFloat32 b a` have sign `a.sign XOR b.sign`, exponent
field 0 and mantissa field `fa * mb / 2^(150 - eb)` rounded down, the exact
product truncated toward zero to a subnormal; that mantissa is not 0, so the
denormal loop does not flush the result to zero. -/
theorem mulFloat32_subnormal_times_normal (c : Companion) (a b : float32)
    (ha : a.isSubnormal = true) (hb : b.isNormal = true) (heb : 127 ≤ b.exp)
    (hq : a.mantisa * (2 ^ 23 + b.mantisa) < 2 ^ (173 - b.exp)) :
    ((mulFloat32 c a b).sign = a.sign ^^^ b.sign ∧ (mulFloat32 c a b).exp = 0 ∧
      (mulFloat32 c a b).mantisa = a.mantisa * (2 ^ 23 + b.mantisa) / 2 ^ (150 - b.exp)) ∧
    ((mulFloat32 c b a).sign = a.sign ^^^ b.sign ∧ (mulFloat32 c b a).exp = 0 ∧
      (mulFloat32 c b a).mantisa = a.mantisa * (2 ^ 23 + b.mantisa) / 2 ^ (150 - b.exp)) ∧
    0 < a.mantisa * (2 ^ 23 + b.mantisa) / 2 ^ (150 - b.exp) := by
  obtain ⟨hv, hpos, hlt⟩ := mulFloat32_subnormal_core c a b ha hb heb hq
  have hfa := float32_isSubnormal_fields ha
  have hnb := float32_isNormal_exp hb
  have hcomm : mulFloat32 c b a = mulFloat32 c a b :=
    (mulFloat32_comm_finite c a b (isFloat32NaN_of_exp_ne (by omega))
      (isFloat32NaN_of_exp_ne (by omega)) (isFloat32Infinity_of_exp_ne (by omega))
      (isFloat32Infinity_of_exp_ne (by omega))).symm
  have hfields : (mulFloat32 c a b).sign = a.sign ^^^ b.sign ∧ (mulFloat32 c a b).exp = 0 ∧
      (mulFloat32 c a b).mantisa
        = a.mantisa * (2 ^ 23 + b.mantisa) / 2 ^ (150 - b.exp) := by
    rw [hv]
    exact ⟨by rw [float32_sign_ofParts, float32_xor_sign_mod],
      by rw [float32_exp_ofParts],
      by rw [float32_mantisa_ofParts, Nat.mod_eq_of_lt hlt]⟩
  refine ⟨hfields, ?_, hpos⟩
  rw [hcomm]
  exact hfields

/-- Witness: the negative Subnormal with mantissa field 5 (`0x80000005`) times
`1.5 * 2^10` (`0x44C00000`, exponent field 137): `5 * (3 * 2^22) / 2^13` is
`7680`. -/
theorem mulFloat32_subnormal_times_normal_witness :
    float32.isSubnormal ⟨0x80000005⟩ = true ∧ float32.isNormal ⟨0x44C00000⟩ = true ∧
    127 ≤ float32.exp ⟨0x44C00000⟩ ∧
    5 * (2 ^ 23 + 0x400000) < 2 ^ (173 - 137) ∧
    ((mulFloat32 Companion.ieee ⟨0x80000005⟩ ⟨0x44C00000⟩).sign = 1 ∧
      (mulFloat32 Companion.ieee ⟨0x80000005⟩ ⟨0x44C00000⟩).exp = 0 ∧
      (mulFloat32 Companion.ieee ⟨0x80000005⟩ ⟨0x44C00000⟩).mantisa = 7680) ∧
    ((mulFloat32 Companion.ieee ⟨0x44C00000⟩ ⟨0x80000005⟩).sign = 1 ∧
      (mulFloat32 Companion.ieee ⟨0x44C00000⟩ ⟨0x80000005⟩).exp = 0 ∧
      (mulFloat32 Companion.ieee ⟨0x44C00000⟩ ⟨0x80000005⟩).mantisa = 7680) ∧
    0 < 5 * (2 ^ 23 + 0x400000) / 2 ^ (150 - 137) :=
  ⟨by decide, by decide, by decide, by decide,
    mulFloat32_subnormal_times_normal Companion.ieee ⟨0x80000005⟩ ⟨0x44C00000⟩
      (by decide) (by decide) (by decide) (by decide)⟩

/-! ## `mul64integers`: what the result depends on -/

theorem low_half_eq (a : Nat) : (a &&& 0xFFFFFFFF) % 2 ^ 32 = a % 2 ^ 32 := by
  have h : (0xFFFFFFFF : Nat) = 2 ^ 32 - 1 := by norm_num
  rw [h, Nat.and_pow_two_sub_one_eq_mod, Nat.mod_mod]

theorem shifted_operand_eq (a : Nat) : (a <<< 32) % 2 ^ 64 = a % 2 ^ 32 * 2 ^ 32 := by
  have h : (2 : Nat) ^ 64 = 2 ^ 32 * 2 ^ 32 := by norm_num
  rw [Nat.shiftLeft_eq, h, Nat.mul_mod_mul_right]

/-- C32: `mul64integers` ignores the upper halves of its operands.  For all
`a`, `b`, `mul64integers a b = mul64integers (a mod 2^32) (b mod 2^32)`:
`alow`, `blow` are the low halves, and after `a <<= 32; b <<= 32` the
operands are the low halves times `2^32`. -/
theorem mul64integers_ignores_upper_halves (a b : Nat) :
    mul64integers a b = mul64integers (a % 2 ^ 32) (b % 2 ^ 32) := by
  unfold mul64integers
  simp only [low_half_eq, shifted_operand_eq, Nat.mod_mod]

/-- C33: `mul64integers` is symmetric.  For all `a`, `b`, `mul64integers a b`
and `mul64integers b a` are the same pair `(lo, hi)`: with `x`, `y` the low
halves, `low` is `x * y`, both middle terms are `(x * y * 2^32) mod 2^64` and
`high` starts from `(x * y * 2^64) mod 2^64`. -/
theorem mul64integers_symmetric (a b : Nat) :
    mul64integers a b = mul64integers b a := by
  unfold mul64integers
  simp only [low_half_eq, shifted_operand_eq]
  generalize a % 2 ^ 32 = x
  generalize b % 2 ^ 32 = y
  have m1 : x * 2 ^ 32 * y = x * y * 2 ^ 32 := by ring
  have m2 : x * (y * 2 ^ 32) = x * y * 2 ^ 32 := by ring
  have m3 : y * 2 ^ 32 * x = x * y * 2 ^ 32 := by ring
  have m4 : y * (x * 2 ^ 32) = x * y * 2 ^ 32 := by ring
  have m5 : y * 2 ^ 32 * (x * 2 ^ 32) = x * 2 ^ 32 * (y * 2 ^ 32) := by ring
  have m6 : y * x = x * y := Nat.mul_comm y x
  simp only [m1, m2, m3, m4, m5, m6]

/-! ## The carry-absorb step -/

/-- When the normalisation loop of `mulFloat32` ends, the exponent has
reached 255 or the mantissa is below `2^25`. -/
theorem mulFloat32_normalize_exit (m : Nat) : ∀ e : Int,
    255 ≤ (mulFloat32.normalize e m).1 ∨ (mulFloat32.normalize e m).2 < 2 ^ 25 := by
  induction m using Nat.strong_induction_on with
  | _ m ih =>
    intro e
    by_cases hc : e < 255 ∧ 2 ^ 25 ≤ m
    · rw [mulFloat32_normalize_step hc.1 hc.2]
      exact ih (m / 2) (by omega) (e + 1)
    · by_cases h1 : e < 255
      · have h2 : m < 2 ^ 25 := by omega
        rw [mulFloat32_normalize_stop_mant h2]
        right
        exact h2
      · rw [mulFloat32_normalize_stop_exp (by omega)]
        left
        show 255 ≤ e
        omega

theorem mulFloat64_normalize_stop_exp {exp : Int} {m : Nat} (h : 2047 ≤ exp) :
    mulFloat64.normalize exp m = (exp, m) := by
  rw [mulFloat64.normalize]
  have e2 : ((FLOAT64_MAX_EXPONENT : Nat) : Int) = 2047 := by decide
  rw [e2, if_neg]
  omega

theorem mulFloat64_normalize_step {exp : Int} {m : Nat} (h1 : exp < 2047)
    (h2 : 2 ^ 54 ≤ m) :
    mulFloat64.normalize exp m = mulFloat64.normalize (exp + 1) (m / 2) := by
  rw [mulFloat64.normalize]
  have e1 : 1 <<< (FLOAT64_MANTISA_SIZE + 2) = 2 ^ 54 := by decide
  have e2 : ((FLOAT64_MAX_EXPONENT : Nat) : Int) = 2047 := by decide
  rw [e1, e2, if_pos ⟨h1, h2⟩, Nat.shiftRight_eq_div_pow, pow_one]

/-- When the normalisation loop of `mulFloat64` ends, the exponent has
reached 2047 or the mantissa is below `2^54`. -/
theorem mulFloat64_normalize_exit (m : Nat) : ∀ e : Int,
    2047 ≤ (mulFloat64.normalize e m).1 ∨ (mulFloat64.normalize e m).2 < 2 ^ 54 := by
  induction m using Nat.strong_induction_on with
  | _ m ih =>
    intro e
    by_cases hc : e < 2047 ∧ 2 ^ 54 ≤ m
    · rw [mulFloat64_normalize_step hc.1 hc.2]
      exact ih (m / 2) (by omega) (e + 1)
    · by_cases h1 : e < 2047
      · have h2 : m < 2 ^ 54 := by omega
        rw [mulFloat64_normalize_stop_mant h2]
        right
        exact h2
      · rw [mulFloat64_normalize_stop_exp (by omega)]
        left
        show 2047 ≤ e
        omega

/-- C35: the carry-absorb step is dead code at both widths.  From every state
`(exp, mant1)` entering the normalisation loop of `mulFloat32`
(`mulFloat64`), after the loop and the one-bit shift the condition
`exp < FLOAT32_MAX_EXPONENT && mant1 >= (1 << (FLOAT32_MANTISA_SIZE + 1))`
(resp. the width-64 one) is false, so lines 131-136 (280-285) only shift the
mantissa right by one. -/
theorem carry_absorb_dead :
    (∀ (e : Int) (m : Nat),
      ¬ ((mulFloat32.normalize e m).1 < (FLOAT32_MAX_EXPONENT : Int) ∧
        (mulFloat32.normalize e m).2 >>> 1 ≥ 1 <<< (FLOAT32_MANTISA_SIZE + 1)) ∧
      mulFloat32.round (mulFloat32.normalize e m).1 (mulFloat32.normalize e m).2
        = ((mulFloat32.normalize e m).1, (mulFloat32.normalize e m).2 >>> 1)) ∧
    (∀ (e : Int) (m : Nat),
      ¬ ((mulFloat64.normalize e m).1 < (FLOAT64_MAX_EXPONENT : Int) ∧
        (mulFloat64.normalize e m).2 >>> 1 ≥ 1 <<< (FLOAT64_MANTISA_SIZE + 1)) ∧
      mulFloat64.round (mulFloat64.normalize e m).1 (mulFloat64.normalize e m).2
        = ((mulFloat64.normalize e m).1, (mulFloat64.normalize e m).2 >>> 1)) := by
  constructor
  · intro e m
    have hx := mulFloat32_normalize_exit m e
    have e1 : ((FLOAT32_MAX_EXPONENT : Nat) : Int) = 255 := by decide
    have e2 : 1 <<< (FLOAT32_MANTISA_SIZE + 1) = 2 ^ 24 := by decide
    have hc : ¬ ((mulFloat32.normalize e m).1 < (FLOAT32_MAX_EXPONENT : Int) ∧
        (mulFloat32.normalize e m).2 >>> 1 ≥ 1 <<< (FLOAT32_MANTISA_SIZE + 1)) := by
      rw [e1, e2, Nat.shiftRight_eq_div_pow]
      omega
    refine ⟨hc, ?_⟩
    unfold mulFloat32.round
    simp only [hc, if_false]
  · intro e m
    have hx := mulFloat64_normalize_exit m e
    have e1 : ((FLOAT64_MAX_EXPONENT : Nat) : Int) = 2047 := by decide
    have e2 : 1 <<< (FLOAT64_MANTISA_SIZE + 1) = 2 ^ 53 := by decide
    have hc : ¬ ((mulFloat64.normalize e m).1 < (FLOAT64_MAX_EXPONENT : Int) ∧
        (mulFloat64.normalize e m).2 >>> 1 ≥ 1 <<< (FLOAT64_MANTISA_SIZE + 1)) := by
      rw [e1, e2, Nat.shiftRight_eq_div_pow]
      omega
    refine ⟨hc, ?_⟩
    unfold mulFloat64.round
    simp only [hc, if_false]

/-! ## The low word in the merge loop of `mulFloat64` -/

theorem and_two_pow_of_lt {x n : Nat} (h : x < 2 ^ n) : x &&& 2 ^ n = 0 := by
  apply Nat.eq_of_testBit_eq
  intro i
  rw [Nat.testBit_and, Nat.testBit_two_pow, Nat.zero_testBit]
  by_cases hi : n = i
  · subst hi
    rw [Nat.testBit_lt_two_pow h]
    rfl
  · simp [hi]

/-- One turn of the merge loop on a 64-bit low word: bit 63 of `lo >> 1` is
clear, so the AND with `(hi & 1) << 63` leaves 0. -/
theorem merge_turn_clears_low (lo hi : Nat) (h : lo < 2 ^ 64) :
    (lo >>> 1) &&& (((hi &&& 0x1) <<< 63) % 2 ^ 64) = 0 := by
  have h1 : lo >>> 1 < 2 ^ 63 := by
    rw [Nat.shiftRight_eq_div_pow]
    omega
  rw [Nat.and_one_is_mod]
  rcases Nat.mod_two_eq_zero_or_one hi with h2 | h2
  · rw [h2]
    simp
  · rw [h2]
    have h3 : (1 <<< 63) % 2 ^ 64 = 2 ^ 63 := by decide
    rw [h3]
    exact and_two_pow_of_lt h1

theorem mulFloat64_merge_step {e : Int} {m1 m2 : Nat} (h1 : e < 2047) (h2 : 0 < m2) :
    mulFloat64.merge e m1 m2
      = mulFloat64.merge (e + 1) ((m1 >>> 1) &&& (((m2 &&& 0x1) <<< 63) % 2 ^ 64))
          (m2 >>> 1) := by
  have e1 : ((FLOAT64_MAX_EXPONENT : Nat) : Int) = 2047 := by decide
  rw [mulFloat64.merge, e1, if_pos ⟨h1, h2⟩]

/-- The merge loop keeps a low word that is 0. -/
theorem mulFloat64_merge_zero_low (m2 : Nat) : ∀ e : Int,
    (mulFloat64.merge e 0 m2).2.1 = 0 := by
  induction m2 using Nat.strong_induction_on with
  | _ m2 ih =>
    intro e
    by_cases hc : e < 2047 ∧ 0 < m2
    · rw [mulFloat64_merge_step hc.1 hc.2, Nat.zero_shiftRight, Nat.zero_and]
      exact ih (m2 >>> 1) (shiftRight_one_lt hc.2) (e + 1)
    · have e1 : ((FLOAT64_MAX_EXPONENT : Nat) : Int) = 2047 := by decide
      rw [mulFloat64.merge, e1, if_neg hc]

/-- The merge loop entered with a non-zero high word ends with the low word 0. -/
theorem mulFloat64_merge_low_lost (e : Int) (lo hi : Nat) (h1 : e < 2047) (h2 : 0 < hi)
    (h3 : lo < 2 ^ 64) : (mulFloat64.merge e lo hi).2.1 = 0 := by
  rw [mulFloat64_merge_step h1 h2, merge_turn_clears_low lo hi h3]
  exact mulFloat64_merge_zero_low _ _

theorem mul64integers_lo_lt (a b : Nat) : (mul64integers a b).1 < 2 ^ 64 := by
  unfold mul64integers
  exact Nat.mod_lt _ (by norm_num)

/-- Lines 239-256: the exponent after the two compensations, and the bound on
the low word that `mul64integers` returns. -/
theorem mulFloat64_product_exp_lo (a b : float64) (e : Int) :
    (mulFloat64.product a b e).1
      = e + (if a.exp > 0 then 0 else 1) + (if b.exp > 0 then 0 else 1) ∧
    (mulFloat64.product a b e).2.1 < 2 ^ 64 := by
  unfold mulFloat64.product
  by_cases ha : a.exp > 0 <;> by_cases hb : b.exp > 0 <;>
    simp only [ha, hb, if_true, if_false, add_zero] <;>
    exact ⟨trivial, mul64integers_lo_lt _ _⟩

theorem float64_exp_ne_of_finite {f : float64} (hn : isFloat64NaN f = false)
    (hi : isFloat64Infinity f = false) : f.exp ≠ 2047 := by
  intro h
  by_cases hm : f.mantisa = 0
  · simp [isFloat64Infinity, FLOAT64_MAX_EXPONENT, h, hm] at hi
  · simp [isFloat64NaN, FLOAT64_MAX_EXPONENT, h, hm] at hn

theorem mulFloat64_denormalize_stop_mant (e : Int) :
    mulFloat64.denormalize e 0 = (e, 0) := by
  rw [mulFloat64.denormalize, if_neg]
  omega

/-- The final stage of `mulFloat64` on a mantissa word 0: every exit leaves
the mantissa field 0. -/
theorem mulFloat64_finish_zero_mantisa (s : Nat) (e : Int) :
    (mulFloat64.finish s e 0).mantisa = 0 := by
  rw [mulFloat64_finish_eq, Nat.zero_shiftRight, mulFloat64_denormalize_stop_mant]
  simp only [if_true, Nat.zero_mod]
  split_ifs <;> rw [float64_mantisa_ofParts] <;> rfl

theorem mulFloat64_round_zero (e : Int) : mulFloat64.round e 0 = (e, 0) := by
  have e2 : 1 <<< (FLOAT64_MANTISA_SIZE + 1) = 2 ^ 53 := by decide
  unfold mulFloat64.round
  simp only [Nat.zero_shiftRight, e2]
  rw [if_neg]
  omega

/-- C34: loss of the low word in `mulFloat64`.  For all finite operands
(neither NaN nor Infinity) that reach the mantissa product
(`0 ≤ a.exp + b.exp - 1023 < 2047`), if the high word returned by
`mul64integers` is not 0, then the merge loop is entered, its first turn
leaves the low word 0, and the mantissa field of the result is 0. -/
theorem mulFloat64_low_word_lost (c : Companion) (a b : float64)
    (hna : isFloat64NaN a = false) (hia : isFloat64Infinity a = false)
    (hnb : isFloat64NaN b = false) (hib : isFloat64Infinity b = false)
    (h0 : 0 ≤ (a.exp : Int) + (b.exp : Int) - 1023)
    (h1 : (a.exp : Int) + (b.exp : Int) - 1023 < 2047)
    (hhi : (mulFloat64.product a b ((a.exp : Int) + (b.exp : Int) - 1023)).2.2 ≠ 0) :
    mulFloat64.mergeCond (mulFloat64.product a b ((a.exp : Int) + (b.exp : Int) - 1023))
      = true ∧
    (mulFloat64.mergeBody
      (mulFloat64.product a b ((a.exp : Int) + (b.exp : Int) - 1023))).2.1 = 0 ∧
    (mulFloat64 c a b).mantisa = 0 := by
  have hE : ((a.exp + b.exp : Nat) : Int) - 1023 = (a.exp : Int) + (b.exp : Int) - 1023 := by
    push_cast
    ring
  have hea := float64_exp_ne_of_finite hna hia
  have heb := float64_exp_ne_of_finite hnb hib
  have hla := float64_exp_lt a
  have hlb := float64_exp_lt b
  have hpe := mulFloat64_product_exp_lo a b ((a.exp : Int) + (b.exp : Int) - 1023)
  rcases hp : mulFloat64.product a b ((a.exp : Int) + (b.exp : Int) - 1023)
    with ⟨e, lo, hi⟩
  rw [hp] at hhi hpe
  simp only [ne_eq] at hhi hpe
  have hhi0 : 0 < hi := Nat.pos_of_ne_zero hhi
  have he : e < 2047 := by
    have h := hpe.1
    split_ifs at h <;> omega
  have e1 : ((FLOAT64_MAX_EXPONENT : Nat) : Int) = 2047 := by decide
  refine ⟨?_, ?_, ?_⟩
  · simp only [mulFloat64.mergeCond, e1, decide_eq_true_eq]
    exact ⟨he, hhi0⟩
  · simp only [mulFloat64.mergeBody]
    exact merge_turn_clears_low lo hi hpe.2
  · rw [mulFloat64_normal_path c a b hna hnb hia hib (by omega) (by omega) e lo hi
      (by rw [hE]; exact hp)]
    have hM := mulFloat64_merge_low_lost e lo hi he hhi0 hpe.2
    rw [hM, mulFloat64_normalize_stop_mant (by norm_num : (0 : Nat) < 2 ^ 54)]
    simp only [mulFloat64_round_zero]
    exact mulFloat64_finish_zero_mantisa _ _

/-- Witness: `a = b = 0x3FF0000000000001`, where `mul64integers` returns the
high word 4. -/
theorem mulFloat64_low_word_lost_witness :
    isFloat64NaN ⟨0x3FF0000000000001⟩ = false ∧
    isFloat64Infinity ⟨0x3FF0000000000001⟩ = false ∧
    (0 ≤ (1023 : Int) + 1023 - 1023) ∧ ((1023 : Int) + 1023 - 1023 < 2047) ∧
    (mulFloat64.product ⟨0x3FF0000000000001⟩ ⟨0x3FF0000000000001⟩ 1023).2.2 = 4 ∧
    mulFloat64.mergeCond
      (mulFloat64.product ⟨0x3FF0000000000001⟩ ⟨0x3FF0000000000001⟩ 1023) = true ∧
    (mulFloat64.mergeBody
      (mulFloat64.product ⟨0x3FF0000000000001⟩ ⟨0x3FF0000000000001⟩ 1023)).2.1 = 0 ∧
    (mulFloat64 Companion.ieee ⟨0x3FF0000000000001⟩ ⟨0x3FF0000000000001⟩).mantisa = 0 :=
  ⟨by decide, by decide, by decide, by decide, by decide,
    mulFloat64_low_word_lost Companion.ieee ⟨0x3FF0000000000001⟩ ⟨0x3FF0000000000001⟩
      (by decide) (by decide) (by decide) (by decide) (by decide) (by decide) (by decide)⟩

/-! ## Finite operands never give a NaN -/

/-- Every exit of the final stage of `mulFloat32` leaves an exponent field
below 255 or a mantissa field 0. -/
theorem mulFloat32_finish_not_nan (s : Nat) (e : Int) (m : Nat) :
    (mulFloat32.finish s e m).exp < 255 ∨ (mulFloat32.finish s e m).mantisa = 0 := by
  cases hp : mulFloat32.packExp e m with
  | some x =>
    have hb := mulFloat32_packExp_bounds s e m x hp
    left
    omega
  | none =>
    rw [mulFloat32_packExp_eq] at hp
    rw [mulFloat32_finish_eq]
    by_cases h1 : e ≥ 255
    · right
      simp only [h1, if_true]
      rw [float32_mantisa_ofParts]
      rfl
    · left
      simp only [h1, if_false] at hp ⊢
      by_cases h2 : e - 23 ≤ 23
      · simp only [h2, if_true] at hp ⊢
        by_cases h3 : (mulFloat32.denormalize (e - 23) (m >>> 1)).2 = 0
        · simp only [h3, if_true]
          rw [float32_exp_ofParts]
          decide
        · simp only [h3, if_false] at hp
          cases hp
      · simp only [h2, if_false] at hp
        cases hp

/-- Every exit of the final stage of `mulFloat64` leaves an exponent field
below 2047 or a mantissa field 0. -/
theorem mulFloat64_finish_not_nan (s : Nat) (e : Int) (m : Nat) :
    (mulFloat64.finish s e m).exp < 2047 ∨ (mulFloat64.finish s e m).mantisa = 0 := by
  cases hp : mulFloat64.packExp e m with
  | some x =>
    have hb := mulFloat64_packExp_bounds s e m x hp
    left
    omega
  | none =>
    rw [mulFloat64_packExp_eq] at hp
    rw [mulFloat64_finish_eq]
    by_cases h1 : e ≥ 2047
    · right
      simp only [h1, if_true]
      rw [float64_mantisa_ofParts]
      rfl
    · left
      simp only [h1, if_false] at hp ⊢
      by_cases h2 : e - 52 ≤ 52
      · simp only [h2, if_true] at hp ⊢
        by_cases h3 : (mulFloat64.denormalize (e - 52) (m >>> 1)).2 = 0
        · simp only [h3, if_true]
          rw [float64_exp_ofParts]
          decide
        · simp only [h3, if_false] at hp
          cases hp
      · simp only [h2, if_false] at hp
        cases hp

theorem isFloat32NaN_false_of {f : float32} (h : f.exp < 255 ∨ f.mantisa = 0) :
    isFloat32NaN f = false := by
  rcases h with h | h
  · exact isFloat32NaN_of_exp_ne (by omega)
  · exact isFloat32NaN_of_mantisa_zero h

theorem isFloat64NaN_false_of {f : float64} (h : f.exp < 2047 ∨ f.mantisa = 0) :
    isFloat64NaN f = false := by
  rcases h with h | h
  · exact isFloat64NaN_of_exp_ne (by omega)
  · exact isFloat64NaN_of_mantisa_zero h

theorem mulFloat32_finite_fields (c : Companion) (a b : float32)
    (hna : isFloat32NaN a = false) (hia : isFloat32Infinity a = false)
    (hnb : isFloat32NaN b = false) (hib : isFloat32Infinity b = false) :
    (mulFloat32 c a b).exp < 255 ∨ (mulFloat32 c a b).mantisa = 0 := by
  by_cases ho : (a.exp : Int) + (b.exp : Int) - 127 ≥ 255
  · right
    rw [mulFloat32_early_overflow c a b hna hia hnb hib ho, float32_mantisa_ofParts]
    rfl
  · by_cases hu : (a.exp : Int) + (b.exp : Int) - 127 < 0
    · right
      rw [mulFloat32_early_underflow c a b hna hia hnb hib hu, float32_mantisa_ofParts]
      rfl
    · rw [mulFloat32_normal_path c a b hna hnb hia hib (by omega) (by omega)]
      exact mulFloat32_finish_not_nan _ _ _

theorem mulFloat64_finite_fields (c : Companion) (a b : float64)
    (hna : isFloat64NaN a = false) (hia : isFloat64Infinity a = false)
    (hnb : isFloat64NaN b = false) (hib : isFloat64Infinity b = false) :
    (mulFloat64 c a b).exp < 2047 ∨ (mulFloat64 c a b).mantisa = 0 := by
  by_cases ho : (a.exp : Int) + (b.exp : Int) - 1023 ≥ 2047
  · right
    rw [mulFloat64_early_overflow c a b hna hia hnb hib ho, float64.setSign,
      float64_mantisa_ofParts]
    decide
  · by_cases hu : (a.exp : Int) + (b.exp : Int) - 1023 < 0
    · right
      rw [mulFloat64_early_underflow c a b hna hia hnb hib hu, float64_mantisa_ofParts]
      rfl
    · rcases hp : mulFloat64.product a b (((a.exp + b.exp : Nat) : Int) - 1023)
        with ⟨e, lo, hi⟩
      rw [mulFloat64_normal_path c a b hna hnb hia hib (by omega) (by omega) e lo hi hp]
      exact mulFloat64_finish_not_nan _ _ _

/-- C31: finite operands never produce a NaN.  At each width, if neither
operand is a NaN or an Infinity, the exponent field of the result is below
the maximum code (255, resp. 2047) or its mantissa field is 0: the result is
not a NaN. -/
theorem mulFloat_finite_not_nan (c : Companion) :
    (∀ a b : float32, isFloat32NaN a = false → isFloat32Infinity a = false →
      isFloat32NaN b = false → isFloat32Infinity b = false →
      ((mulFloat32 c a b).exp < 255 ∨ (mulFloat32 c a b).mantisa = 0) ∧
        isFloat32NaN (mulFloat32 c a b) = false) ∧
    (∀ a b : float64, isFloat64NaN a = false → isFloat64Infinity a = false →
      isFloat64NaN b = false → isFloat64Infinity b = false →
      ((mulFloat64 c a b).exp < 2047 ∨ (mulFloat64 c a b).mantisa = 0) ∧
        isFloat64NaN (mulFloat64 c a b) = false) := by
  constructor
  · intro a b hna hia hnb hib
    have h := mulFloat32_finite_fields c a b hna hia hnb hib
    exact ⟨h, isFloat32NaN_false_of h⟩
  · intro a b hna hia hnb hib
    have h := mulFloat64_finite_fields c a b hna hia hnb hib
    exact ⟨h, isFloat64NaN_false_of h⟩

/-- Witness: `2^127 * 2^127` at width 32 (`0x7F000000`, early overflow) and
`1.0 * 1.0` at width 64 (`0x3FF0000000000000`). -/
theorem mulFloat_finite_not_nan_witness :
    (isFloat32NaN ⟨0x7F000000⟩ = false ∧ isFloat32Infinity ⟨0x7F000000⟩ = false ∧
      ((mulFloat32 Companion.ieee ⟨0x7F000000⟩ ⟨0x7F000000⟩).exp < 255 ∨
        (mulFloat32 Companion.ieee ⟨0x7F000000⟩ ⟨0x7F000000⟩).mantisa = 0) ∧
      isFloat32NaN (mulFloat32 Companion.ieee ⟨0x7F000000⟩ ⟨0x7F000000⟩) = false) ∧
    (isFloat64NaN ⟨0x3FF0000000000000⟩ = false ∧
      isFloat64Infinity ⟨0x3FF0000000000000⟩ = false ∧
      ((mulFloat64 Companion.ieee ⟨0x3FF0000000000000⟩ ⟨0x3FF0000000000000⟩).exp < 2047 ∨
        (mulFloat64 Companion.ieee ⟨0x3FF0000000000000⟩ ⟨0x3FF0000000000000⟩).mantisa = 0) ∧
      isFloat64NaN (mulFloat64 Companion.ieee ⟨0x3FF0000000000000⟩ ⟨0x3FF0000000000000⟩)
        = false) :=
  ⟨⟨by decide, by decide,
      (mulFloat_finite_not_nan Companion.ieee).1 ⟨0x7F000000⟩ ⟨0x7F000000⟩
        (by decide) (by decide) (by decide) (by decide)⟩,
    ⟨by decide, by decide,
      (mulFloat_finite_not_nan Companion.ieee).2 ⟨0x3FF0000000000000⟩ ⟨0x3FF0000000000000⟩
        (by decide) (by decide) (by decide) (by decide)⟩⟩

end SoftFloat
